import Mathlib

namespace WebServer

/-! # A shallow embedding of the HTTP connection state machine (`src/http/http_conn.cpp`)

Bytes are natural numbers (0..255).  The fixed buffers of the connection object
(`m_read_buf`, `m_write_buf`, `m_real_file`) are modelled as functions from an
integer offset to the byte stored there; a `char*` that points into a buffer is
the integer offset from the start of that buffer, `none` being the null pointer.
Cursors that the source declares as `long` / `int` are integers.

Operations whose C behaviour is undefined at some input (a write outside a
fixed buffer, a dereference of a null pointer) return `Except.error` with the
fault that was hit.
-/

/-! ## Bytes, strings and buffers -/

/-- The bytes of a string literal. -/
def bytes (s : String) : List Nat := s.toList.map Char.toNat

/-- A buffer: the byte stored at each offset. -/
abbrev Mem := Int → Nat

/-- The buffer that `memset(buf, 0, size)` leaves behind. -/
def Mem.zero : Mem := fun _ => 0

/-- Store one byte: `buf[i] = v`. -/
def Mem.set (m : Mem) (i : Int) (v : Nat) : Mem :=
  fun j => if j = i then v else m j

/-- Store the bytes `d` at offsets `off, off+1, ...`. -/
def Mem.write (m : Mem) (off : Int) (d : List Nat) : Mem :=
  fun j => if off ≤ j ∧ j < off + d.length then d.getD (j - off).toNat 0 else m j

/-- The `n` bytes stored at offsets `off, off+1, ...`. -/
def Mem.read (m : Mem) (off : Int) : Nat → List Nat
  | 0 => []
  | n + 1 => m off :: Mem.read m (off + 1) n

/-- The bytes from offset `p` up to, not including, the first NUL; at most `fuel` bytes. -/
def cstr_aux (m : Mem) (p : Int) : Nat → List Nat
  | 0 => []
  | fuel + 1 => if m p = 0 then [] else m p :: cstr_aux m (p + 1) fuel

/-- The C string that starts at offset `p` of a buffer of `size` bytes. -/
def cstr (size : Int) (m : Mem) (p : Int) : List Nat :=
  cstr_aux m p (size - p).toNat

/-- The C string held by a byte array such as `char name[100]`: the bytes before the first NUL. -/
def cstr_of (l : List Nat) : List Nat := l.takeWhile (fun b => b != 0)

/-- The function `tolower` of the C locale. -/
def tolower (b : Nat) : Nat := if 65 ≤ b ∧ b ≤ 90 then b + 32 else b

/-- The function `isspace` of the C locale. -/
def isspace (b : Nat) : Bool := b == 32 || (9 ≤ b && b ≤ 13)

/-- The function `isdigit`. -/
def isdigit (b : Nat) : Bool := 48 ≤ b && b ≤ 57

/-- The test `strcasecmp(s, lit) == 0` on two strings. -/
def strcasecmp_eq (s lit : List Nat) : Bool := s.map tolower == lit.map tolower

/-- The test `strncasecmp(s, lit, n) == 0` on two strings. -/
def strncasecmp_eq (s lit : List Nat) (n : Nat) : Bool :=
  (s.take n).map tolower == (lit.take n).map tolower

/-- The function `strpbrk(s, accept)`: offset in `s` of the first byte that occurs in `accept`. -/
def strpbrk (s accept : List Nat) : Option Nat :=
  let k := s.findIdx (fun b => accept.contains b)
  if k < s.length then some k else none

/-- The function `strspn(s, accept)`: length of the longest initial part of `s` made of bytes of `accept`. -/
def strspn (s accept : List Nat) : Nat := (s.takeWhile (fun b => accept.contains b)).length

/-- The function `strchr(s, ch)` for a byte `ch` other than NUL: offset of its first occurrence. -/
def strchr (s : List Nat) (ch : Nat) : Option Nat :=
  let k := s.findIdx (fun b => b == ch)
  if k < s.length then some k else none

/-- Worker of `strrchr`: `i` is the offset of the head of the list, `last` the last occurrence seen. -/
def strrchr_aux (ch : Nat) : List Nat → Nat → Option Nat → Option Nat
  | [], _, last => last
  | b :: t, i, last => strrchr_aux ch t (i + 1) (if b = ch then some i else last)

/-- The function `strrchr(s, ch)` for a byte `ch` other than NUL: offset of its last occurrence. -/
def strrchr (s : List Nat) (ch : Nat) : Option Nat := strrchr_aux ch s 0 none

def LONG_MAX : Int := 9223372036854775807
def LONG_MIN : Int := -9223372036854775808

/-- The function `atol` (glibc: `strtol(s, NULL, 10)`): leading white space, an optional sign,
then decimal digits; the value saturates at `LONG_MIN` / `LONG_MAX`. -/
def atol (s : List Nat) : Int :=
  let s := s.dropWhile isspace
  let neg := s.head? = some 45
  let s := if s.head? = some 45 ∨ s.head? = some 43 then s.tail else s
  let v : Int := ((s.takeWhile isdigit).foldl (fun a d => 10 * a + (d - 48)) 0 : Nat)
  let v := if neg then -v else v
  if v < LONG_MIN then LONG_MIN else if LONG_MAX < v then LONG_MAX else v

/-! ## The connection object -/

def FILENAME_LEN : Int := 200
def READ_BUFFER_SIZE : Int := 2048
def WRITE_BUFFER_SIZE : Int := 1024

inductive METHOD where
  | GET | POST | HEAD | PUT | DELETE | TRACE | OPTIONS | CONNECT | PATCH
  deriving DecidableEq, Repr

inductive CHECK_STATE where
  | CHECK_STATE_REQUESTLINE | CHECK_STATE_HEADER | CHECK_STATE_CONTENT
  deriving DecidableEq, Repr

inductive HTTP_CODE where
  | NO_REQUEST | GET_REQUEST | BAD_REQUEST | NO_RESOURCE | FORBIDDEN_REQUEST
  | FILE_REQUEST | INTERNAL_ERROR | CLOSED_CONNECTION
  deriving DecidableEq, Repr

inductive LINE_STATUS where
  | LINE_OK | LINE_BAD | LINE_OPEN
  deriving DecidableEq, Repr

/-- The ways in which an operation of the source leaves defined behaviour. -/
inductive Fault where
  /-- a null pointer is dereferenced -/
  | null_pointer
  /-- a pointer that was never assigned is dereferenced -/
  | indeterminate_pointer
  /-- an access outside `m_read_buf` -/
  | read_buf_bounds
  /-- a write outside `m_real_file` -/
  | real_file_bounds
  /-- a write outside a `char[100]` array of `do_request` -/
  | stack_buffer
  /-- a write outside a 200-byte `malloc` block of `do_request` -/
  | heap_buffer
  /-- the iteration bound of the model is used up (never the case, see `process_read_total`) -/
  | fuel
  deriving DecidableEq, Repr

/-- The result of `stat`: the two tests made on `st_mode`, and `st_size`. -/
structure FileStat where
  S_IROTH : Bool
  S_ISDIR : Bool
  st_size : Int

/-- One entry of the `iovec` table.  The base of `m_iv[0]` is an offset into `m_write_buf`,
the base of `m_iv[1]` an address in the mapped file. -/
structure IoVec where
  iov_base : Int
  iov_len : Int

/-- The fields of `class http_conn`. Pointers into `m_read_buf` are offsets. -/
structure http_conn where
  m_sockfd : Int
  m_read_buf : Mem
  m_read_idx : Int
  m_checked_idx : Int
  m_start_line : Int
  m_write_buf : Mem
  m_write_idx : Int
  m_check_state : CHECK_STATE
  m_method : METHOD
  m_real_file : Mem
  m_url : Option Int
  m_version : Option Int
  m_host : Option Int
  m_content_length : Int
  m_linger : Bool
  /-- an address; 0 is the null pointer -/
  m_file_address : Int
  m_file_stat : FileStat
  m_iv0 : IoVec
  m_iv1 : IoVec
  m_iv_count : Int
  cgi : Int
  /-- `none` until `parse_content` assigns it: neither the constructor nor `init` does -/
  m_string : Option Int
  bytes_to_send : Int
  bytes_have_send : Int
  doc_root : List Nat
  m_TRIGMode : Int
  m_close_log : Int
  m_state : Int
  timer_flag : Int
  improv : Int

namespace http_conn

/-- The private `init()`: reset of the per-request state. -/
def init (c : http_conn) : http_conn :=
  { c with
    bytes_to_send := 0
    bytes_have_send := 0
    m_check_state := CHECK_STATE.CHECK_STATE_REQUESTLINE
    m_linger := false
    m_method := METHOD.GET
    m_url := none
    m_version := none
    m_content_length := 0
    m_host := none
    m_start_line := 0
    m_checked_idx := 0
    m_read_idx := 0
    m_write_idx := 0
    cgi := 0
    m_state := 0
    timer_flag := 0
    improv := 0
    m_read_buf := Mem.zero
    m_write_buf := Mem.zero
    m_real_file := Mem.zero }

/-- The loop of `parse_line`; `fuel` bounds the number of iterations. -/
def parse_line_loop : Nat → http_conn → LINE_STATUS × http_conn
  | 0, c => (LINE_STATUS.LINE_OPEN, c)
  | fuel + 1, c =>
    if c.m_checked_idx < c.m_read_idx then
      let temp := c.m_read_buf c.m_checked_idx
      if temp = 13 then
        if c.m_checked_idx + 1 = c.m_read_idx then
          (LINE_STATUS.LINE_OPEN, c)
        else if c.m_read_buf (c.m_checked_idx + 1) = 10 then
          (LINE_STATUS.LINE_OK,
            { c with
              m_read_buf := (c.m_read_buf.set c.m_checked_idx 0).set (c.m_checked_idx + 1) 0
              m_checked_idx := c.m_checked_idx + 2 })
        else
          (LINE_STATUS.LINE_BAD, c)
      else if temp = 10 then
        if c.m_checked_idx > 1 ∧ c.m_read_buf (c.m_checked_idx - 1) = 13 then
          (LINE_STATUS.LINE_OK,
            { c with
              m_read_buf := (c.m_read_buf.set (c.m_checked_idx - 1) 0).set c.m_checked_idx 0
              m_checked_idx := c.m_checked_idx + 1 })
        else
          (LINE_STATUS.LINE_BAD, c)
      else
        parse_line_loop fuel { c with m_checked_idx := c.m_checked_idx + 1 }
    else
      (LINE_STATUS.LINE_OPEN, c)

/-- The function `parse_line`: the loop runs at most `m_read_idx - m_checked_idx` times. -/
def parse_line (c : http_conn) : LINE_STATUS × http_conn :=
  parse_line_loop (c.m_read_idx - c.m_checked_idx).toNat c

/-- The C string at offset `p` of the read buffer. -/
def str (c : http_conn) (p : Int) : List Nat := cstr READ_BUFFER_SIZE c.m_read_buf p

/-- End of `parse_request_line`: `if (strlen(m_url) == 1) strcat(m_url, "judge.html");
m_check_state = CHECK_STATE_HEADER; return NO_REQUEST;` with `m_url = u`. -/
def parse_request_line_accept (c : http_conn) (u : Int) : Except Fault (HTTP_CODE × http_conn) :=
  if (c.str u).length = 1 then
    -- strcat stores eleven bytes from m_url + 1 on
    if READ_BUFFER_SIZE < u + 12 then Except.error Fault.read_buf_bounds
    else
      Except.ok (HTTP_CODE.NO_REQUEST,
        { c with
          m_read_buf := c.m_read_buf.write (u + 1) [106, 117, 100, 103, 101, 46, 104, 116, 109, 108, 0]
          m_check_state := CHECK_STATE.CHECK_STATE_HEADER })
  else
    Except.ok (HTTP_CODE.NO_REQUEST, { c with m_check_state := CHECK_STATE.CHECK_STATE_HEADER })

/-- The statements `if (strncasecmp(m_url, "https://", 8) == 0) { m_url += 8; m_url =
strchr(m_url, '/'); } if (!m_url || m_url[0] != '/') return BAD_REQUEST;` with `m_url = u1`,
and what follows them. -/
def parse_request_line_https (c : http_conn) (u1 : Int) : Except Fault (HTTP_CODE × http_conn) :=
  let url2 : Option Int :=
    if strncasecmp_eq (c.str u1) [104, 116, 116, 112, 115, 58, 47, 47] 8 then
      match strchr (c.str (u1 + 8)) 47 with
      | none => none
      | some k => some (u1 + 8 + (k : Int))
    else some u1
  match url2 with
  | none => Except.ok (HTTP_CODE.BAD_REQUEST, { c with m_url := none })
  | some u2 =>
    if c.m_read_buf u2 ≠ 47 then
      Except.ok (HTTP_CODE.BAD_REQUEST, { c with m_url := some u2 })
    else parse_request_line_accept { c with m_url := some u2 } u2

/-- Last part of `parse_request_line`: the tests on `m_url` (already past method and version),
starting with `if (strncasecmp(m_url, "http://", 7) == 0) { m_url += 7; m_url = strchr(m_url,
'/'); }`. -/
def parse_request_line_url (c : http_conn) (url : Int) : Except Fault (HTTP_CODE × http_conn) :=
  let url1 : Option Int :=
    if strncasecmp_eq (c.str url) [104, 116, 116, 112, 58, 47, 47] 7 then
      match strchr (c.str (url + 7)) 47 with
      | none => none
      | some k => some (url + 7 + (k : Int))
    else some url
  match url1 with
  | none =>
    -- strncasecmp(m_url, "https://", 8) reads through the null pointer
    Except.error Fault.null_pointer
  | some u1 => c.parse_request_line_https u1

/-- Middle part of `parse_request_line`: the version token, after the method was accepted. -/
def parse_request_line_version (c : http_conn) (url : Int) : Except Fault (HTTP_CODE × http_conn) :=
  match strpbrk (c.str url) [32, 9] with
  | none => Except.ok (HTTP_CODE.BAD_REQUEST, { c with m_version := none })
  | some k =>
    let c := { c with m_read_buf := c.m_read_buf.set (url + k) 0 }
    let version := url + k + 1
    let version := version + (strspn (c.str version) [32, 9] : Int)
    let c := { c with m_version := some version }
    if ¬ strcasecmp_eq (c.str version) [72, 84, 84, 80, 47, 49, 46, 49] then
      Except.ok (HTTP_CODE.BAD_REQUEST, c)
    else
      parse_request_line_url c url

/-- The function `parse_request_line(text)`; `text` is an offset into the read buffer. -/
def parse_request_line (c : http_conn) (text : Int) : Except Fault (HTTP_CODE × http_conn) :=
  match strpbrk (c.str text) [32, 9] with
  | none => Except.ok (HTTP_CODE.BAD_REQUEST, { c with m_url := none })
  | some k =>
    let c := { c with m_read_buf := c.m_read_buf.set (text + k) 0 }
    let url := text + k + 1
    let url := url + (strspn (c.str url) [32, 9] : Int)
    let c := { c with m_url := some url }
    let method := text
    if strcasecmp_eq (c.str method) [71, 69, 84] then
      parse_request_line_version { c with m_method := METHOD.GET } url
    else if strcasecmp_eq (c.str method) [80, 79, 83, 84] then
      parse_request_line_version { c with m_method := METHOD.POST, cgi := 1 } url
    else
      Except.ok (HTTP_CODE.BAD_REQUEST, c)

/-- The function `parse_headers(text)`. -/
def parse_headers (c : http_conn) (text : Int) : HTTP_CODE × http_conn :=
  if c.m_read_buf text = 0 then
    if c.m_content_length ≠ 0 then
      (HTTP_CODE.NO_REQUEST, { c with m_check_state := CHECK_STATE.CHECK_STATE_CONTENT })
    else
      (HTTP_CODE.GET_REQUEST, c)
  else if strncasecmp_eq (c.str text) [67, 111, 110, 110, 101, 99, 116, 105, 111, 110, 58] 11 then
    let text := text + 11
    let text := text + (strspn (c.str text) [32, 9] : Int)
    if strcasecmp_eq (c.str text) [107, 101, 101, 112, 45, 97, 108, 105, 118, 101] then
      (HTTP_CODE.NO_REQUEST, { c with m_linger := true })
    else
      (HTTP_CODE.NO_REQUEST, c)
  else if strncasecmp_eq (c.str text)
      [67, 111, 110, 116, 101, 110, 116, 45, 108, 101, 110, 103, 116, 104, 58] 15 then
    let text := text + 15
    let text := text + (strspn (c.str text) [32, 9] : Int)
    (HTTP_CODE.NO_REQUEST, { c with m_content_length := atol (c.str text) })
  else if strncasecmp_eq (c.str text) [72, 111, 115, 116, 58] 5 then
    let text := text + 5
    let text := text + (strspn (c.str text) [32, 9] : Int)
    (HTTP_CODE.NO_REQUEST, { c with m_host := some text })
  else
    (HTTP_CODE.NO_REQUEST, c)

/-- The function `parse_content(text)`.  The sum `m_checked_idx + m_content_length` is taken in
the integers; it is the `long` sum of the source as long as that sum stays in the range of
`long`. -/
def parse_content (c : http_conn) (text : Int) : Except Fault (HTTP_CODE × http_conn) :=
  if c.m_read_idx ≥ c.m_checked_idx + c.m_content_length then
    -- text[m_content_length] = '\0'
    if text + c.m_content_length < 0 ∨ READ_BUFFER_SIZE ≤ text + c.m_content_length then
      Except.error Fault.read_buf_bounds
    else
      Except.ok (HTTP_CODE.GET_REQUEST,
        { c with
          m_read_buf := c.m_read_buf.set (text + c.m_content_length) 0
          m_string := some text })
  else
    Except.ok (HTTP_CODE.NO_REQUEST, c)

end http_conn

/-! ## The collaborators of `do_request` -/

/-- The global `map<string, string> users`, as the list of its entries. -/
abbrev Users := List (List Nat × List Nat)

/-- The lookup `users.find(k)`: the mapped value, `none` standing for `users.end()`. -/
def Users.find (users : Users) (k : List Nat) : Option (List Nat) := List.lookup k users

/-- The call `users.insert(pair<string, string>(k, v))`: an existing entry is kept. -/
def Users.insert (users : Users) (k v : List Nat) : Users :=
  if (users.find k).isSome then users else users ++ [(k, v)]

/-- What the environment answers to the system and library calls of `do_request`. -/
structure Env where
  /-- `mysql_query(mysql, statement)`: zero when the statement succeeded -/
  mysql_query : List Nat → Int
  /-- `stat(path, &m_file_stat)`: `none` when it returns a negative value -/
  stat : List Nat → Option FileStat
  /-- `mmap` of the file at `path`: the address, or `MAP_FAILED` (-1) -/
  mmap : List Nat → Int

namespace http_conn

/-- The scan `for (...; m_string[i] != stop; ++i) dst[j] = m_string[i]` of `do_request` followed
by `dst[j] = '\0'`, into a `char[100]` array: `s` is `m_string`, `i` the running index and `dst`
the bytes stored so far.  Returns the final `i` and the array contents before the closing NUL. -/
def scan_field (m : Mem) (s : Int) (stop : Nat) : Nat → Int → List Nat → Except Fault (Int × List Nat)
  | 0, _, _ => Except.error Fault.stack_buffer
  | fuel + 1, i, dst =>
    if s + i < 0 ∨ READ_BUFFER_SIZE ≤ s + i then Except.error Fault.read_buf_bounds
    else if m (s + i) = stop then
      if 100 ≤ dst.length then Except.error Fault.stack_buffer else Except.ok (i, dst)
    else if 100 ≤ dst.length then Except.error Fault.stack_buffer
    else scan_field m s stop fuel (i + 1) (dst ++ [m (s + i)])

/-- The call `strncpy(m_real_file + len, src, n)`: exactly `n` bytes are stored, NUL padded. -/
def strncpy_real_file (c : http_conn) (len : Int) (src : List Nat) (n : Nat) : http_conn :=
  { c with m_real_file := c.m_real_file.write len (src.take n ++ List.replicate (n - src.length) 0) }

/-- The call `strcpy(m_url, lit)` of the login / register branch: stores `lit` and a NUL. -/
def strcpy_url (c : http_conn) (url : Int) (lit : List Nat) : Except Fault http_conn :=
  if url < 0 ∨ READ_BUFFER_SIZE < url + lit.length + 1 then Except.error Fault.read_buf_bounds
  else Except.ok { c with m_read_buf := c.m_read_buf.write url (lit ++ [0]) }

/-- The register and login answers of `do_request`, after `name` and `password` were taken from
the body: `if (*(p + 1) == '3') ... else if (*(p + 1) == '2') ...`. -/
def do_request_cgi_check (env : Env) (users : Users) (c : http_conn) (url p : Int)
    (name password : List Nat) : Except Fault (http_conn × Users) :=
  if c.m_read_buf (p + 1) = 51 then
    -- sql_insert = malloc(200), filled by strcpy and five strcat
    let sql_insert := bytes "INSERT INTO user(username, passwd) VALUES(" ++ [39] ++ name
      ++ [39, 44, 32, 39] ++ password ++ [39, 41]
    if 200 < sql_insert.length + 1 then Except.error Fault.heap_buffer
    else if users.find name = none then
      -- int res = mysql_query(mysql, sql_insert); users.insert(pair<string, string>(name, password));
      if env.mysql_query sql_insert = 0 then
        (c.strcpy_url url (bytes "/log.html")).map (fun c => (c, users.insert name password))
      else
        (c.strcpy_url url (bytes "/registerError.html")).map
          (fun c => (c, users.insert name password))
    else
      (c.strcpy_url url (bytes "/registerError.html")).map (fun c => (c, users))
  else if c.m_read_buf (p + 1) = 50 then
    if users.find name ≠ none ∧ users.find name = some password then
      (c.strcpy_url url (bytes "/welcome.html")).map (fun c => (c, users))
    else
      (c.strcpy_url url (bytes "/logError.html")).map (fun c => (c, users))
  else
    Except.ok (c, users)

/-- The login / register branch of `do_request` (taken when `cgi == 1` and the byte after the
last `/` is `2` or `3`); `url` is `m_url`, `p` the position of the last `/`. -/
def do_request_cgi (env : Env) (users : Users) (c : http_conn) (len : Int) (url p : Int) :
    Except Fault (http_conn × Users) :=
  -- m_url_real = malloc(200); strcpy(m_url_real, "/"); strcat(m_url_real, m_url + 2);
  let m_url_real := 47 :: c.str (url + 2)
  if 200 < m_url_real.length + 1 then Except.error Fault.heap_buffer
  -- strncpy(m_real_file + len, m_url_real, FILENAME_LEN - len - 1);
  else if FILENAME_LEN - len - 1 < 0 then Except.error Fault.real_file_bounds
  else
    let c := c.strncpy_real_file len m_url_real (FILENAME_LEN - len - 1).toNat
    match c.m_string with
    | none => Except.error Fault.indeterminate_pointer
    | some s =>
      -- for (i = 5; m_string[i] != '&'; ++i) name[i - 5] = m_string[i]; name[i - 5] = '\0';
      match scan_field c.m_read_buf s 38 101 5 [] with
      | Except.error f => Except.error f
      | Except.ok (i, name) =>
        -- for (i = i + 10; m_string[i] != '\0'; ++i, ++j) password[j] = m_string[i];
        -- password[j] = '\0';
        match scan_field c.m_read_buf s 0 101 (i + 10) [] with
        | Except.error f => Except.error f
        | Except.ok (_, password) =>
          do_request_cgi_check env users c url p (cstr_of name) (cstr_of password)

/-- The calls `strcpy(m_url_real, lit); strncpy(m_real_file + len, m_url_real, strlen(m_url_real))`
of the branches for the fixed pages. -/
def do_request_page (c : http_conn) (len : Int) (lit : List Nat) : Except Fault http_conn :=
  if FILENAME_LEN < len + lit.length then Except.error Fault.real_file_bounds
  else Except.ok (c.strncpy_real_file len lit lit.length)

/-- The chain `if (*(p + 1) == '0') ... else if ... else strncpy(m_real_file + len, m_url,
FILENAME_LEN - len - 1);` of `do_request` that completes the file name. -/
def do_request_file (c : http_conn) (len : Int) (url p : Int) : Except Fault http_conn :=
  if c.m_read_buf (p + 1) = 48 then c.do_request_page len (bytes "/register.html")
  else if c.m_read_buf (p + 1) = 49 then c.do_request_page len (bytes "/log.html")
  else if c.m_read_buf (p + 1) = 53 then c.do_request_page len (bytes "/picture.html")
  else if c.m_read_buf (p + 1) = 54 then c.do_request_page len (bytes "/video.html")
  else if c.m_read_buf (p + 1) = 55 then c.do_request_page len (bytes "/fans.html")
  else if FILENAME_LEN - len - 1 < 0 then Except.error Fault.real_file_bounds
  else Except.ok (c.strncpy_real_file len (c.str url) (FILENAME_LEN - len - 1).toNat)

/-- The end of `do_request`: `stat`, the tests on `st_mode`, `mmap`. -/
def do_request_stat (env : Env) (users : Users) (c : http_conn) : HTTP_CODE × http_conn × Users :=
  let path := cstr FILENAME_LEN c.m_real_file 0
  match env.stat path with
  | none => (HTTP_CODE.NO_RESOURCE, c, users)
  | some st =>
    let c := { c with m_file_stat := st }
    if ¬ st.S_IROTH then (HTTP_CODE.FORBIDDEN_REQUEST, c, users)
    else if st.S_ISDIR then (HTTP_CODE.BAD_REQUEST, c, users)
    else (HTTP_CODE.FILE_REQUEST, { c with m_file_address := env.mmap path }, users)

/-- The function `do_request`. -/
def do_request (env : Env) (users : Users) (c : http_conn) :
    Except Fault (HTTP_CODE × http_conn × Users) :=
  -- strcpy(m_real_file, doc_root); int len = strlen(doc_root);
  if FILENAME_LEN < c.doc_root.length + 1 then Except.error Fault.real_file_bounds
  else
    let c := { c with m_real_file := c.m_real_file.write 0 (c.doc_root ++ [0]) }
    let len : Int := c.doc_root.length
    match c.m_url with
    | none => Except.error Fault.null_pointer
    | some url =>
      -- const char* p = strrchr(m_url, '/');
      match strrchr (c.str url) 47 with
      | none => Except.error Fault.null_pointer
      | some k =>
        let p := url + (k : Int)
        let r : Except Fault (http_conn × Users) :=
          if c.cgi = 1 ∧ (c.m_read_buf (p + 1) = 50 ∨ c.m_read_buf (p + 1) = 51) then
            do_request_cgi env users c len url p
          else Except.ok (c, users)
        match r with
        | Except.error f => Except.error f
        | Except.ok (c, users) =>
          match c.do_request_file len url p with
          | Except.error f => Except.error f
          | Except.ok c => Except.ok (do_request_stat env users c)

end http_conn

/-- How one turn of the `while` loop of `process_read` ends: with a `return` statement, or at the
end of the loop body with the line status the body leaves. -/
inductive LoopStep where
  | ret (code : HTTP_CODE) (c : http_conn) (users : Users)
  | again (line_status : LINE_STATUS) (c : http_conn)

namespace http_conn

/-- The condition of the `while` loop of `process_read`,
`(m_check_state == CHECK_STATE_CONTENT && line_status == LINE_OK) ||
((line_status = parse_line()) == LINE_OK)`: the line status and the connection it leaves. -/
def process_read_cond (line_status : LINE_STATUS) (c : http_conn) : LINE_STATUS × http_conn :=
  if c.m_check_state = CHECK_STATE.CHECK_STATE_CONTENT ∧ line_status = LINE_STATUS.LINE_OK then
    (line_status, c)
  else c.parse_line

/-- The body of the `while` loop of `process_read`. -/
def process_read_body (env : Env) (users : Users) (line_status : LINE_STATUS) (c : http_conn) :
    Except Fault LoopStep :=
  -- text = get_line(); m_start_line = m_checked_idx;
  let text := c.m_start_line
  let c := { c with m_start_line := c.m_checked_idx }
  match c.m_check_state with
  | CHECK_STATE.CHECK_STATE_REQUESTLINE =>
    match c.parse_request_line text with
    | Except.error f => Except.error f
    | Except.ok (ret, c) =>
      if ret = HTTP_CODE.BAD_REQUEST then Except.ok (LoopStep.ret HTTP_CODE.BAD_REQUEST c users)
      else Except.ok (LoopStep.again line_status c)
  | CHECK_STATE.CHECK_STATE_HEADER =>
    if (c.parse_headers text).1 = HTTP_CODE.BAD_REQUEST then
      Except.ok (LoopStep.ret HTTP_CODE.BAD_REQUEST (c.parse_headers text).2 users)
    else if (c.parse_headers text).1 = HTTP_CODE.GET_REQUEST then
      match (c.parse_headers text).2.do_request env users with
      | Except.error f => Except.error f
      | Except.ok (code, c, users) => Except.ok (LoopStep.ret code c users)
    else Except.ok (LoopStep.again line_status (c.parse_headers text).2)
  | CHECK_STATE.CHECK_STATE_CONTENT =>
    match c.parse_content text with
    | Except.error f => Except.error f
    | Except.ok (ret, c) =>
      if ret = HTTP_CODE.GET_REQUEST then
        match c.do_request env users with
        | Except.error f => Except.error f
        | Except.ok (code, c, users) => Except.ok (LoopStep.ret code c users)
      else Except.ok (LoopStep.again LINE_STATUS.LINE_OPEN c)

/-- The `while` loop of `process_read`; `fuel` bounds the number of turns. -/
def process_read_loop (env : Env) :
    Nat → LINE_STATUS → Users → http_conn → Except Fault (HTTP_CODE × http_conn × Users)
  | 0, _, _, _ => Except.error Fault.fuel
  | fuel + 1, line_status, users, c =>
    if (process_read_cond line_status c).1 ≠ LINE_STATUS.LINE_OK then
      Except.ok (HTTP_CODE.NO_REQUEST, (process_read_cond line_status c).2, users)
    else
      match process_read_body env users (process_read_cond line_status c).1
          (process_read_cond line_status c).2 with
      | Except.error f => Except.error f
      | Except.ok (LoopStep.ret code c users) => Except.ok (code, c, users)
      | Except.ok (LoopStep.again line_status c) => process_read_loop env fuel line_status users c

/-- The function `process_read`.  Every second iteration at least consumes a byte of
`m_read_buf[m_checked_idx .. m_read_idx)`, which bounds the number of iterations. -/
def process_read (env : Env) (users : Users) (c : http_conn) :
    Except Fault (HTTP_CODE × http_conn × Users) :=
  process_read_loop env (2 * (c.m_read_idx - c.m_checked_idx).toNat + 3) LINE_STATUS.LINE_OK users c

end http_conn

/-! ### Reading from the socket -/

/-- What one call of `recv` on the non-blocking socket returns. -/
inductive RecvResult where
  /-- a positive byte count: these bytes were stored -/
  | data (d : List Nat)
  /-- 0: the peer closed the connection -/
  | closed
  /-- -1; `again` tells whether `errno` is `EAGAIN` / `EWOULDBLOCK` -/
  | failed (again : Bool)

/-- The value returned by `recv`. -/
def RecvResult.ret : RecvResult → Int
  | RecvResult.data d => d.length
  | RecvResult.closed => 0
  | RecvResult.failed _ => -1

/-- A result that `recv(fd, buf, len, 0)` can give: a byte count between 1 and `len`, 0, or -1. -/
def RecvResult.valid (len : Int) : RecvResult → Prop
  | RecvResult.data d => 0 < d.length ∧ (d.length : Int) ≤ len ∧ ∀ b ∈ d, b < 256
  | RecvResult.closed => True
  | RecvResult.failed _ => True

namespace http_conn

/-- The effect of `recv(m_sockfd, m_read_buf + m_read_idx, READ_BUFFER_SIZE - m_read_idx, 0)` on
the read buffer. -/
def recv (c : http_conn) : RecvResult → Except Fault http_conn
  | RecvResult.data d =>
    if c.m_read_idx < 0 ∨ READ_BUFFER_SIZE < c.m_read_idx + d.length then
      Except.error Fault.read_buf_bounds
    else Except.ok { c with m_read_buf := c.m_read_buf.write c.m_read_idx d }
  | _ => Except.ok c

/-- The `while (true)` loop of the edge-triggered branch of `read_once`; the list holds what the
successive calls of `recv` return, and a socket with nothing more to say answers `EAGAIN`. -/
def read_once_ET : List RecvResult → http_conn → Except Fault (Bool × http_conn)
  | [], c => Except.ok (true, c)
  | r :: rest, c =>
    match c.recv r with
    | Except.error f => Except.error f
    | Except.ok c =>
      if r.ret = -1 then
        match r with
        | RecvResult.failed true => Except.ok (true, c)
        | _ => Except.ok (false, c)
      else if r.ret = 0 then Except.ok (false, c)
      else read_once_ET rest { c with m_read_idx := c.m_read_idx + r.ret }

/-- The function `read_once`; `recvs` holds what the successive calls of `recv` return. -/
def read_once (c : http_conn) (recvs : List RecvResult) : Except Fault (Bool × http_conn) :=
  if c.m_read_idx ≥ READ_BUFFER_SIZE then Except.ok (false, c)
  else if c.m_TRIGMode = 0 then
    let r := recvs.headD (RecvResult.failed true)
    match c.recv r with
    | Except.error f => Except.error f
    | Except.ok c =>
      -- m_read_idx += bytes_read;
      let c := { c with m_read_idx := c.m_read_idx + r.ret }
      if r.ret ≤ 0 then Except.ok (false, c) else Except.ok (true, c)
  else read_once_ET recvs c

/-- The connection after `recv` stored the bytes `d` and `m_read_idx` was advanced past them. -/
def received (c : http_conn) (d : List Nat) : http_conn :=
  { c with m_read_buf := c.m_read_buf.write c.m_read_idx d, m_read_idx := c.m_read_idx + d.length }

end http_conn

/-! ### Building the response -/

def ok_200_title : List Nat := bytes "OK"
def error_400_title : List Nat := bytes "Bad Request"
def error_400_form : List Nat :=
  bytes "Your request has bad syntax or is inherently impossible to satisfy.\n"
def error_403_title : List Nat := bytes "Forbidden"
def error_403_form : List Nat := bytes "You do not have permission to get file form this server.\n"
def error_404_title : List Nat := bytes "Not Found"
def error_404_form : List Nat := bytes "The requested file was not found on this server.\n"
def error_500_title : List Nat := bytes "Internal Error"
def error_500_form : List Nat := bytes "There was an unusual problem serving the request file.\n"

/-- The conversion of `off_t` or `size_t` to `int` at a call of `add_headers(int)`. -/
def to_int32 (x : Int) : Int := (x + 2147483648) % 4294967296 - 2147483648

/-- The output of the `printf` conversion `%d`. -/
def fmt_d (x : Int) : List Nat :=
  if x < 0 then 45 :: (Nat.toDigits 10 x.natAbs).map Char.toNat
  else (Nat.toDigits 10 x.natAbs).map Char.toNat

namespace http_conn

/-- The function `add_response`; `text` is the output that the format and its arguments produce. -/
def add_response (c : http_conn) (text : List Nat) : Bool × http_conn :=
  if c.m_write_idx ≥ WRITE_BUFFER_SIZE then (false, c)
  else
    let size := WRITE_BUFFER_SIZE - 1 - c.m_write_idx
    -- vsnprintf stores at most size - 1 bytes and a NUL, and returns the untruncated length
    let c :=
      if 0 < size then
        { c with m_write_buf := c.m_write_buf.write c.m_write_idx (text.take (size - 1).toNat ++ [0]) }
      else c
    if (text.length : Int) ≥ size then (false, c)
    else (true, { c with m_write_idx := c.m_write_idx + text.length })

def add_content (c : http_conn) (content : List Nat) : Bool × http_conn :=
  c.add_response content

def add_status_line (c : http_conn) (status : Int) (title : List Nat) : Bool × http_conn :=
  c.add_response (bytes "HTTP/1.1" ++ [32] ++ fmt_d status ++ [32] ++ title ++ [13, 10])

def add_content_length (c : http_conn) (content_len : Int) : Bool × http_conn :=
  c.add_response (bytes "Content-Length:" ++ fmt_d content_len ++ [13, 10])

def add_content_type (c : http_conn) : Bool × http_conn :=
  c.add_response (bytes "Content-Type:" ++ bytes "text/html" ++ [13, 10])

def add_linger (c : http_conn) : Bool × http_conn :=
  c.add_response (bytes "Connection:" ++ (if c.m_linger = true then bytes "keep-alive" else bytes "close")
    ++ [13, 10])

def add_blank_line (c : http_conn) : Bool × http_conn :=
  c.add_response [13, 10]

/-- The function `add_headers`: the four appends, joined by the short-circuit `&&`. -/
def add_headers (c : http_conn) (content_len : Int) : Bool × http_conn :=
  match c.add_content_length content_len with
  | (false, c) => (false, c)
  | (true, c) =>
    match c.add_content_type with
    | (false, c) => (false, c)
    | (true, c) =>
      match c.add_linger with
      | (false, c) => (false, c)
      | (true, c) => c.add_blank_line

/-- The statements of `process_write` after the `switch`. -/
def process_write_single (c : http_conn) : Bool × http_conn :=
  (true, { c with
    m_iv0 := { iov_base := 0, iov_len := c.m_write_idx }
    m_iv_count := 1
    bytes_to_send := c.m_write_idx })

/-- The three arms of `process_write` that send a canned page. -/
def process_write_error (c : http_conn) (status : Int) (title form : List Nat) : Bool × http_conn :=
  let c := (c.add_status_line status title).2
  let c := (c.add_headers form.length).2
  match c.add_content form with
  | (false, c) => (false, c)
  | (true, c) => c.process_write_single

/-- The function `process_write`. -/
def process_write (c : http_conn) (ret : HTTP_CODE) : Bool × http_conn :=
  match ret with
  | HTTP_CODE.INTERNAL_ERROR => c.process_write_error 500 error_500_title error_500_form
  | HTTP_CODE.BAD_REQUEST => c.process_write_error 404 error_404_title error_404_form
  | HTTP_CODE.FORBIDDEN_REQUEST => c.process_write_error 403 error_403_title error_403_form
  | HTTP_CODE.FILE_REQUEST =>
    let c := (c.add_status_line 200 ok_200_title).2
    if c.m_file_stat.st_size ≠ 0 then
      let c := (c.add_headers (to_int32 c.m_file_stat.st_size)).2
      (true, { c with
        m_iv0 := { iov_base := 0, iov_len := c.m_write_idx }
        m_iv1 := { iov_base := c.m_file_address, iov_len := c.m_file_stat.st_size }
        m_iv_count := 2
        bytes_to_send := to_int32 (c.m_write_idx + c.m_file_stat.st_size) })
    else
      let ok_string := bytes "<html><body></body></html>"
      let c := (c.add_headers ok_string.length).2
      match c.add_content ok_string with
      | (false, c) => (false, c)
      | (true, c) =>
        -- no `break`: control falls through to `default`
        (false, c)
  | _ => (false, c)

/-- The C string at `m_url`, if the pointer is set. -/
def url_str (c : http_conn) : Option (List Nat) := c.m_url.map c.str

/-- The C string at `m_host`, if the pointer is set. -/
def host_str (c : http_conn) : Option (List Nat) := c.m_host.map c.str

/-- The C string at `m_string` (the POST body), if the pointer is set. -/
def body_str (c : http_conn) : Option (List Nat) := c.m_string.map c.str

/-- The file name held by `m_real_file`. -/
def real_file_str (c : http_conn) : List Nat := cstr FILENAME_LEN c.m_real_file 0

/-- A connection object before its first `init`: every field zero. -/
def blank : http_conn where
  m_sockfd := 0
  m_read_buf := Mem.zero
  m_read_idx := 0
  m_checked_idx := 0
  m_start_line := 0
  m_write_buf := Mem.zero
  m_write_idx := 0
  m_check_state := CHECK_STATE.CHECK_STATE_REQUESTLINE
  m_method := METHOD.GET
  m_real_file := Mem.zero
  m_url := none
  m_version := none
  m_host := none
  m_content_length := 0
  m_linger := false
  m_file_address := 0
  m_file_stat := { S_IROTH := false, S_ISDIR := false, st_size := 0 }
  m_iv0 := { iov_base := 0, iov_len := 0 }
  m_iv1 := { iov_base := 0, iov_len := 0 }
  m_iv_count := 0
  cgi := 0
  m_string := none
  bytes_to_send := 0
  bytes_have_send := 0
  doc_root := []
  m_TRIGMode := 0
  m_close_log := 0
  m_state := 0
  timer_flag := 0
  improv := 0

/-- A freshly initialised connection with the given trigger mode and document root. -/
def fresh (TRIGMode : Int) (root : List Nat) : http_conn :=
  http_conn.init { blank with doc_root := root, m_TRIGMode := TRIGMode }

end http_conn

namespace Scenario

/-! ## Concrete environments and requests -/

/-- No user is registered. -/
def no_users : Users := []

/-- Every statement succeeds, every path is a world-readable regular file of 10 bytes. -/
def env_ok : Env where
  mysql_query := fun _ => 0
  stat := fun _ => some { S_IROTH := true, S_ISDIR := false, st_size := 10 }
  mmap := fun _ => 4096

/-- Every statement fails; the file system is as in `env_ok`. -/
def env_db_down : Env where
  mysql_query := fun _ => 1
  stat := fun _ => some { S_IROTH := true, S_ISDIR := false, st_size := 10 }
  mmap := fun _ => 4096

/-- No path exists. -/
def env_no_file : Env where
  mysql_query := fun _ => 0
  stat := fun _ => none
  mmap := fun _ => 4096

def doc_root : List Nat := bytes "/srv/root"

/-- A request line that ends in a bare line feed. -/
def request_bare_lf : List Nat := bytes "GET /index.html HTTP/1.1\nHost: x\r\n\r\n"

/-- A header line with a carriage return in the middle. -/
def request_cr_in_header : List Nat := bytes "GET /index.html HTTP/1.1\r\nHost: x\ry\r\n\r\n"

def request_missing_file : List Nat := bytes "GET /nope.html HTTP/1.1\r\n\r\n"

def request_register : List Nat :=
  bytes "POST /3CGISQL.cgi HTTP/1.1\r\nContent-Length: 24\r\n\r\nuser=alice&passwd=s3cret"

def request_login_other : List Nat :=
  bytes "POST /2CGISQL.cgi HTTP/1.1\r\nContent-Length: 24\r\n\r\nuser=alice&passwd=XYcret"

/-- The registration request cut after 14 of its 24 body bytes, and the rest. -/
def request_register_part1 : List Nat :=
  bytes "POST /3CGISQL.cgi HTTP/1.1\r\nContent-Length: 24\r\n\r\nuser=alice&pas"

def request_register_part2 : List Nat := bytes "swd=s3cret"

end Scenario

/-! ## Sending the response: `write` -/

/-- What one call of `writev` on the non-blocking socket returns. -/
inductive WritevResult where
  /-- a byte count, zero or more: that many bytes were sent -/
  | sent (n : Nat)
  /-- -1; `again` tells whether `errno` is `EAGAIN` -/
  | failed (again : Bool)

/-- The conversion of an `int` to `size_t` (64 bits), as in the comparison and the assignments of
`write` that mix `int` fields with `iov_len`. -/
def to_size_t (x : Int) : Int := x % 18446744073709551616

namespace http_conn

/-- The function `unmap`: `munmap` and the reset of `m_file_address`, when it is not null. -/
def unmap (c : http_conn) : http_conn :=
  if c.m_file_address ≠ 0 then { c with m_file_address := 0 } else c

/-- The statements of the loop of `write` that follow a call of `writev` which sent `temp`
bytes: the two counters, then the segment table.  The counters `bytes_have_send` and
`bytes_to_send` are kept as integers; they are the `int` fields of the source as long as their
values stay in the range of `int`. -/
def write_sent (c : http_conn) (temp : Nat) : http_conn :=
  -- bytes_have_send += temp; bytes_to_send -= temp;
  let c := { c with
    bytes_have_send := c.bytes_have_send + temp
    bytes_to_send := c.bytes_to_send - temp }
  if to_size_t c.bytes_have_send ≥ c.m_iv0.iov_len then
    { c with
      m_iv0 := { c.m_iv0 with iov_len := 0 }
      m_iv1 := { iov_base := c.m_file_address + (c.bytes_have_send - c.m_write_idx)
                 iov_len := to_size_t c.bytes_to_send } }
  else
    { c with
      m_iv0 := { iov_base := c.bytes_have_send
                 iov_len := to_size_t (c.m_iv0.iov_len - c.bytes_have_send) } }

/-- The `while (true)` loop of `write`; the list holds what the successive calls of `writev`
return, and a socket about which nothing more is said answers `EAGAIN`. -/
def write_loop : List WritevResult → http_conn → Bool × http_conn
  | [], c => (true, c)
  | WritevResult.failed true :: _, c => (true, c)
  | WritevResult.failed false :: _, c => (false, c.unmap)
  | WritevResult.sent temp :: rest, c =>
    if (c.write_sent temp).bytes_to_send ≤ 0 then
      if (c.write_sent temp).m_linger = true then (true, (c.write_sent temp).unmap.init)
      else (false, (c.write_sent temp).unmap)
    else write_loop rest (c.write_sent temp)

/-- The function `write`; `results` holds what the successive calls of `writev` return. -/
def write (c : http_conn) (results : List WritevResult) : Bool × http_conn :=
  if c.bytes_to_send = 0 then (true, c.init) else write_loop results c

end http_conn

/-! ## The pool of database connections (`src/CGImysql/sql_connection_pool.cpp`) -/

/-- The fields of `class connection_pool` that its operations use.  A `MYSQL*` handle is an
address, 0 being the null pointer.

Modelled from the spec: the member `reserve` has the class `sem` of `lock/locker.h`, which is not
among the sources; it is taken as the counting semaphore the spec describes, and the field holds
its value. -/
structure connection_pool where
  m_MaxConn : Int
  m_CurConn : Int
  m_FreeConn : Int
  connList : List Int
  reserve : Int
  deriving DecidableEq

namespace connection_pool

/-- The pool as the constructor leaves it: both counters 0, the list empty, the semaphore at 0;
`m_MaxConn` is not assigned and holds whatever `MaxConn0` stands for. -/
def construct (MaxConn0 : Int) : connection_pool where
  m_MaxConn := MaxConn0
  m_CurConn := 0
  m_FreeConn := 0
  connList := []
  reserve := 0

/-- The loop `for (int i = 0; i < MaxConn; i++)` of `init`, with `n` turns left at index `i`:
`connect i` is the handle that `mysql_init` and `mysql_real_connect` give in turn `i`, 0 when one
of them fails; then `exit(1)` ends the program, which is `none` here. -/
def init_loop (connect : Nat → Int) : Nat → Nat → connection_pool → Option connection_pool
  | 0, _, p => some p
  | n + 1, i, p =>
    if connect i = 0 then none
    else
      init_loop connect n (i + 1)
        { p with connList := p.connList ++ [connect i], m_FreeConn := p.m_FreeConn + 1 }

/-- The function `init`, as far as the pool state goes. -/
def init (p : connection_pool) (MaxConn : Int) (connect : Nat → Int) : Option connection_pool :=
  match init_loop connect MaxConn.toNat 0 p with
  | none => none
  | some p => some { p with reserve := p.m_FreeConn, m_MaxConn := p.m_FreeConn }

/-- The function `GetConnection`: the handle returned (0 for `NULL`) and the pool it leaves;
`none` when the call blocks in `reserve.wait()`. -/
def GetConnection (p : connection_pool) : Option (Int × connection_pool) :=
  if p.connList.length = 0 then some (0, p)
  else if p.reserve ≤ 0 then none
  else
    match p.connList with
    | [] => some (0, p)
    | conn :: rest =>
      some (conn, { p with
        reserve := p.reserve - 1
        connList := rest
        m_FreeConn := p.m_FreeConn - 1
        m_CurConn := p.m_CurConn + 1 })

/-- The function `ReleaseConnection`. -/
def ReleaseConnection (p : connection_pool) (conn : Int) : Bool × connection_pool :=
  if conn = 0 then (false, p)
  else
    (true, { p with
      connList := p.connList ++ [conn]
      m_FreeConn := p.m_FreeConn + 1
      m_CurConn := p.m_CurConn - 1
      reserve := p.reserve + 1 })

end connection_pool

/-- A call made on the pool by one of its users. -/
inductive PoolCall where
  | get
  | release (conn : Int)
  deriving DecidableEq

/-- Why a sequence of calls on the pool cannot be run to its end. -/
inductive PoolStop where
  /-- a call of `GetConnection` blocks in `reserve.wait()` -/
  | blocked
  /-- a call of `ReleaseConnection` with a handle that is not leased -/
  | not_leased
  deriving DecidableEq

namespace connection_pool

/-- A sequence of calls run one after the other; `leased` lists the handles that callers hold. -/
def run : List PoolCall → connection_pool → List Int → Except PoolStop (connection_pool × List Int)
  | [], p, leased => Except.ok (p, leased)
  | PoolCall.get :: calls, p, leased =>
    match p.GetConnection with
    | none => Except.error PoolStop.blocked
    | some (conn, p) => run calls p (if conn = 0 then leased else conn :: leased)
  | PoolCall.release conn :: calls, p, leased =>
    if conn ∈ leased then run calls (p.ReleaseConnection conn).2 (leased.erase conn)
    else Except.error PoolStop.not_leased

end connection_pool

namespace Scenario

/-- Every path is a world-readable regular file of length 0, and `mmap`, called with length 0,
fails: it returns `MAP_FAILED`, the address -1. -/
def env_mmap_fails : Env where
  mysql_query := fun _ => 0
  stat := fun _ => some { S_IROTH := true, S_ISDIR := false, st_size := 0 }
  mmap := fun _ => -1

def request_index : List Nat := bytes "GET /index.html HTTP/1.1\r\nHost: x\r\n\r\n"

/-- The connection after `parse_request_line` has parsed the line `ln` (see `conn_after_line`). -/
def conn_parsed (ln : List Nat) : http_conn :=
  match (((http_conn.fresh 0 doc_root).received (ln ++ [13, 10])).parse_line.2).parse_request_line 0 with
  | Except.ok (_, c) => c
  | Except.error _ => http_conn.blank

/-- The connection that has `FILE_REQUEST` to answer for a file of 2 GiB. -/
def conn_large_file : http_conn :=
  { http_conn.fresh 0 doc_root with
    m_file_stat := { S_IROTH := true, S_ISDIR := false, st_size := 2147483648 }
    m_file_address := 4096 }

/-- A keep-alive connection on which `process_write` has prepared the 403 response. -/
def conn_response_ready : http_conn :=
  (http_conn.process_write { http_conn.fresh 0 doc_root with m_linger := true }
    HTTP_CODE.FORBIDDEN_REQUEST).2

/-- A pool of one connection, after `init`. -/
def pool_of_one : Option connection_pool :=
  (connection_pool.construct 0).init 1 (fun i => 1000 + i)

/-- The pool of one connection after `init` and one call of `GetConnection`: its only handle is
leased. -/
def pool_exhausted : connection_pool :=
  { m_MaxConn := 1, m_CurConn := 1, m_FreeConn := 0, connList := [], reserve := 0 }

/-- A connection that has `FILE_REQUEST` to answer for a file of 1000 bytes. -/
def conn_file_1000 : http_conn :=
  { http_conn.fresh 0 doc_root with
    m_file_stat := { S_IROTH := true, S_ISDIR := false, st_size := 1000 }
    m_file_address := 4096 }

end Scenario

/-! ## The command line (`src/config.cpp`) -/

/-- The fields of `class Config`. -/
structure Config where
  PORT : Int
  LOGWrite : Int
  TRIGMode : Int
  LISTENTrigmode : Int
  CONNTrigmode : Int
  OPT_LINGER : Int
  sql_num : Int
  thread_num : Int
  close_log : Int
  actor_model : Int
  deriving DecidableEq, Repr

/-- The constructor `Config::Config()`. -/
def Config.construct : Config where
  PORT := 9006
  LOGWrite := 0
  TRIGMode := 0
  LISTENTrigmode := 0
  CONNTrigmode := 0
  OPT_LINGER := 0
  sql_num := 8
  thread_num := 8
  close_log := 0
  actor_model := 0

/-- The function `atoi` (glibc: `(int) strtol(nptr, NULL, 10)`); `none` is the null pointer. -/
def atoi (nptr : Option (List Nat)) : Except Fault Int :=
  match nptr with
  | none => Except.error Fault.null_pointer
  | some s => Except.ok (to_int32 (atol s))

/-- How `getopt` finds the option character `ch` in the option string: `none` when it does not
occur there (or is the colon), otherwise whether a colon follows it, that is, whether the option
takes an argument. -/
def getopt_takes_arg : List Nat → Nat → Option Bool
  | [], _ => none
  | o :: rest, ch =>
    if o = ch ∧ ch ≠ 58 then some (rest.head? = some 58)
    else getopt_takes_arg rest ch

/-- The calls of `getopt` that work through one element `-xyz` of `argv`: `cluster` holds its
characters not yet examined, `rest` the elements of `argv` behind it.  Gives the return value and
the value of `optarg` of each call, and the elements of `argv` that are left.  An unknown
character and a missing argument give `'?'`; `optarg` is the null pointer unless the option takes
an argument, which is the remainder of the element or else the next element. -/
def getopt_cluster (optstring : List Nat) :
    List Nat → List (List Nat) → List (Nat × Option (List Nat)) × List (List Nat)
  | [], rest => ([], rest)
  | ch :: more, rest =>
    match getopt_takes_arg optstring ch with
    | none =>
      ((63, none) :: (getopt_cluster optstring more rest).1, (getopt_cluster optstring more rest).2)
    | some false =>
      ((ch, none) :: (getopt_cluster optstring more rest).1, (getopt_cluster optstring more rest).2)
    | some true =>
      if more ≠ [] then ([(ch, some more)], rest)
      else
        match rest with
        | [] => ([(63, none)], [])
        | a :: rest' => ([(ch, some a)], rest')

/-- The successive calls of `getopt(argc, argv, optstring)` until it returns -1 (glibc, which
passes over the elements that are not options): the return value and the value of `optarg` of
each call.  `args` holds the elements of `argv` from `optind` on; `fuel` bounds their number. -/
def getopt_calls (optstring : List Nat) : Nat → List (List Nat) → List (Nat × Option (List Nat))
  | 0, _ => []
  | _ + 1, [] => []
  | fuel + 1, a :: rest =>
    if a = [45, 45] then []
    else
      match a with
      | 45 :: ch :: more =>
        (getopt_cluster optstring (ch :: more) rest).1
          ++ getopt_calls optstring fuel (getopt_cluster optstring (ch :: more) rest).2
      | _ => getopt_calls optstring fuel rest

namespace Config

/-- The `switch (opt)` of `parse_arg`, for one result of `getopt`. -/
def parse_arg_case (cfg : Config) (opt : Nat) (optarg : Option (List Nat)) : Except Fault Config :=
  if opt = 112 then (atoi optarg).map (fun v => { cfg with PORT := v })
  else if opt = 108 then (atoi optarg).map (fun v => { cfg with LOGWrite := v })
  else if opt = 109 then (atoi optarg).map (fun v => { cfg with TRIGMode := v })
  else if opt = 111 then (atoi optarg).map (fun v => { cfg with OPT_LINGER := v })
  else if opt = 115 then (atoi optarg).map (fun v => { cfg with sql_num := v })
  else if opt = 116 then (atoi optarg).map (fun v => { cfg with thread_num := v })
  else if opt = 99 then (atoi optarg).map (fun v => { cfg with close_log := v })
  else if opt = 97 then (atoi optarg).map (fun v => { cfg with actor_model := v })
  else Except.ok cfg

/-- The `while` loop of `parse_arg` over the results of the calls of `getopt`. -/
def parse_arg_loop (cfg : Config) : List (Nat × Option (List Nat)) → Except Fault Config
  | [] => Except.ok cfg
  | r :: rest =>
    match cfg.parse_arg_case r.1 r.2 with
    | Except.error f => Except.error f
    | Except.ok cfg => parse_arg_loop cfg rest

/-- The function `parse_arg(argc, argv)`, with the option string `"p:l:m:o:s:t:c:a"`. -/
def parse_arg (cfg : Config) (argv : List (List Nat)) : Except Fault Config :=
  cfg.parse_arg_loop (getopt_calls (bytes "p:l:m:o:s:t:c:a") argv.length argv.tail)

end Config

/-! ## Registration with epoll (`addfd`, the public `init`) -/

def EPOLLIN : Nat := 1
def EPOLLRDHUP : Nat := 8192
def EPOLLONESHOT : Nat := 1073741824
def EPOLLET : Nat := 2147483648

/-- The interest list of the epoll instance: descriptors with their event masks. -/
abbrev EpollTable := List (Int × Nat)

/-- The function `addfd(epollfd, fd, one_shot, TRIGMode)`: the entry that
`epoll_ctl(epollfd, EPOLL_CTL_ADD, fd, &event)` adds. -/
def addfd (epoll : EpollTable) (fd : Int) (one_shot : Bool) (TRIGMode : Int) : EpollTable :=
  let events := if 1 = TRIGMode then EPOLLIN ||| EPOLLET ||| EPOLLRDHUP else EPOLLIN ||| EPOLLRDHUP
  let events := if one_shot then events ||| EPOLLONESHOT else events
  epoll ++ [(fd, events)]

namespace http_conn

/-- The public `init(sockfd, addr, root, TRIGMode, close_log, user, passwd, sqlname)`; it has its
own name here because `init` is the private `init()`.  The address, the three database strings
and the static counter `m_user_count` are not part of the model. -/
def init_conn (c : http_conn) (epoll : EpollTable) (sockfd : Int) (root : List Nat)
    (TRIGMode close_log : Int) : EpollTable × http_conn :=
  -- m_sockfd = sockfd; addfd(m_epollfd, sockfd, true, m_TRIGMode);
  (addfd epoll sockfd true c.m_TRIGMode,
    -- doc_root = root; m_TRIGMode = TRIGMode; m_close_log = close_log; init();
    http_conn.init { c with
      m_sockfd := sockfd
      doc_root := root
      m_TRIGMode := TRIGMode
      m_close_log := close_log })

end http_conn

namespace Scenario

/-- A connection that has the 200 response for a file of 1000 bytes to send. -/
def conn_file_ready : http_conn :=
  (http_conn.process_write
    { http_conn.fresh 0 doc_root with
      m_file_stat := { S_IROTH := true, S_ISDIR := false, st_size := 1000 }
      m_file_address := 4096 } HTTP_CODE.FILE_REQUEST).2

/-- A request whose `Content-Length` header carries -3000. -/
def request_length_minus_3000 : List Nat :=
  bytes "GET /index.html HTTP/1.1\r\nContent-Length: -3000\r\n\r\n"

/-- A request of 2048 bytes, as many as the read buffer holds: a head of 42 bytes and a body of
2006 bytes. -/
def request_full_buffer : List Nat :=
  bytes "POST /2 HTTP/1.1\r\nContent-Length: 2006\r\n\r\n" ++ List.replicate 2006 97

/-- A login request whose body has no `&`. -/
def request_login_no_amp : List Nat :=
  bytes "POST /2CGISQL.cgi HTTP/1.1\r\nContent-Length: 10\r\n\r\nuser=alice"

/-- A connection whose read buffer holds CR LF, with the first byte already passed. -/
def conn_crlf_at_one : http_conn :=
  { (http_conn.fresh 0 doc_root).received [13, 10] with m_checked_idx := 1 }

/-- A connection whose read buffer holds `a`, CR, LF, with the first two bytes already passed. -/
def conn_crlf_at_two : http_conn :=
  { (http_conn.fresh 0 doc_root).received [97, 13, 10] with m_checked_idx := 2 }

end Scenario

/-! ## C strings in the read buffer -/

/-- `ln` is the C string stored at offset `p` of the read buffer `m`: its bytes, none of them
NUL, are followed by a NUL that lies inside the buffer. -/
structure HasStr (m : Mem) (p : Int) (ln : List Nat) : Prop where
  bytes : ∀ k : Nat, k < ln.length → ln[k]? = some (m (p + k))
  nonzero : ∀ b ∈ ln, b ≠ 0
  nul : m (p + ln.length) = 0
  bound : p + ln.length < READ_BUFFER_SIZE

namespace http_conn

/-- The function `parse_request_line_accept` in terms of the string `U` stored at `u`. -/
def parse_request_line_accept_on (c : http_conn) (u : Int) (U : List Nat) :
    Except Fault (HTTP_CODE × http_conn) :=
  if U.length = 1 then
    if READ_BUFFER_SIZE < u + 12 then Except.error Fault.read_buf_bounds
    else
      Except.ok (HTTP_CODE.NO_REQUEST,
        { c with
          m_read_buf := c.m_read_buf.write (u + 1) [106, 117, 100, 103, 101, 46, 104, 116, 109, 108, 0]
          m_check_state := CHECK_STATE.CHECK_STATE_HEADER })
  else
    Except.ok (HTTP_CODE.NO_REQUEST, { c with m_check_state := CHECK_STATE.CHECK_STATE_HEADER })

/-- The function `parse_request_line_https` in terms of the string `U` stored at `u1`. -/
def parse_request_line_https_on (c : http_conn) (u1 : Int) (U : List Nat) :
    Except Fault (HTTP_CODE × http_conn) :=
  if strncasecmp_eq U [104, 116, 116, 112, 115, 58, 47, 47] 8 then
    match strchr (U.drop 8) 47 with
    | none => Except.ok (HTTP_CODE.BAD_REQUEST, { c with m_url := none })
    | some k =>
      -- the byte found by `strchr` is a `/`
      parse_request_line_accept_on { c with m_url := some (u1 + 8 + (k : Int)) } (u1 + 8 + (k : Int))
        (U.drop (8 + k))
  else if U.headD 0 ≠ 47 then
    Except.ok (HTTP_CODE.BAD_REQUEST, { c with m_url := some u1 })
  else parse_request_line_accept_on { c with m_url := some u1 } u1 U

/-- The function `parse_request_line_url` in terms of the string `U` stored at `url`. -/
def parse_request_line_url_on (c : http_conn) (url : Int) (U : List Nat) :
    Except Fault (HTTP_CODE × http_conn) :=
  if strncasecmp_eq U [104, 116, 116, 112, 58, 47, 47] 7 then
    match strchr (U.drop 7) 47 with
    | none => Except.error Fault.null_pointer
    | some k => parse_request_line_https_on c (url + 7 + (k : Int)) (U.drop (7 + k))
  else parse_request_line_https_on c url U

/-- The function `parse_request_line_version` in terms of the string `L` stored at `url`. -/
def parse_request_line_version_on (c : http_conn) (url : Int) (L : List Nat) :
    Except Fault (HTTP_CODE × http_conn) :=
  match strpbrk L [32, 9] with
  | none => Except.ok (HTTP_CODE.BAD_REQUEST, { c with m_version := none })
  | some k =>
    let V := (L.drop (k + 1)).drop (strspn (L.drop (k + 1)) [32, 9])
    let c := { c with
      m_read_buf := c.m_read_buf.set (url + k) 0
      m_version := some (url + k + 1 + (strspn (L.drop (k + 1)) [32, 9] : Int)) }
    if ¬ strcasecmp_eq V [72, 84, 84, 80, 47, 49, 46, 49] then
      Except.ok (HTTP_CODE.BAD_REQUEST, c)
    else
      parse_request_line_url_on c url (L.take k)

/-- The function `parse_request_line` in terms of the line `ln` stored at `text`. -/
def parse_request_line_on (c : http_conn) (text : Int) (ln : List Nat) :
    Except Fault (HTTP_CODE × http_conn) :=
  match strpbrk ln [32, 9] with
  | none => Except.ok (HTTP_CODE.BAD_REQUEST, { c with m_url := none })
  | some k =>
    let sp := strspn (ln.drop (k + 1)) [32, 9]
    let c := { c with
      m_read_buf := c.m_read_buf.set (text + k) 0
      m_url := some (text + k + 1 + (sp : Int)) }
    if strcasecmp_eq (ln.take k) [71, 69, 84] then
      parse_request_line_version_on { c with m_method := METHOD.GET } (text + k + 1 + (sp : Int))
        ((ln.drop (k + 1)).drop sp)
    else if strcasecmp_eq (ln.take k) [80, 79, 83, 84] then
      parse_request_line_version_on { c with m_method := METHOD.POST, cgi := 1 }
        (text + k + 1 + (sp : Int)) ((ln.drop (k + 1)).drop sp)
    else
      Except.ok (HTTP_CODE.BAD_REQUEST, c)

/-- The function `parse_headers` in terms of the line `ln` stored at `text`. -/
def parse_headers_on (c : http_conn) (text : Int) (ln : List Nat) : HTTP_CODE × http_conn :=
  if ln = [] then
    if c.m_content_length ≠ 0 then
      (HTTP_CODE.NO_REQUEST, { c with m_check_state := CHECK_STATE.CHECK_STATE_CONTENT })
    else
      (HTTP_CODE.GET_REQUEST, c)
  else if strncasecmp_eq ln [67, 111, 110, 110, 101, 99, 116, 105, 111, 110, 58] 11 then
    let v := (ln.drop 11).drop (strspn (ln.drop 11) [32, 9])
    if strcasecmp_eq v [107, 101, 101, 112, 45, 97, 108, 105, 118, 101] then
      (HTTP_CODE.NO_REQUEST, { c with m_linger := true })
    else
      (HTTP_CODE.NO_REQUEST, c)
  else if strncasecmp_eq ln
      [67, 111, 110, 116, 101, 110, 116, 45, 108, 101, 110, 103, 116, 104, 58] 15 then
    let v := (ln.drop 15).drop (strspn (ln.drop 15) [32, 9])
    (HTTP_CODE.NO_REQUEST, { c with m_content_length := atol v })
  else if strncasecmp_eq ln [72, 111, 115, 116, 58] 5 then
    (HTTP_CODE.NO_REQUEST,
      { c with m_host := some (text + 5 + (strspn (ln.drop 5) [32, 9] : Int)) })
  else
    (HTTP_CODE.NO_REQUEST, c)

end http_conn

/-! ## Tokens of a request line -/

/-- Blank or tab, the two bytes that `parse_request_line` passes to `strpbrk` and `strspn`. -/
def is_blank (b : Nat) : Bool := [32, 9].contains b

/-- The first token of a line: the bytes before the first blank or tab. -/
def first_token (ln : List Nat) : List Nat := ln.takeWhile (fun b => !is_blank b)

/-- What follows the first token of a line and the blanks and tabs behind it. -/
def after_first_token (ln : List Nat) : List Nat :=
  (ln.dropWhile (fun b => !is_blank b)).dropWhile is_blank

/-- The method token of a request line `METHOD SP URL SP VERSION`. -/
def method_token (ln : List Nat) : List Nat := first_token ln

/-- The URL token of a request line. -/
def url_token (ln : List Nat) : List Nat := first_token (after_first_token ln)

/-- The version string of a request line: all that follows the URL token and the blanks and
tabs behind it. -/
def version_string (ln : List Nat) : List Nat := after_first_token (after_first_token ln)

namespace http_conn

/-- A number of loop turns that suffices for `process_read_loop`: two for every unscanned byte,
one more when the next turn skips `parse_line`, and the last one. -/
def process_read_turns (line_status : LINE_STATUS) (c : http_conn) : Nat :=
  2 * (c.m_read_idx - c.m_checked_idx).toNat
    + (if c.m_check_state = CHECK_STATE.CHECK_STATE_CONTENT ∧ line_status = LINE_STATUS.LINE_OK
        then 1 else 0) + 1

/-- The function `process_read_loop` with a number of turns that suffices. -/
def process_read_run (env : Env) (line_status : LINE_STATUS) (users : Users) (c : http_conn) :
    Except Fault (HTTP_CODE × http_conn × Users) :=
  process_read_loop env (process_read_turns line_status c) line_status users c

end http_conn

/-- The outcome of a parsing step, seen after the bytes `d` have arrived behind it. -/
def received_result (d : List Nat) :
    Except Fault (HTTP_CODE × http_conn) → Except Fault (HTTP_CODE × http_conn)
  | Except.error f => Except.error f
  | Except.ok (code, c) => Except.ok (code, c.received d)

/-- The bytes of the lines `ls`, each followed by CR LF. -/
def crlf_lines : List (List Nat) → List Nat
  | [] => []
  | l :: ls => l ++ [13, 10] ++ crlf_lines ls

/-- A request without body: the method token, the path behind the leading `/` of the URL, and
the header lines. -/
structure Request where
  method : List Nat
  path : List Nat
  headers : List (List Nat)

/-- The request line `METHOD SP /path SP HTTP/1.1`, without its CR LF. -/
def Request.line (r : Request) : List Nat :=
  r.method ++ 32 :: (47 :: r.path ++ 32 :: [72, 84, 84, 80, 47, 49, 46, 49])

/-- The bytes of the request on the wire: request line, header lines, blank line. -/
def Request.octets (r : Request) : List Nat :=
  r.line ++ [13, 10] ++ (crlf_lines r.headers ++ [13, 10])

/-- A well-formed request without body: the method is `GET` or `POST`, the path holds no blank,
tab, CR, LF or NUL, no header line is empty or holds CR, LF or NUL, and the request fits into the
read buffer. -/
def Request.well_formed (r : Request) : Prop :=
  (r.method = bytes "GET" ∨ r.method = bytes "POST")
  ∧ (∀ b ∈ r.path, b ≠ 0 ∧ b ≠ 13 ∧ b ≠ 10 ∧ b ≠ 32 ∧ b ≠ 9 ∧ b < 256)
  ∧ (∀ h ∈ r.headers, h ≠ [] ∧ ∀ b ∈ h, b ≠ 0 ∧ b ≠ 13 ∧ b ≠ 10 ∧ b < 256)
  ∧ (r.octets.length : Int) ≤ READ_BUFFER_SIZE

instance (r : Request) : Decidable r.well_formed := by
  unfold Request.well_formed
  infer_instance

namespace Scenario

/-- The request `GET / HTTP/1.1` with the single header `Host: x`. -/
def request_get_root : Request where
  method := bytes "GET"
  path := []
  headers := [bytes "Host: x"]

end Scenario

/-! ## Helpers for the concrete request lines -/

/-- The fault of a failed step, if it failed. -/
def fault_of {α : Type} : Except Fault α → Option Fault
  | Except.error f => some f
  | Except.ok _ => none

namespace Scenario

/-- The connection as `process_read` hands it to the parser of a line: the line `ln` and its
CR LF have arrived on a freshly initialised connection and `parse_line` has scanned them. -/
def conn_after_line (ln : List Nat) : http_conn :=
  ((http_conn.fresh 0 doc_root).received (ln ++ [13, 10])).parse_line.2

end Scenario

/-! ## The pool of database connections (C19, C20) -/

/-- What holds of the pool between two calls: the counters add up to `M`, the free counter is the
length of the list and the value of the semaphore, the in-use counter is the number of leased
handles, and no handle is null. -/
structure PoolInv (p : connection_pool) (leased : List Int) (M : Int) : Prop where
  total : p.m_FreeConn + p.m_CurConn = M
  free_len : p.m_FreeConn = p.connList.length
  free_sem : p.m_FreeConn = p.reserve
  cur_len : p.m_CurConn = leased.length
  max : p.m_MaxConn = M
  list_ne : ∀ h ∈ p.connList, h ≠ 0
  leased_ne : ∀ h ∈ leased, h ≠ 0

/-! ## The canned responses of `process_write` (C13) -/

/-- The decimal digits of `n`, as bytes. -/
def decimal (n : Nat) : List Nat := bytes (toString n)

/-- The response for one of the outcomes `INTERNAL_ERROR`, `BAD_REQUEST`, `FORBIDDEN_REQUEST`:
status line, `Content-Length` with the length of the body, `Content-Type`, `Connection`, a blank
line, and the body. -/
def canned_response (code : HTTP_CODE) (linger : Bool) : List Nat :=
  let status : List Nat :=
    match code with
    | HTTP_CODE.INTERNAL_ERROR => bytes "500 Internal Error"
    | HTTP_CODE.BAD_REQUEST => bytes "404 Not Found"
    | _ => bytes "403 Forbidden"
  let body : List Nat :=
    match code with
    | HTTP_CODE.INTERNAL_ERROR => bytes "There was an unusual problem serving the request file.\n"
    | HTTP_CODE.BAD_REQUEST => bytes "The requested file was not found on this server.\n"
    | _ => bytes "You do not have permission to get file form this server.\n"
  bytes "HTTP/1.1 " ++ status ++ bytes "\r\n"
    ++ bytes "Content-Length:" ++ decimal body.length ++ bytes "\r\n"
    ++ bytes "Content-Type:text/html\r\n"
    ++ bytes "Connection:" ++ (if linger then bytes "keep-alive" else bytes "close") ++ bytes "\r\n"
    ++ bytes "\r\n"
    ++ body

/-- The write buffer of `c` holds the bytes `xs`, and `m_write_idx` is their number. -/
structure Wrote (c : http_conn) (xs : List Nat) : Prop where
  idx : c.m_write_idx = xs.length
  buf : ∀ k : Nat, k < xs.length → c.m_write_buf k = xs.getD k 0

/-! ## The content length stored by `parse_headers` (C12) -/

/-- The value of a string of decimal digits. -/
def decimal_value (ds : List Nat) : Nat := ds.foldl (fun a d => 10 * a + (d - 48)) 0

/-- The line is a `Content-Length` header: its first 15 bytes are `Content-length:`, in upper or
lower case. -/
def is_content_length (ln : List Nat) : Bool := strncasecmp_eq ln (bytes "Content-length:") 15

/-- The number that a `Content-Length` header line gives: what `atol` makes of the bytes behind
the colon and the blanks and tabs that follow it. -/
def content_length_value (ln : List Nat) : Int := atol ((ln.drop 15).dropWhile is_blank)

/-- The content length after the header lines `lines`, starting from `cl`: the value of the last
`Content-Length` header among them, and `cl` when there is none. -/
def content_length_after (cl : Int) (lines : List (List Nat)) : Int :=
  lines.foldl (fun cl ln => if is_content_length ln then content_length_value ln else cl) cl

namespace Scenario

/-- A request whose `Content-Length` header carries a negative number. -/
def request_negative_length : List Nat := bytes "GET / HTTP/1.1\r\nContent-Length: -5\r\n\r\n"

/-- The connection after the header lines `Host: x` and `Content-Length: 24` and the blank line
have arrived and `parse_line` has scanned each of the three lines. -/
def conn_after_headers : http_conn :=
  ((((http_conn.fresh 0 doc_root).received
    (bytes "Host: x\r\nContent-Length: 24\r\n\r\n")).parse_line.2).parse_line.2).parse_line.2

end Scenario

/-! ## The rewrite of the URL `/` (C11) -/

/-- What the last part of `parse_request_line` leaves when it works on the string `U` stored at
`base` in the buffer `m`: a fault is the null pointer, or the store of `judge.html` behind a `/`
that ends `U` at an offset too close to the end of the buffer; an accepted URL starts at a `/`
of `U`, and the buffer is changed only by that store. -/
def AcceptedAt (m : Mem) (r : Except Fault (HTTP_CODE × http_conn)) (base : Int) (U : List Nat) :
    Prop :=
  (∀ f, r = Except.error f →
    f = Fault.null_pointer ∨ ∃ j : Nat, j + 1 = U.length ∧ READ_BUFFER_SIZE < base + j + 12)
  ∧ ∀ c', r = Except.ok (HTTP_CODE.NO_REQUEST, c') →
      ∃ j : Nat, j < U.length ∧ (U.drop j).headD 0 = 47 ∧ c'.m_url = some (base + j)
        ∧ c'.m_read_buf = if j + 1 = U.length then
            m.write (base + j + 1) [106, 117, 100, 103, 101, 46, 104, 116, 109, 108, 0]
          else m

/-! ## The file that `do_request` resolves (C18) -/

/-- The fixed page that the character `ch` after the last `/` of the URL selects for a `GET`
request, if it selects one. -/
def page_name (ch : Nat) : Option (List Nat) :=
  if ch = 48 then some (bytes "/register.html")
  else if ch = 49 then some (bytes "/log.html")
  else if ch = 53 then some (bytes "/picture.html")
  else if ch = 54 then some (bytes "/video.html")
  else if ch = 55 then some (bytes "/fans.html")
  else none

/-- The name that follows the document root of `len` bytes in the resolved file name, for the
URL `U` with the character `ch` after its last `/`: the fixed page that `ch` selects, and
otherwise the URL itself, cut to `199 - len` bytes. -/
def resolved_name (len : Nat) (U : List Nat) (ch : Nat) : List Nat :=
  match page_name ch with
  | some name => name
  | none => U.take (199 - len)

namespace Scenario

/-- A document root of 190 bytes. -/
def doc_root_190 : List Nat := 47 :: List.replicate 189 97

/-- A document root of 200 bytes. -/
def doc_root_200 : List Nat := 47 :: List.replicate 199 97

end Scenario

end WebServer

/-! # Theorems -/

set_option maxRecDepth 100000
set_option synthInstance.maxSize 1000
set_option maxHeartbeats 400000

open WebServer WebServer.http_conn

namespace WebServer

/-! ## Lemmas on C strings in the read buffer -/

theorem cstr_aux_eq (m : Mem) (ln : List Nat) : ∀ (p : Int) (fuel : Nat),
    (∀ k : Nat, k < ln.length → ln[k]? = some (m (p + k))) → (∀ b ∈ ln, b ≠ 0) →
    m (p + ln.length) = 0 → ln.length < fuel → cstr_aux m p fuel = ln := by
  induction ln with
  | nil =>
    intro p fuel _ _ hnul hf
    cases fuel with
    | zero => omega
    | succ f => simp at hnul; simp [cstr_aux, hnul]
  | cons b t ih =>
    intro p fuel hb hnz hnul hf
    cases fuel with
    | zero => omega
    | succ f =>
      have h0 := hb 0 (by simp)
      simp at h0
      have hbne : b ≠ 0 := hnz b (by simp)
      have hmp : m p ≠ 0 := by rw [← h0]; exact hbne
      simp only [cstr_aux, ← h0, hbne, if_false]
      congr 1
      apply ih
      · intro k hk
        have := hb (k + 1) (by simp; omega)
        simp at this
        rw [this]; congr 2; ring
      · intro x hx; exact hnz x (by simp [hx])
      · simp at hnul; rw [← hnul]; congr 1; ring
      · simp at hf; omega

theorem HasStr.cstr_eq {m : Mem} {p : Int} {ln : List Nat} (h : HasStr m p ln) :
    cstr READ_BUFFER_SIZE m p = ln := by
  unfold cstr
  apply cstr_aux_eq m ln p _ h.bytes h.nonzero h.nul
  have := h.bound
  omega

theorem HasStr.drop {m : Mem} {p : Int} {ln : List Nat} (h : HasStr m p ln) (k : Nat)
    (hk : k ≤ ln.length) : HasStr m (p + k) (ln.drop k) := by
  refine ⟨?_, ?_, ?_, ?_⟩
  · intro j hj
    simp at hj
    have := h.bytes (k + j) (by omega)
    rw [List.getElem?_drop, this]; congr 2; push_cast; ring
  · intro b hb; exact h.nonzero b (List.mem_of_mem_drop hb)
  · have := h.nul
    simp only [List.length_drop]
    rw [← this]; congr 1
    have : ((ln.length - k : Nat) : Int) = (ln.length : Int) - k := by omega
    rw [this]; ring
  · have := h.bound
    simp only [List.length_drop]
    omega

theorem HasStr.take_set {m : Mem} {p : Int} {ln : List Nat} (h : HasStr m p ln) (k : Nat)
    (hk : k ≤ ln.length) : HasStr (m.set (p + k) 0) p (ln.take k) := by
  refine ⟨?_, ?_, ?_, ?_⟩
  · intro j hj
    simp at hj
    have := h.bytes j (by omega)
    have hne : ¬ (p + (j : Int) = p + (k : Int)) := by omega
    simp only [Mem.set, hne, if_false]
    rw [List.getElem?_take_of_lt (by omega), this]
  · intro b hb; exact h.nonzero b (List.mem_of_mem_take hb)
  · simp only [List.length_take, Mem.set]
    have : min k ln.length = k := by omega
    simp [this]
  · have := h.bound
    simp only [List.length_take]
    omega

/-- A store outside the string and its terminator leaves the string as it is. -/
theorem HasStr.set_outside {m : Mem} {p : Int} {ln : List Nat} (h : HasStr m p ln) (i : Int)
    (v : Nat) (hi : i < p ∨ p + ln.length < i) : HasStr (m.set i v) p ln := by
  refine ⟨?_, h.nonzero, ?_, h.bound⟩
  · intro j hj
    have hne : ¬ (p + (j : Int) = i) := by omega
    simp only [Mem.set, hne, if_false]
    exact h.bytes j hj
  · have hne : ¬ (p + (ln.length : Int) = i) := by omega
    simp only [Mem.set, hne, if_false]
    exact h.nul

theorem HasStr.write_above {m : Mem} {p : Int} {ln : List Nat} (h : HasStr m p ln) (r : Int)
    (d : List Nat) (hr : p + ln.length < r) : HasStr (m.write r d) p ln := by
  refine ⟨?_, h.nonzero, ?_, h.bound⟩
  · intro j hj
    have hne : ¬ (r ≤ p + (j : Int) ∧ p + (j : Int) < r + d.length) := by omega
    simp only [Mem.write, hne, if_false]
    exact h.bytes j hj
  · have hne : ¬ (r ≤ p + (ln.length : Int) ∧ p + (ln.length : Int) < r + d.length) := by omega
    simp only [Mem.write, hne, if_false]
    exact h.nul

theorem cstr_aux_spec (m : Mem) : ∀ (fuel : Nat) (p q : Int), p ≤ q → q < p + fuel → m q = 0 →
    (∀ k : Nat, k < (cstr_aux m p fuel).length → (cstr_aux m p fuel)[k]? = some (m (p + k)))
    ∧ (∀ b ∈ cstr_aux m p fuel, b ≠ 0)
    ∧ m (p + (cstr_aux m p fuel).length) = 0
    ∧ p + (cstr_aux m p fuel).length ≤ q := by
  intro fuel
  induction fuel with
  | zero => intro p q h1 h2 _; simp at h2; omega
  | succ f ih =>
    intro p q h1 h2 h3
    by_cases hp : m p = 0
    · simp [cstr_aux, hp, h1]
    · have hpq : p ≠ q := by rintro rfl; exact hp h3
      obtain ⟨a, b, c, d⟩ := ih (p + 1) q (by omega) (by push_cast at h2; omega) h3
      simp only [cstr_aux, hp, if_false]
      refine ⟨?_, ?_, ?_, ?_⟩
      · intro k hk
        cases k with
        | zero => simp
        | succ k =>
          simp at hk
          have := a k hk
          simp only [List.getElem?_cons_succ, this]
          congr 2; push_cast; ring
      · intro x hx
        simp at hx
        rcases hx with rfl | hx
        · exact hp
        · exact b x hx
      · simp only [List.length_cons]
        rw [← c]; congr 1; push_cast; ring
      · simp only [List.length_cons]; push_cast; omega

/-- A NUL at `q`, inside the buffer and not before `p`, makes the bytes read by `cstr` at `p` a
string that ends at or before `q`. -/
theorem HasStr.of_nul (m : Mem) (p q : Int) (hpq : p ≤ q) (hq : q < READ_BUFFER_SIZE)
    (hnul : m q = 0) :
    HasStr m p (cstr READ_BUFFER_SIZE m p) ∧ p + (cstr READ_BUFFER_SIZE m p).length ≤ q := by
  obtain ⟨a, b, c, d⟩ := cstr_aux_spec m (READ_BUFFER_SIZE - p).toNat p q hpq (by omega) hnul
  exact ⟨⟨a, b, c, by unfold cstr; omega⟩, d⟩

theorem HasStr.unique {m : Mem} {p : Int} {l1 l2 : List Nat} (h1 : HasStr m p l1)
    (h2 : HasStr m p l2) : l1 = l2 := by
  rw [← h1.cstr_eq, ← h2.cstr_eq]

/-! ## The parsers in terms of the strings they read -/

theorem strncasecmp_eq_length {s lit : List Nat} {n : Nat} (h : strncasecmp_eq s lit n = true)
    (hl : n ≤ lit.length) : n ≤ s.length := by
  unfold strncasecmp_eq at h
  have h' : (List.map tolower (List.take n s)).length = (List.map tolower (List.take n lit)).length := by
    rw [beq_iff_eq.mp h]
  simp at h'
  omega

theorem strchr_lt {s : List Nat} {ch k : Nat} (h : strchr s ch = some k) : k < s.length := by
  unfold strchr at h
  simp only at h
  split at h
  · simp at h; omega
  · simp at h

theorem strpbrk_lt {s accept : List Nat} {k : Nat} (h : strpbrk s accept = some k) :
    k < s.length := by
  unfold strpbrk at h
  simp only at h
  split at h
  · rename_i hlt
    simp only [Option.some.injEq] at h
    omega
  · simp at h

theorem strspn_le (s accept : List Nat) : strspn s accept ≤ s.length := by
  unfold strspn
  induction s with
  | nil => simp
  | cons b t ih =>
    simp only [List.takeWhile]
    split
    · simp only [List.length_cons]; omega
    · simp

theorem HasStr.byte_at {m : Mem} {p : Int} {ln : List Nat} (h : HasStr m p ln) (k : Nat)
    (hk : k ≤ ln.length) : m (p + k) = (ln.drop k).headD 0 := by
  rcases Nat.lt_or_ge k ln.length with hlt | hge
  · have := h.bytes k hlt
    rw [List.headD_eq_head?_getD, List.head?_drop, this]; rfl
  · have : k = ln.length := by omega
    subst this
    simp [h.nul]

namespace http_conn

theorem str_of_HasStr {c : http_conn} {p : Int} {ln : List Nat} (h : HasStr c.m_read_buf p ln) :
    c.str p = ln := h.cstr_eq

theorem str_add_of_HasStr {c : http_conn} {p : Int} {ln : List Nat} (h : HasStr c.m_read_buf p ln)
    (k : Nat) (hk : k ≤ ln.length) : c.str (p + k) = ln.drop k := (h.drop k hk).cstr_eq

theorem parse_request_line_accept_eq (c : http_conn) (u : Int) (U : List Nat)
    (h : HasStr c.m_read_buf u U) :
    c.parse_request_line_accept u = c.parse_request_line_accept_on u U := by
  unfold parse_request_line_accept parse_request_line_accept_on
  rw [str_of_HasStr h]

theorem strchr_head {s : List Nat} {ch k : Nat} (h : strchr s ch = some k) :
    (s.drop k).headD 0 = ch := by
  have hk := strchr_lt h
  unfold strchr at h
  simp only at h
  split at h
  · simp at h
    subst h
    have := List.findIdx_getElem (w := hk)
    simp at this
    rw [List.headD_eq_head?_getD, List.head?_drop, List.getElem?_eq_getElem hk, this]; rfl
  · simp at h

theorem parse_request_line_https_eq (c : http_conn) (u1 : Int) (U : List Nat)
    (h : HasStr c.m_read_buf u1 U) :
    c.parse_request_line_https u1 = c.parse_request_line_https_on u1 U := by
  unfold parse_request_line_https parse_request_line_https_on
  rw [str_of_HasStr h]
  by_cases h2 : strncasecmp_eq U [104, 116, 116, 112, 115, 58, 47, 47] 8 = true
  · have hlen := strncasecmp_eq_length h2 (by simp)
    have e8 : c.str (u1 + 8) = U.drop 8 := str_add_of_HasStr h 8 hlen
    simp only [h2, if_true, e8]
    cases hs : strchr (List.drop 8 U) 47 with
    | none => rfl
    | some k =>
      have hk := strchr_lt hs
      simp at hk
      have hb : c.m_read_buf (u1 + 8 + (k : Int)) = 47 := by
        have := h.byte_at (8 + k) (by omega)
        rw [← List.drop_drop, strchr_head hs] at this
        rw [← this]; congr 1; push_cast; ring
      have hS : HasStr c.m_read_buf (u1 + 8 + (k : Int)) (U.drop (8 + k)) := by
        have := h.drop (8 + k) (by omega)
        have e : u1 + ((8 + k : Nat) : Int) = u1 + 8 + (k : Int) := by push_cast; ring
        rw [e] at this; exact this
      simp only [hb, ne_eq, not_true_eq_false, if_false]
      exact parse_request_line_accept_eq _ _ _ hS
  · have hb : c.m_read_buf u1 = U.headD 0 := by
      have := h.byte_at 0 (by omega)
      simpa using this
    simp only [h2, Bool.false_eq_true, if_false, hb]
    split
    · rfl
    · exact parse_request_line_accept_eq _ _ _ h

theorem parse_request_line_url_eq (c : http_conn) (url : Int) (U : List Nat)
    (h : HasStr c.m_read_buf url U) :
    c.parse_request_line_url url = c.parse_request_line_url_on url U := by
  unfold parse_request_line_url parse_request_line_url_on
  rw [str_of_HasStr h]
  by_cases h1 : strncasecmp_eq U [104, 116, 116, 112, 58, 47, 47] 7 = true
  · have hlen := strncasecmp_eq_length h1 (by simp)
    have e7 : c.str (url + 7) = U.drop 7 := str_add_of_HasStr h 7 hlen
    simp only [h1, if_true, e7]
    cases hs : strchr (List.drop 7 U) 47 with
    | none => rfl
    | some k =>
      have hk := strchr_lt hs
      simp at hk
      have hS : HasStr c.m_read_buf (url + 7 + (k : Int)) (U.drop (7 + k)) := by
        have := h.drop (7 + k) (by omega)
        have e : url + ((7 + k : Nat) : Int) = url + 7 + (k : Int) := by push_cast; ring
        rw [e] at this; exact this
      exact parse_request_line_https_eq _ _ _ hS
  · simp only [h1, Bool.false_eq_true, if_false]
    exact parse_request_line_https_eq _ _ _ h

theorem parse_request_line_version_eq (c : http_conn) (url : Int) (L : List Nat)
    (h : HasStr c.m_read_buf url L) :
    c.parse_request_line_version url = c.parse_request_line_version_on url L := by
  unfold parse_request_line_version parse_request_line_version_on
  rw [str_of_HasStr h]
  cases hs : strpbrk L [32, 9] with
  | none => rfl
  | some k =>
    have hk := strpbrk_lt hs
    have hT : HasStr (c.m_read_buf.set (url + k) 0) url (L.take k) := h.take_set k (by omega)
    have hD : HasStr (c.m_read_buf.set (url + k) 0) (url + k + 1) (L.drop (k + 1)) := by
      have := (h.drop (k + 1) (by omega)).set_outside (url + k) 0 (Or.inl (by push_cast; omega))
      have e : url + ((k + 1 : Nat) : Int) = url + k + 1 := by push_cast; ring
      rw [e] at this; exact this
    have e1 : ({ c with m_read_buf := c.m_read_buf.set (url + k) 0 } : http_conn).str (url + k + 1)
        = L.drop (k + 1) := hD.cstr_eq
    have hV := hD.drop (strspn (L.drop (k + 1)) [32, 9]) (strspn_le _ _)
    simp only [e1]
    have e2 : ({ c with
          m_read_buf := c.m_read_buf.set (url + k) 0
          m_version := some (url + k + 1 + (strspn (L.drop (k + 1)) [32, 9] : Int)) } : http_conn).str
        (url + k + 1 + (strspn (L.drop (k + 1)) [32, 9] : Int))
        = (L.drop (k + 1)).drop (strspn (L.drop (k + 1)) [32, 9]) := hV.cstr_eq
    simp only [e2]
    split
    · rfl
    · exact parse_request_line_url_eq _ _ _ hT

theorem parse_request_line_eq (c : http_conn) (text : Int) (ln : List Nat)
    (h : HasStr c.m_read_buf text ln) :
    c.parse_request_line text = c.parse_request_line_on text ln := by
  unfold parse_request_line parse_request_line_on
  rw [str_of_HasStr h]
  cases hs : strpbrk ln [32, 9] with
  | none => rfl
  | some k =>
    have hk := strpbrk_lt hs
    have hT : HasStr (c.m_read_buf.set (text + k) 0) text (ln.take k) := h.take_set k (by omega)
    have hD : HasStr (c.m_read_buf.set (text + k) 0) (text + k + 1) (ln.drop (k + 1)) := by
      have := (h.drop (k + 1) (by omega)).set_outside (text + k) 0 (Or.inl (by push_cast; omega))
      have e : text + ((k + 1 : Nat) : Int) = text + k + 1 := by push_cast; ring
      rw [e] at this; exact this
    have e1 : ({ c with m_read_buf := c.m_read_buf.set (text + k) 0 } : http_conn).str (text + k + 1)
        = ln.drop (k + 1) := hD.cstr_eq
    have hV := hD.drop (strspn (ln.drop (k + 1)) [32, 9]) (strspn_le _ _)
    have e2 : ({ c with
          m_read_buf := c.m_read_buf.set (text + k) 0
          m_url := some (text + k + 1 + (strspn (ln.drop (k + 1)) [32, 9] : Int)) } : http_conn).str text
        = ln.take k := hT.cstr_eq
    simp only [e1, e2]
    split
    · exact parse_request_line_version_eq _ _ _ hV
    · split
      · exact parse_request_line_version_eq _ _ _ hV
      · rfl

theorem parse_headers_eq (c : http_conn) (text : Int) (ln : List Nat)
    (h : HasStr c.m_read_buf text ln) :
    c.parse_headers text = c.parse_headers_on text ln := by
  unfold parse_headers parse_headers_on
  have hb : c.m_read_buf text = ln.headD 0 := by
    have := h.byte_at 0 (by omega)
    simpa using this
  rw [str_of_HasStr h]
  by_cases hnil : ln = []
  · subst hnil
    simp [hb]
  · have hne : c.m_read_buf text ≠ 0 := by
      rw [hb]
      cases ln with
      | nil => exact absurd rfl hnil
      | cons b t => simpa using h.nonzero b (by simp)
    simp only [hne, hnil, if_false]
    by_cases h1 : strncasecmp_eq ln [67, 111, 110, 110, 101, 99, 116, 105, 111, 110, 58] 11 = true
    · have hlen := strncasecmp_eq_length h1 (by simp)
      have e1 : c.str (text + 11) = ln.drop 11 := str_add_of_HasStr h 11 hlen
      have hV := (h.drop 11 hlen).drop (strspn (ln.drop 11) [32, 9]) (strspn_le _ _)
      have e2 : c.str (text + 11 + (strspn (ln.drop 11) [32, 9] : Int))
          = (ln.drop 11).drop (strspn (ln.drop 11) [32, 9]) := hV.cstr_eq
      simp only [h1, if_true, e1, e2]
    · simp only [h1, Bool.false_eq_true, if_false]
      by_cases h2 : strncasecmp_eq ln
          [67, 111, 110, 116, 101, 110, 116, 45, 108, 101, 110, 103, 116, 104, 58] 15 = true
      · have hlen := strncasecmp_eq_length h2 (by simp)
        have e1 : c.str (text + 15) = ln.drop 15 := str_add_of_HasStr h 15 hlen
        have hV := (h.drop 15 hlen).drop (strspn (ln.drop 15) [32, 9]) (strspn_le _ _)
        have e2 : c.str (text + 15 + (strspn (ln.drop 15) [32, 9] : Int))
            = (ln.drop 15).drop (strspn (ln.drop 15) [32, 9]) := hV.cstr_eq
        simp only [h2, if_true, e1, e2]
      · simp only [h2, Bool.false_eq_true, if_false]
        by_cases h3 : strncasecmp_eq ln [72, 111, 115, 116, 58] 5 = true
        · have hlen := strncasecmp_eq_length h3 (by simp)
          have e1 : c.str (text + 5) = ln.drop 5 := str_add_of_HasStr h 5 hlen
          simp only [h3, if_true, e1]
        · simp only [h3, Bool.false_eq_true, if_false]

end http_conn

/-! ## The tokens of the request line (C9) -/

theorem takeWhile_not_blank (ln : List Nat) :
    ln.takeWhile (fun b => !is_blank b) = ln.take (ln.findIdx (fun b => [32, 9].contains b)) := by
  rw [List.takeWhile_eq_take_findIdx_not]
  simp only [is_blank, Bool.not_not]

theorem dropWhile_not_blank (ln : List Nat) :
    ln.dropWhile (fun b => !is_blank b) = ln.drop (ln.findIdx (fun b => [32, 9].contains b)) := by
  rw [List.dropWhile_eq_drop_findIdx_not]
  simp only [is_blank, Bool.not_not]

theorem strpbrk_blank_none {ln : List Nat} (h : strpbrk ln [32, 9] = none) :
    first_token ln = ln ∧ after_first_token ln = [] := by
  unfold strpbrk at h
  simp only at h
  split at h
  · simp at h
  · rename_i hlt
    have hge : ln.length ≤ List.findIdx (fun b => [32, 9].contains b) ln := by omega
    have heq : List.findIdx (fun b => [32, 9].contains b) ln = ln.length :=
      Nat.le_antisymm (List.findIdx_le_length _) hge
    constructor
    · unfold first_token
      rw [takeWhile_not_blank, heq, List.take_length]
    · unfold after_first_token
      rw [dropWhile_not_blank, heq, List.drop_length, List.dropWhile_nil]

theorem drop_strspn (s : List Nat) :
    s.drop (strspn s [32, 9]) = s.dropWhile is_blank := by
  unfold strspn
  induction s with
  | nil => simp
  | cons b t ih =>
    simp only [List.takeWhile, List.dropWhile, is_blank]
    split <;> simp_all [is_blank]

theorem strpbrk_blank_some {ln : List Nat} {k : Nat} (h : strpbrk ln [32, 9] = some k) :
    ln.take k = first_token ln
    ∧ (ln.drop (k + 1)).drop (strspn (ln.drop (k + 1)) [32, 9]) = after_first_token ln := by
  have hk := strpbrk_lt h
  unfold strpbrk at h
  simp only at h
  split at h
  · simp only [Option.some.injEq] at h
    constructor
    · unfold first_token
      rw [takeWhile_not_blank, h]
    · unfold after_first_token
      rw [drop_strspn, dropWhile_not_blank, h]
      have hb : is_blank (ln[k]) = true := by
        have := @List.findIdx_getElem _ (fun b => [32, 9].contains b) ln (by omega)
        simp only [h] at this
        exact this
      rw [List.drop_eq_getElem_cons hk]
      simp only [List.dropWhile, hb]
  · simp at h

theorem bytes_GET : bytes "GET" = [71, 69, 84] := by decide
theorem bytes_POST : bytes "POST" = [80, 79, 83, 84] := by decide
theorem bytes_HTTP11 : bytes "HTTP/1.1" = [72, 84, 84, 80, 47, 49, 46, 49] := by decide

namespace http_conn

theorem parse_request_line_accept_shape {c c' : http_conn} {u : Int} {code : HTTP_CODE}
    (h : c.parse_request_line_accept u = Except.ok (code, c')) :
    code = HTTP_CODE.NO_REQUEST ∧ c'.m_check_state = CHECK_STATE.CHECK_STATE_HEADER
      ∧ c'.m_url = c.m_url ∧ c'.m_read_buf u = c.m_read_buf u := by
  unfold parse_request_line_accept at h
  split at h
  · split at h
    · simp at h
    · simp only [Except.ok.injEq, Prod.mk.injEq] at h
      obtain ⟨rfl, rfl⟩ := h
      simp [Mem.write]
  · simp only [Except.ok.injEq, Prod.mk.injEq] at h
    obtain ⟨rfl, rfl⟩ := h
    simp

theorem parse_request_line_https_shape {c c' : http_conn} {u1 : Int} {code : HTTP_CODE}
    (h : c.parse_request_line_https u1 = Except.ok (code, c'))
    (hs : c.m_check_state ≠ CHECK_STATE.CHECK_STATE_HEADER)
    (hs' : c'.m_check_state = CHECK_STATE.CHECK_STATE_HEADER) :
    code = HTTP_CODE.NO_REQUEST ∧ ∃ u, c'.m_url = some u ∧ c'.m_read_buf u = 47 := by
  unfold parse_request_line_https at h
  simp only at h
  split at h
  · simp only [Except.ok.injEq, Prod.mk.injEq] at h
    obtain ⟨rfl, rfl⟩ := h
    exact absurd hs' hs
  · rename_i u2 _
    split at h
    · simp only [Except.ok.injEq, Prod.mk.injEq] at h
      obtain ⟨rfl, rfl⟩ := h
      exact absurd hs' hs
    · rename_i hb
      obtain ⟨h1, _, h3, h4⟩ := parse_request_line_accept_shape h
      refine ⟨h1, u2, h3, ?_⟩
      rw [h4]
      simpa using hb

theorem parse_request_line_url_shape {c c' : http_conn} {url : Int} {code : HTTP_CODE}
    (h : c.parse_request_line_url url = Except.ok (code, c'))
    (hs : c.m_check_state ≠ CHECK_STATE.CHECK_STATE_HEADER)
    (hs' : c'.m_check_state = CHECK_STATE.CHECK_STATE_HEADER) :
    code = HTTP_CODE.NO_REQUEST ∧ ∃ u, c'.m_url = some u ∧ c'.m_read_buf u = 47 := by
  unfold parse_request_line_url at h
  simp only at h
  split at h
  · simp at h
  · exact parse_request_line_https_shape h hs hs'

theorem parse_request_line_version_shape {c c' : http_conn} {url : Int} {code : HTTP_CODE}
    (h : c.parse_request_line_version url = Except.ok (code, c'))
    (hs : c.m_check_state ≠ CHECK_STATE.CHECK_STATE_HEADER)
    (hs' : c'.m_check_state = CHECK_STATE.CHECK_STATE_HEADER) :
    code = HTTP_CODE.NO_REQUEST ∧ ∃ u, c'.m_url = some u ∧ c'.m_read_buf u = 47 := by
  unfold parse_request_line_version at h
  split at h
  · simp only [Except.ok.injEq, Prod.mk.injEq] at h
    obtain ⟨rfl, rfl⟩ := h
    exact absurd hs' hs
  · simp only at h
    split at h
    · simp only [Except.ok.injEq, Prod.mk.injEq] at h
      obtain ⟨rfl, rfl⟩ := h
      exact absurd hs' hs
    · exact parse_request_line_url_shape h hs hs'

theorem parse_request_line_shape {c c' : http_conn} {text : Int} {code : HTTP_CODE}
    (h : c.parse_request_line text = Except.ok (code, c'))
    (hs : c.m_check_state ≠ CHECK_STATE.CHECK_STATE_HEADER)
    (hs' : c'.m_check_state = CHECK_STATE.CHECK_STATE_HEADER) :
    code = HTTP_CODE.NO_REQUEST ∧ ∃ u, c'.m_url = some u ∧ c'.m_read_buf u = 47 := by
  unfold parse_request_line at h
  split at h
  · simp only [Except.ok.injEq, Prod.mk.injEq] at h
    obtain ⟨rfl, rfl⟩ := h
    exact absurd hs' hs
  · simp only at h
    split at h
    · exact parse_request_line_version_shape h hs hs'
    · split at h
      · exact parse_request_line_version_shape h hs hs'
      · simp only [Except.ok.injEq, Prod.mk.injEq] at h
        obtain ⟨rfl, rfl⟩ := h
        exact absurd hs' hs

/-- The codes that `parse_request_line_url_on` returns. -/
theorem parse_request_line_url_on_code {c c' : http_conn} {url : Int} {U : List Nat}
    {code : HTTP_CODE} (h : c.parse_request_line_url_on url U = Except.ok (code, c')) :
    (code = HTTP_CODE.BAD_REQUEST ∧ c'.m_check_state = c.m_check_state)
      ∨ code = HTTP_CODE.NO_REQUEST := by
  unfold parse_request_line_url_on parse_request_line_https_on parse_request_line_accept_on at h
  repeat' split at h
  all_goals first
    | (simp only [Except.ok.injEq, Prod.mk.injEq] at h; obtain ⟨rfl, rfl⟩ := h; simp)
    | simp at h

/-- The version test of `parse_request_line`, on the tokens of the line. -/
theorem parse_request_line_version_on_bad {c : http_conn} {url : Int} {L : List Nat}
    (hv : strcasecmp_eq (after_first_token L) [72, 84, 84, 80, 47, 49, 46, 49] = false) :
    ∃ c', c.parse_request_line_version_on url L = Except.ok (HTTP_CODE.BAD_REQUEST, c') := by
  unfold parse_request_line_version_on
  cases hs : strpbrk L [32, 9] with
  | none => exact ⟨_, rfl⟩
  | some k =>
    have := (strpbrk_blank_some hs).2
    simp only [this, hv, Bool.false_eq_true, not_false_eq_true, if_true]
    exact ⟨_, rfl⟩

theorem parse_request_line_version_on_ok {c c' : http_conn} {url : Int} {L : List Nat}
    {code : HTTP_CODE} (h : c.parse_request_line_version_on url L = Except.ok (code, c'))
    (hc : code = HTTP_CODE.NO_REQUEST) :
    strcasecmp_eq (after_first_token L) [72, 84, 84, 80, 47, 49, 46, 49] = true := by
  by_contra hv
  obtain ⟨c'', h2⟩ := @parse_request_line_version_on_bad c url L
    (by simpa using hv)
  rw [h2] at h
  simp only [Except.ok.injEq, Prod.mk.injEq] at h
  rw [hc] at h
  exact absurd h.1 (by decide)

/-- C9 (corrected): for the request line `ln` stored at `text`, the method and the version being
compared without regard to case.  `parse_request_line` answers `BAD_REQUEST` when the method token
is neither `GET` nor `POST`, and when the version string is not `HTTP/1.1`; and when it moves from
the `REQUESTLINE` state to the `HEADER` state, the method token is `GET` or `POST`, the version
string is `HTTP/1.1`, and `m_url` points at a `/`. -/
theorem parse_request_line_tokens (c : http_conn) (text : Int) (ln : List Nat)
    (h : HasStr c.m_read_buf text ln) :
    ((strcasecmp_eq (method_token ln) (bytes "GET") = false
        ∧ strcasecmp_eq (method_token ln) (bytes "POST") = false) →
      ∃ c', c.parse_request_line text = Except.ok (HTTP_CODE.BAD_REQUEST, c'))
    ∧ (strcasecmp_eq (version_string ln) (bytes "HTTP/1.1") = false →
      ∃ c', c.parse_request_line text = Except.ok (HTTP_CODE.BAD_REQUEST, c'))
    ∧ (∀ code c', c.parse_request_line text = Except.ok (code, c') →
        c.m_check_state = CHECK_STATE.CHECK_STATE_REQUESTLINE →
        c'.m_check_state = CHECK_STATE.CHECK_STATE_HEADER →
        (strcasecmp_eq (method_token ln) (bytes "GET") = true
          ∨ strcasecmp_eq (method_token ln) (bytes "POST") = true)
        ∧ strcasecmp_eq (version_string ln) (bytes "HTTP/1.1") = true
        ∧ ∃ u, c'.m_url = some u ∧ c'.m_read_buf u = 47) := by
  rw [bytes_GET, bytes_POST, bytes_HTTP11]
  refine ⟨?_, ?_, ?_⟩
  · rintro ⟨hG, hP⟩
    rw [parse_request_line_eq c text ln h]
    unfold parse_request_line_on
    cases hs : strpbrk ln [32, 9] with
    | none => exact ⟨_, rfl⟩
    | some k =>
      have := (strpbrk_blank_some hs).1
      unfold method_token at hG hP
      simp only [this, hG, hP, Bool.false_eq_true, if_false]
      exact ⟨_, rfl⟩
  · intro hV
    rw [parse_request_line_eq c text ln h]
    unfold parse_request_line_on
    cases hs : strpbrk ln [32, 9] with
    | none => exact ⟨_, rfl⟩
    | some k =>
      have hA := (strpbrk_blank_some hs).2
      unfold version_string at hV
      simp only [hA]
      split
      · exact parse_request_line_version_on_bad hV
      · split
        · exact parse_request_line_version_on_bad hV
        · exact ⟨_, rfl⟩
  · intro code c' hr hs hs'
    have hshape := parse_request_line_shape hr (by rw [hs]; decide) hs'
    refine ⟨?_, ?_, hshape.2⟩
    · rw [parse_request_line_eq c text ln h] at hr
      unfold parse_request_line_on at hr
      cases hsp : strpbrk ln [32, 9] with
      | none =>
        simp only [hsp, Except.ok.injEq, Prod.mk.injEq] at hr
        rw [hshape.1] at hr
        exact absurd hr.1 (by decide)
      | some k =>
        have hT := (strpbrk_blank_some hsp).1
        unfold method_token
        simp only [hsp, hT] at hr
        by_cases hG : strcasecmp_eq (first_token ln) [71, 69, 84] = true
        · exact Or.inl hG
        · by_cases hP : strcasecmp_eq (first_token ln) [80, 79, 83, 84] = true
          · exact Or.inr hP
          · simp only [hG, hP, Bool.false_eq_true, if_false, Except.ok.injEq, Prod.mk.injEq] at hr
            rw [hshape.1] at hr
            exact absurd hr.1 (by decide)
    · rw [parse_request_line_eq c text ln h] at hr
      unfold parse_request_line_on at hr
      cases hsp : strpbrk ln [32, 9] with
      | none =>
        simp only [hsp, Except.ok.injEq, Prod.mk.injEq] at hr
        rw [hshape.1] at hr
        exact absurd hr.1 (by decide)
      | some k =>
        have hA := (strpbrk_blank_some hsp).2
        unfold version_string
        simp only [hsp, hA] at hr
        split at hr
        · exact parse_request_line_version_on_ok hr hshape.1
        · split at hr
          · exact parse_request_line_version_on_ok hr hshape.1
          · simp only [Except.ok.injEq, Prod.mk.injEq] at hr
            rw [hshape.1] at hr
            exact absurd hr.1 (by decide)

end http_conn

/-! ## Request lines built from their tokens -/

theorem findIdx_append_cons_of_not {p : Nat → Bool} (A : List Nat) (b : Nat) (B : List Nat)
    (hA : ∀ x ∈ A, p x = false) (hb : p b = true) : (A ++ b :: B).findIdx p = A.length := by
  induction A with
  | nil => simp [List.findIdx_cons, hb]
  | cons a t ih =>
    have ha : p a = false := hA a (by simp)
    simp only [List.cons_append, List.findIdx_cons, ha, cond_false, List.length_cons]
    rw [ih (fun x hx => hA x (by simp [hx]))]

theorem strpbrk_append_blank (A B : List Nat) (hA : ∀ x ∈ A, x ≠ 32 ∧ x ≠ 9) :
    strpbrk (A ++ 32 :: B) [32, 9] = some A.length := by
  unfold strpbrk
  have : (A ++ 32 :: B).findIdx (fun b => [32, 9].contains b) = A.length := by
    apply findIdx_append_cons_of_not
    · intro x hx
      have := hA x hx
      simp [this.1, this.2]
    · simp
  simp only [this, List.length_append, List.length_cons]
  rw [if_pos (by omega)]

theorem strspn_cons_of_not (b : Nat) (B : List Nat) (hb : b ≠ 32 ∧ b ≠ 9) :
    strspn (b :: B) [32, 9] = 0 := by
  unfold strspn
  simp [List.takeWhile, hb.1, hb.2]

theorem strchr_append_slash (A B : List Nat) (hA : ∀ x ∈ A, x ≠ 47) :
    strchr (A ++ 47 :: B) 47 = some A.length := by
  unfold strchr
  have : (A ++ 47 :: B).findIdx (fun b => b == 47) = A.length := by
    apply findIdx_append_cons_of_not
    · intro x hx
      have := hA x hx
      simp [this]
    · simp
  simp only [this, List.length_append, List.length_cons]
  rw [if_pos (by omega)]

theorem strchr_none_of_not (A : List Nat) (hA : ∀ x ∈ A, x ≠ 47) : strchr A 47 = none := by
  unfold strchr
  have : A.findIdx (fun b => b == 47) = A.length := by
    apply List.findIdx_eq_length_of_false
    intro x hx
    have := hA x hx
    simp [this]
  simp [this]

namespace http_conn

/-- The function `parse_request_line_on` on a line `M SP URL SP HTTP/1.1` whose method is `GET` or
`POST`: the two blanks are replaced by NUL, the pointers are set, and the URL tests follow. -/
theorem parse_request_line_on_tokens (c : http_conn) (text : Int) (M URL : List Nat)
    (hM : M = [71, 69, 84] ∨ M = [80, 79, 83, 84])
    (hURL : ∀ x ∈ URL, x ≠ 32 ∧ x ≠ 9) (hne : URL ≠ []) :
    c.parse_request_line_on text (M ++ 32 :: (URL ++ 32 :: [72, 84, 84, 80, 47, 49, 46, 49]))
      = parse_request_line_url_on
          { c with
            m_read_buf := (c.m_read_buf.set (text + M.length) 0).set
              (text + M.length + 1 + URL.length) 0
            m_url := some (text + M.length + 1)
            m_method := if M = [71, 69, 84] then METHOD.GET else METHOD.POST
            cgi := if M = [71, 69, 84] then c.cgi else 1
            m_version := some (text + M.length + 1 + URL.length + 1) }
          (text + M.length + 1) URL := by
  have hMb : ∀ x ∈ M, x ≠ 32 ∧ x ≠ 9 := by
    rcases hM with rfl | rfl <;> simp
  obtain ⟨u0, ut, rfl⟩ : ∃ u0 ut, URL = u0 :: ut := by
    cases URL with
    | nil => exact absurd rfl hne
    | cons a t => exact ⟨a, t, rfl⟩
  have hu0 : u0 ≠ 32 ∧ u0 ≠ 9 := hURL u0 (by simp)
  unfold parse_request_line_on
  rw [strpbrk_append_blank M _ hMb]
  have hd1 : List.drop (M.length + 1) (M ++ 32 :: (u0 :: ut ++ 32 :: [72, 84, 84, 80, 47, 49, 46, 49]))
      = u0 :: ut ++ 32 :: [72, 84, 84, 80, 47, 49, 46, 49] := by
    rw [show M ++ 32 :: (u0 :: ut ++ 32 :: [72, 84, 84, 80, 47, 49, 46, 49])
        = (M ++ [32]) ++ (u0 :: ut ++ 32 :: [72, 84, 84, 80, 47, 49, 46, 49]) by simp]
    exact List.drop_left' (by simp)
  have ht1 : List.take M.length (M ++ 32 :: (u0 :: ut ++ 32 :: [72, 84, 84, 80, 47, 49, 46, 49])) = M :=
    List.take_left' rfl
  have hsp1 : strspn (u0 :: ut ++ 32 :: [72, 84, 84, 80, 47, 49, 46, 49]) [32, 9] = 0 :=
    strspn_cons_of_not _ _ hu0
  simp only [hd1, ht1, hsp1, List.drop_zero, Nat.cast_zero, add_zero]
  unfold parse_request_line_version_on
  rw [strpbrk_append_blank (u0 :: ut) _ hURL]
  have hd2 : List.drop ((u0 :: ut).length + 1) (u0 :: ut ++ 32 :: [72, 84, 84, 80, 47, 49, 46, 49])
      = [72, 84, 84, 80, 47, 49, 46, 49] := by
    rw [show u0 :: ut ++ 32 :: [72, 84, 84, 80, 47, 49, 46, 49]
        = (u0 :: ut ++ [32]) ++ [72, 84, 84, 80, 47, 49, 46, 49] by simp]
    exact List.drop_left' (by simp)
  have ht2 : List.take (u0 :: ut).length (u0 :: ut ++ 32 :: [72, 84, 84, 80, 47, 49, 46, 49])
      = u0 :: ut := List.take_left' rfl
  have hsp2 : strspn [72, 84, 84, 80, 47, 49, 46, 49] [32, 9] = 0 := by decide
  have hv : strcasecmp_eq [72, 84, 84, 80, 47, 49, 46, 49] [72, 84, 84, 80, 47, 49, 46, 49] = true := by
    decide
  simp only [hd2, ht2, hsp2, List.drop_zero, Nat.cast_zero, add_zero, hv, not_true_eq_false,
    if_false]
  rcases hM with rfl | rfl
  · have hG : strcasecmp_eq [71, 69, 84] [71, 69, 84] = true := by decide
    simp only [hG, if_true]
  · have hG : strcasecmp_eq [80, 79, 83, 84] [71, 69, 84] = false := by decide
    have hP : strcasecmp_eq [80, 79, 83, 84] [80, 79, 83, 84] = true := by decide
    have hne : ¬ ([80, 79, 83, 84] = [71, 69, 84]) := by decide
    simp only [hG, hP, Bool.false_eq_true, if_false, if_true, hne]

end http_conn

/-! ## Absolute URLs (C10) -/

theorem bytes_http : bytes "http://" = [104, 116, 116, 112, 58, 47, 47] := by decide
theorem bytes_https : bytes "https://" = [104, 116, 116, 112, 115, 58, 47, 47] := by decide
theorem bytes_judge : bytes "/judge.html" = [47, 106, 117, 100, 103, 101, 46, 104, 116, 109, 108] := by
  decide

/-- The string left at `u` by `strcat(m_url, "judge.html")` when the string at `u` was `/`. -/
theorem HasStr.judge {m : Mem} {u : Int} (h : HasStr m u [47]) (hb : u + 12 ≤ READ_BUFFER_SIZE) :
    HasStr (m.write (u + 1) [106, 117, 100, 103, 101, 46, 104, 116, 109, 108, 0]) u
      [47, 106, 117, 100, 103, 101, 46, 104, 116, 109, 108] := by
  have h0 : m u = 47 := by
    have := h.byte_at 0 (by simp)
    simpa using this
  refine ⟨?_, ?_, ?_, ?_⟩
  · intro k hk
    simp only [List.length_cons, List.length_nil] at hk
    have hk' : k = 0 ∨ k = 1 ∨ k = 2 ∨ k = 3 ∨ k = 4 ∨ k = 5 ∨ k = 6 ∨ k = 7 ∨ k = 8 ∨ k = 9
        ∨ k = 10 := by omega
    rcases hk' with rfl | rfl | rfl | rfl | rfl | rfl | rfl | rfl | rfl | rfl | rfl
    · simp [Mem.write, h0]
    all_goals
      simp only [Mem.write, List.length_cons, List.length_nil]
      rw [if_pos (by constructor <;> push_cast <;> omega)]
      simp
  · intro b hb
    simp at hb
    omega
  · simp only [Mem.write, List.length_cons, List.length_nil]
    rw [if_pos (by constructor <;> push_cast <;> omega)]
    simp
  · simp only [List.length_cons, List.length_nil]
    push_cast
    omega

theorem strncasecmp_eq_cons_ne (a b : Nat) (s lit : List Nat) (n : Nat)
    (h : tolower a ≠ tolower b) : strncasecmp_eq (a :: s) (b :: lit) (n + 1) = false := by
  unfold strncasecmp_eq
  simp [h]

namespace http_conn

/-- The tests of `parse_request_line_https_on` and `parse_request_line_accept_on` pass for a
string that begins with `/`. -/
theorem parse_request_line_https_on_slash (c : http_conn) (u : Int) (rest : List Nat) :
    c.parse_request_line_https_on u (47 :: rest)
      = parse_request_line_accept_on { c with m_url := some u } u (47 :: rest) := by
  unfold parse_request_line_https_on
  have h1 : strncasecmp_eq (47 :: rest) [104, 116, 116, 112, 115, 58, 47, 47] 8 = false :=
    strncasecmp_eq_cons_ne _ _ _ _ _ (by decide)
  simp [h1]

theorem parse_request_line_url_on_http (c : http_conn) (url : Int) (auth rest : List Nat)
    (hauth : ∀ b ∈ auth, b ≠ 47) :
    c.parse_request_line_url_on url ([104, 116, 116, 112, 58, 47, 47] ++ auth ++ 47 :: rest)
      = parse_request_line_accept_on
          { c with m_url := some (url + 7 + (auth.length : Int)) } (url + 7 + (auth.length : Int))
          (47 :: rest) := by
  unfold parse_request_line_url_on
  have h1 : strncasecmp_eq ([104, 116, 116, 112, 58, 47, 47] ++ auth ++ 47 :: rest)
      [104, 116, 116, 112, 58, 47, 47] 7 = true := by
    unfold strncasecmp_eq
    simp
  have hd : List.drop 7 ([104, 116, 116, 112, 58, 47, 47] ++ auth ++ 47 :: rest)
      = auth ++ 47 :: rest := by
    simp
  simp only [h1, if_true, hd]
  rw [strchr_append_slash auth rest hauth]
  have hd2 : List.drop (7 + auth.length) ([104, 116, 116, 112, 58, 47, 47] ++ auth ++ 47 :: rest)
      = 47 :: rest := by
    rw [show 7 + auth.length = ([104, 116, 116, 112, 58, 47, 47] ++ auth).length by
      simp only [List.length_append, List.length_cons, List.length_nil]]
    exact List.drop_left' rfl
  simp only [hd2]
  exact parse_request_line_https_on_slash _ _ _

/-- An `http://` URL without a `/` behind the authority: `strchr` gives the null pointer, which
the next `strncasecmp` reads through. -/
theorem parse_request_line_url_on_http_no_path (c : http_conn) (url : Int) (auth : List Nat)
    (hauth : ∀ b ∈ auth, b ≠ 47) :
    c.parse_request_line_url_on url ([104, 116, 116, 112, 58, 47, 47] ++ auth)
      = Except.error Fault.null_pointer := by
  unfold parse_request_line_url_on
  have h1 : strncasecmp_eq ([104, 116, 116, 112, 58, 47, 47] ++ auth)
      [104, 116, 116, 112, 58, 47, 47] 7 = true := by
    unfold strncasecmp_eq
    simp
  have hd : List.drop 7 ([104, 116, 116, 112, 58, 47, 47] ++ auth) = auth := by
    simp
  simp only [h1, if_true, hd]
  rw [strchr_none_of_not auth hauth]

theorem parse_request_line_url_on_https (c : http_conn) (url : Int) (auth path : List Nat)
    (hauth : ∀ b ∈ auth, b ≠ 47) (hpath : path = [] ∨ ∃ rest, path = 47 :: rest) :
    c.parse_request_line_url_on url ([104, 116, 116, 112, 115, 58, 47, 47] ++ auth ++ path)
      = match path with
        | [] => Except.ok (HTTP_CODE.BAD_REQUEST, { c with m_url := none })
        | _ => parse_request_line_accept_on
            { c with m_url := some (url + 8 + (auth.length : Int)) } (url + 8 + (auth.length : Int))
            path := by
  unfold parse_request_line_url_on
  have h1 : strncasecmp_eq ([104, 116, 116, 112, 115, 58, 47, 47] ++ auth ++ path)
      [104, 116, 116, 112, 58, 47, 47] 7 = false := by
    unfold strncasecmp_eq
    simp [tolower]
  simp only [h1, Bool.false_eq_true, if_false]
  unfold parse_request_line_https_on
  have h2 : strncasecmp_eq ([104, 116, 116, 112, 115, 58, 47, 47] ++ auth ++ path)
      [104, 116, 116, 112, 115, 58, 47, 47] 8 = true := by
    unfold strncasecmp_eq
    simp
  have hd : List.drop 8 ([104, 116, 116, 112, 115, 58, 47, 47] ++ auth ++ path) = auth ++ path := by
    simp
  simp only [h2, if_true, hd]
  rcases hpath with rfl | ⟨rest, rfl⟩
  · simp only [List.append_nil]
    rw [strchr_none_of_not auth hauth]
  · rw [strchr_append_slash auth rest hauth]
    have hd2 : List.drop (8 + auth.length)
        ([104, 116, 116, 112, 115, 58, 47, 47] ++ auth ++ 47 :: rest) = 47 :: rest := by
      rw [show 8 + auth.length = ([104, 116, 116, 112, 115, 58, 47, 47] ++ auth).length by
        simp only [List.length_append, List.length_cons, List.length_nil]]
      exact List.drop_left' rfl
    simp only [hd2]

end http_conn

/-- The URL token of a line `M SP URL SP V` after its two blanks were replaced by NUL. -/
theorem HasStr.url_after_sets {m : Mem} {text : Int} {M URL V : List Nat}
    (h : HasStr m text (M ++ 32 :: (URL ++ 32 :: V))) :
    HasStr ((m.set (text + M.length) 0).set (text + M.length + 1 + URL.length) 0)
      (text + M.length + 1) URL := by
  have h1 := h.drop (M.length + 1) (by simp)
  have e1 : List.drop (M.length + 1) (M ++ 32 :: (URL ++ 32 :: V)) = URL ++ 32 :: V := by
    rw [show M ++ 32 :: (URL ++ 32 :: V) = (M ++ [32]) ++ (URL ++ 32 :: V) by simp]
    exact List.drop_left' (by simp)
  rw [e1] at h1
  have e2 : text + ((M.length + 1 : Nat) : Int) = text + M.length + 1 := by push_cast; ring
  rw [e2] at h1
  have h2 := h1.set_outside (text + M.length) 0 (Or.inl (by omega))
  have h3 := h2.take_set URL.length (by simp)
  rw [List.take_left' rfl] at h3
  exact h3

namespace http_conn

/-- C10 (corrected): for a request line `METHOD SP scheme authority path SP HTTP/1.1` with scheme
`http://` or `https://` and an authority without `/`.  When the path begins with `/`,
`parse_request_line` moves to the `HEADER` state and the parsed URL is the path, the substring from
the first `/` after the authority on, except that the path `/` alone becomes `/judge.html`.  When
the path is empty and the scheme is `https://`, the answer is `BAD_REQUEST`. -/
theorem parse_request_line_absolute_url (c : http_conn) (text : Int)
    (M pre auth path ln : List Nat)
    (hM : M = bytes "GET" ∨ M = bytes "POST")
    (hpre : pre = bytes "http://" ∨ pre = bytes "https://")
    (hauth : ∀ b ∈ auth, b ≠ 47 ∧ b ≠ 32 ∧ b ≠ 9)
    (hpath : ∀ b ∈ path, b ≠ 32 ∧ b ≠ 9)
    (hln : ln = M ++ 32 :: (pre ++ auth ++ path ++ 32 :: bytes "HTTP/1.1"))
    (h : HasStr c.m_read_buf text ln)
    (hlf : text + ln.length + 1 < READ_BUFFER_SIZE) :
    (∀ rest, path = 47 :: rest →
      ∃ c', c.parse_request_line text = Except.ok (HTTP_CODE.NO_REQUEST, c')
        ∧ c'.m_check_state = CHECK_STATE.CHECK_STATE_HEADER
        ∧ c'.url_str = some (if rest = [] then bytes "/judge.html" else path))
    ∧ (path = [] → pre = bytes "https://" →
      ∃ c', c.parse_request_line text = Except.ok (HTTP_CODE.BAD_REQUEST, c')) := by
  rw [bytes_GET, bytes_POST] at hM
  rw [bytes_http, bytes_https] at hpre
  rw [bytes_HTTP11] at hln
  subst hln
  have hURL : ∀ x ∈ pre ++ auth ++ path, x ≠ 32 ∧ x ≠ 9 := by
    intro x hx
    simp only [List.mem_append] at hx
    rcases hx with (hx | hx) | hx
    · rcases hpre with rfl | rfl <;> simp at hx <;> omega
    · exact (hauth x hx).2
    · exact hpath x hx
  have hne : pre ++ auth ++ path ≠ [] := by
    rcases hpre with rfl | rfl <;> simp
  have hauth' : ∀ b ∈ auth, b ≠ 47 := fun b hb => (hauth b hb).1
  have hU := h.url_after_sets
  rw [parse_request_line_eq c text _ h, parse_request_line_on_tokens c text M _ hM hURL hne]
  constructor
  · rintro rest rfl
    have hP : HasStr ((c.m_read_buf.set (text + M.length) 0).set
        (text + M.length + 1 + (pre ++ auth ++ 47 :: rest).length) 0)
        (text + M.length + 1 + (pre.length : Int) + (auth.length : Int)) (47 :: rest) := by
      have := hU.drop (pre.length + auth.length) (by simp)
      rw [show pre.length + auth.length = (pre ++ auth).length by simp, List.drop_left' rfl] at this
      rw [show text + (M.length : Int) + 1 + (((pre ++ auth).length : Nat) : Int)
        = text + M.length + 1 + (pre.length : Int) + (auth.length : Int) by
          simp only [List.length_append]; push_cast; ring] at this
      exact this
    have hlen : ((M ++ 32 :: (pre ++ auth ++ 47 :: rest ++ 32 :: [72, 84, 84, 80, 47, 49, 46, 49])).length : Int)
        = M.length + pre.length + auth.length + rest.length + 11 := by
      simp only [List.length_append, List.length_cons, List.length_nil]
      push_cast; ring
    rw [hlen] at hlf
    rcases hpre with rfl | rfl
    · rw [parse_request_line_url_on_http _ _ _ _ hauth']
      unfold parse_request_line_accept_on
      by_cases hr : rest = []
      · subst hr
        simp only [List.length_cons, List.length_nil, if_true]
        simp only [List.length_cons, List.length_nil] at hlf hP
        rw [if_neg (by push_cast at hlf ⊢; omega)]
        refine ⟨_, rfl, rfl, ?_⟩
        simp only [url_str, Option.map_some', str]
        rw [bytes_judge]
        congr 1
        apply HasStr.cstr_eq
        have hh := HasStr.judge (m := _) (u := text + M.length + 1 + 7 + (auth.length : Int))
          (by simpa using hP) (by push_cast at hlf ⊢; omega)
        simpa using hh
      · have hl : ¬ ((47 :: rest).length = 1) := by
          cases rest with
          | nil => exact absurd rfl hr
          | cons a t => simp
        simp only [hl, if_false]
        refine ⟨_, rfl, rfl, ?_⟩
        simp only [url_str, Option.map_some', str, hr, if_false]
        congr 1
        apply HasStr.cstr_eq
        simpa using hP
    · rw [parse_request_line_url_on_https _ _ _ _ hauth' (Or.inr ⟨rest, rfl⟩)]
      unfold parse_request_line_accept_on
      by_cases hr : rest = []
      · subst hr
        simp only [List.length_cons, List.length_nil, if_true]
        simp only [List.length_cons, List.length_nil] at hlf hP
        rw [if_neg (by push_cast at hlf ⊢; omega)]
        refine ⟨_, rfl, rfl, ?_⟩
        simp only [url_str, Option.map_some', str]
        rw [bytes_judge]
        congr 1
        apply HasStr.cstr_eq
        have hh := HasStr.judge (m := _) (u := text + M.length + 1 + 8 + (auth.length : Int))
          (by simpa using hP) (by push_cast at hlf ⊢; omega)
        simpa using hh
      · have hl : ¬ ((47 :: rest).length = 1) := by
          cases rest with
          | nil => exact absurd rfl hr
          | cons a t => simp
        simp only [hl, if_false]
        refine ⟨_, rfl, rfl, ?_⟩
        simp only [url_str, Option.map_some', str, hr, if_false]
        congr 1
        apply HasStr.cstr_eq
        simpa using hP
  · intro hp hpre2
    subst hp
    rw [bytes_https] at hpre2
    subst hpre2
    rw [parse_request_line_url_on_https _ _ _ _ hauth' (Or.inl rfl)]
    exact ⟨_, rfl⟩

end http_conn

/-! ## The line scanner `parse_line` -/

theorem Mem.write_below (m : Mem) (r : Int) (d : List Nat) (j : Int) (h : j < r) :
    m.write r d j = m j := by
  simp only [Mem.write]
  rw [if_neg (by omega)]

theorem Mem.set_write_comm (m : Mem) (r : Int) (d : List Nat) (i : Int) (v : Nat) (h : i < r) :
    (m.write r d).set i v = (m.set i v).write r d := by
  funext j
  by_cases hj : j = i
  · subst hj
    have hn : ¬ (r ≤ j ∧ j < r + (d.length : Int)) := by omega
    simp only [Mem.set, Mem.write, hn, if_true, if_false]
  · simp only [Mem.set, Mem.write, hj, if_false]

namespace http_conn

/-- One turn of the loop of `parse_line`. -/
theorem parse_line_loop_succ (fuel : Nat) (c : http_conn) :
    parse_line_loop (fuel + 1) c =
    if c.m_checked_idx < c.m_read_idx then
      if c.m_read_buf c.m_checked_idx = 13 then
        if c.m_checked_idx + 1 = c.m_read_idx then
          (LINE_STATUS.LINE_OPEN, c)
        else if c.m_read_buf (c.m_checked_idx + 1) = 10 then
          (LINE_STATUS.LINE_OK,
            { c with
              m_read_buf := (c.m_read_buf.set c.m_checked_idx 0).set (c.m_checked_idx + 1) 0
              m_checked_idx := c.m_checked_idx + 2 })
        else
          (LINE_STATUS.LINE_BAD, c)
      else if c.m_read_buf c.m_checked_idx = 10 then
        if c.m_checked_idx > 1 ∧ c.m_read_buf (c.m_checked_idx - 1) = 13 then
          (LINE_STATUS.LINE_OK,
            { c with
              m_read_buf := (c.m_read_buf.set (c.m_checked_idx - 1) 0).set c.m_checked_idx 0
              m_checked_idx := c.m_checked_idx + 1 })
        else
          (LINE_STATUS.LINE_BAD, c)
      else
        parse_line_loop fuel { c with m_checked_idx := c.m_checked_idx + 1 }
    else
      (LINE_STATUS.LINE_OPEN, c) := rfl

/-- The loop of `parse_line` needs no more turns than there are unscanned bytes. -/
theorem parse_line_loop_fuel : ∀ (fuel : Nat) (c : http_conn),
    (c.m_read_idx - c.m_checked_idx).toNat ≤ fuel → parse_line_loop fuel c = c.parse_line := by
  intro fuel
  induction fuel with
  | zero =>
    intro c h
    have h0 : (c.m_read_idx - c.m_checked_idx).toNat = 0 := by omega
    unfold parse_line
    rw [h0]
  | succ f ih =>
    intro c h
    unfold parse_line
    by_cases hlt : c.m_checked_idx < c.m_read_idx
    · obtain ⟨k, hk⟩ : ∃ k, (c.m_read_idx - c.m_checked_idx).toNat = k + 1 :=
        ⟨(c.m_read_idx - c.m_checked_idx).toNat - 1, by omega⟩
      rw [hk, parse_line_loop_succ, parse_line_loop_succ]
      simp only [hlt, if_true]
      have e1 := ih { c with m_checked_idx := c.m_checked_idx + 1 } (by simp only; omega)
      have e2 : parse_line_loop k { c with m_checked_idx := c.m_checked_idx + 1 }
          = parse_line { c with m_checked_idx := c.m_checked_idx + 1 } := by
        unfold parse_line
        congr 1
        simp only
        omega
      rw [e1, e2]
    · have h0 : (c.m_read_idx - c.m_checked_idx).toNat = 0 := by omega
      rw [h0, parse_line_loop_succ]
      simp only [hlt, if_false]
      rfl

/-- The recursion equation of `parse_line`. -/
theorem parse_line_unfold (c : http_conn) :
    c.parse_line =
    if c.m_checked_idx < c.m_read_idx then
      if c.m_read_buf c.m_checked_idx = 13 then
        if c.m_checked_idx + 1 = c.m_read_idx then
          (LINE_STATUS.LINE_OPEN, c)
        else if c.m_read_buf (c.m_checked_idx + 1) = 10 then
          (LINE_STATUS.LINE_OK,
            { c with
              m_read_buf := (c.m_read_buf.set c.m_checked_idx 0).set (c.m_checked_idx + 1) 0
              m_checked_idx := c.m_checked_idx + 2 })
        else
          (LINE_STATUS.LINE_BAD, c)
      else if c.m_read_buf c.m_checked_idx = 10 then
        if c.m_checked_idx > 1 ∧ c.m_read_buf (c.m_checked_idx - 1) = 13 then
          (LINE_STATUS.LINE_OK,
            { c with
              m_read_buf := (c.m_read_buf.set (c.m_checked_idx - 1) 0).set c.m_checked_idx 0
              m_checked_idx := c.m_checked_idx + 1 })
        else
          (LINE_STATUS.LINE_BAD, c)
      else
        parse_line { c with m_checked_idx := c.m_checked_idx + 1 }
    else
      (LINE_STATUS.LINE_OPEN, c) := by
  by_cases hlt : c.m_checked_idx < c.m_read_idx
  · obtain ⟨k, hk⟩ : ∃ k, (c.m_read_idx - c.m_checked_idx).toNat = k + 1 :=
      ⟨(c.m_read_idx - c.m_checked_idx).toNat - 1, by omega⟩
    have e : parse_line_loop k { c with m_checked_idx := c.m_checked_idx + 1 }
        = parse_line { c with m_checked_idx := c.m_checked_idx + 1 } :=
      parse_line_loop_fuel _ _ (by simp only; omega)
    conv_lhs => unfold parse_line
    rw [hk, parse_line_loop_succ, e]
  · have h0 : (c.m_read_idx - c.m_checked_idx).toNat = 0 := by omega
    conv_lhs => unfold parse_line
    rw [h0]
    simp only [hlt, if_false]
    rfl

/-- An induction principle that follows the scan of `parse_line`. -/
theorem parse_line_induction (P : http_conn → Prop)
    (step : ∀ c : http_conn,
      (c.m_checked_idx < c.m_read_idx → P { c with m_checked_idx := c.m_checked_idx + 1 }) → P c)
    (c : http_conn) : P c := by
  generalize hn : (c.m_read_idx - c.m_checked_idx).toNat = n
  induction n generalizing c with
  | zero =>
    apply step
    intro h
    omega
  | succ k ih =>
    apply step
    intro _
    apply ih
    simp only
    omega

/-- The function `parse_line` changes the read buffer and `m_checked_idx` only. -/
theorem parse_line_fields (c : http_conn) :
    c.parse_line.2 = { c with
      m_read_buf := c.parse_line.2.m_read_buf
      m_checked_idx := c.parse_line.2.m_checked_idx } := by
  induction c using parse_line_induction with
  | step c ih =>
    rw [parse_line_unfold]
    split
    · rename_i hlt
      split
      · split
        · rfl
        · split <;> rfl
      · split
        · split <;> rfl
        · have := ih hlt
          rw [this]
    · rfl

theorem parse_line_read_idx (c : http_conn) : c.parse_line.2.m_read_idx = c.m_read_idx := by
  rw [parse_line_fields]

theorem parse_line_check_state (c : http_conn) :
    c.parse_line.2.m_check_state = c.m_check_state := by
  rw [parse_line_fields]

theorem parse_line_start_line (c : http_conn) :
    c.parse_line.2.m_start_line = c.m_start_line := by
  rw [parse_line_fields]

theorem parse_line_content_length (c : http_conn) :
    c.parse_line.2.m_content_length = c.m_content_length := by
  rw [parse_line_fields]

/-- The scan never moves `m_checked_idx` back, nor past `m_read_idx`. -/
theorem parse_line_checked_idx (c : http_conn) :
    c.m_checked_idx ≤ c.parse_line.2.m_checked_idx
    ∧ (c.m_checked_idx ≤ c.m_read_idx → c.parse_line.2.m_checked_idx ≤ c.m_read_idx) := by
  induction c using parse_line_induction with
  | step c ih =>
    rw [parse_line_unfold]
    split
    · rename_i hlt
      split
      · split
        · simp
        · split
          · simp only; constructor <;> intros <;> omega
          · simp
      · split
        · split
          · simp only; constructor <;> intros <;> omega
          · simp
        · have := ih hlt
          simp only at this
          constructor
          · omega
          · intro _; exact this.2 (by omega)
    · simp

/-- What `LINE_OK` tells: the cursor advanced, it stands behind two NUL bytes, and only these two
bytes of the buffer were changed. -/
theorem parse_line_ok (c : http_conn) (h : c.parse_line.1 = LINE_STATUS.LINE_OK) :
    c.m_checked_idx < c.parse_line.2.m_checked_idx
    ∧ c.parse_line.2.m_checked_idx ≤ c.m_read_idx
    ∧ c.parse_line.2.m_read_buf (c.parse_line.2.m_checked_idx - 1) = 0
    ∧ c.parse_line.2.m_read_buf (c.parse_line.2.m_checked_idx - 2) = 0
    ∧ c.parse_line.2.m_read_buf
        = (c.m_read_buf.set (c.parse_line.2.m_checked_idx - 2) 0).set
            (c.parse_line.2.m_checked_idx - 1) 0 := by
  induction c using parse_line_induction with
  | step c ih =>
    rw [parse_line_unfold] at h ⊢
    split at h
    · rename_i hlt
      simp only [hlt, if_true]
      split at h
      · rename_i h13
        simp only [h13, if_true]
        split at h
        · simp at h
        · rename_i hne
          simp only [hne, if_false]
          split at h
          · rename_i h10
            simp only [h10, if_true]
            have e1 : c.m_checked_idx + 2 - 1 = c.m_checked_idx + 1 := by ring
            have e2 : c.m_checked_idx + 2 - 2 = c.m_checked_idx := by ring
            refine ⟨by omega, by omega, ?_, ?_, ?_⟩
            · rw [e1]; simp [Mem.set]
            · rw [e2]; simp [Mem.set]
            · rw [e1, e2]
          · simp at h
      · rename_i h13
        simp only [h13, if_false]
        split at h
        · rename_i h10
          simp only [h10, if_true]
          split at h
          · rename_i hp
            simp only [hp, and_self, if_true]
            have e1 : c.m_checked_idx + 1 - 1 = c.m_checked_idx := by ring
            have e2 : c.m_checked_idx + 1 - 2 = c.m_checked_idx - 1 := by ring
            refine ⟨by omega, by omega, ?_, ?_, ?_⟩
            · rw [e1]; simp [Mem.set]
            · rw [e2]; simp [Mem.set]
            · rw [e1, e2]
          · simp at h
        · rename_i h10
          simp only [h10, if_false]
          have := ih hlt h
          simp only at this
          refine ⟨by omega, this.2.1, this.2.2.1, this.2.2.2.1, this.2.2.2.2⟩
    · simp at h

/-- An `LINE_OPEN` or `LINE_BAD` scan leaves the buffer as it was. -/
theorem parse_line_not_ok_buf (c : http_conn) (h : c.parse_line.1 ≠ LINE_STATUS.LINE_OK) :
    c.parse_line.2.m_read_buf = c.m_read_buf := by
  induction c using parse_line_induction with
  | step c ih =>
    rw [parse_line_unfold] at h ⊢
    split
    · rename_i hlt
      simp only [hlt, if_true] at h
      split
      · rename_i h13
        simp only [h13, if_true] at h
        split
        · rfl
        · rename_i hne
          simp only [hne, if_false] at h
          split
          · rename_i h10
            simp [h10] at h
          · rfl
      · rename_i h13
        simp only [h13, if_false] at h
        split
        · rename_i h10
          simp only [h10, if_true] at h
          split
          · rename_i hp
            simp [hp] at h
          · rfl
        · rename_i h10
          simp only [h10, if_false] at h
          exact ih hlt h
    · rfl

theorem received_checked_succ (c : http_conn) (d : List Nat) :
    ({ c with m_checked_idx := c.m_checked_idx + 1 } : http_conn).received d
      = { c.received d with m_checked_idx := (c.received d).m_checked_idx + 1 } := rfl

/-- Scanning after more bytes have arrived: a finished scan is repeated, an open scan resumes. -/
theorem parse_line_received (c : http_conn) (d : List Nat) :
    (c.received d).parse_line =
      if c.parse_line.1 = LINE_STATUS.LINE_OPEN then (c.parse_line.2.received d).parse_line
      else (c.parse_line.1, c.parse_line.2.received d) := by
  induction c using parse_line_induction with
  | step c ih =>
    by_cases hlt : c.m_checked_idx < c.m_read_idx
    · have hlt' : (c.received d).m_checked_idx < (c.received d).m_read_idx := by
        simp only [received]; omega
      have hb0 : (c.received d).m_read_buf (c.received d).m_checked_idx
          = c.m_read_buf c.m_checked_idx := Mem.write_below _ _ _ _ hlt
      by_cases h13 : c.m_read_buf c.m_checked_idx = 13
      · by_cases he : c.m_checked_idx + 1 = c.m_read_idx
        · have h1 : c.parse_line = (LINE_STATUS.LINE_OPEN, c) := by
            rw [parse_line_unfold c]; simp only [hlt, h13, he, if_true]
          rw [h1]
          simp only [if_true]
        · have hb1 : (c.received d).m_read_buf ((c.received d).m_checked_idx + 1)
              = c.m_read_buf (c.m_checked_idx + 1) :=
            Mem.write_below _ _ _ _ (show c.m_checked_idx + 1 < c.m_read_idx by omega)
          have he' : ¬ ((c.received d).m_checked_idx + 1 = (c.received d).m_read_idx) := by
            simp only [received]; omega
          by_cases h10 : c.m_read_buf (c.m_checked_idx + 1) = 10
          · have h1 : c.parse_line = (LINE_STATUS.LINE_OK,
                { c with
                  m_read_buf := (c.m_read_buf.set c.m_checked_idx 0).set (c.m_checked_idx + 1) 0
                  m_checked_idx := c.m_checked_idx + 2 }) := by
              rw [parse_line_unfold c]; simp only [hlt, h13, he, h10, if_true, if_false]
            have h2 : (c.received d).parse_line = (LINE_STATUS.LINE_OK,
                { c.received d with
                  m_read_buf := ((c.received d).m_read_buf.set (c.received d).m_checked_idx 0).set
                    ((c.received d).m_checked_idx + 1) 0
                  m_checked_idx := (c.received d).m_checked_idx + 2 }) := by
              rw [parse_line_unfold (c.received d)]
              simp only [hlt', hb0, hb1, h13, he', h10, if_true, if_false]
            rw [h1, h2]
            simp only [reduceCtorEq, if_false]
            simp only [received, Prod.mk.injEq, true_and]
            rw [Mem.set_write_comm _ _ _ _ _ hlt, Mem.set_write_comm _ _ _ _ _ (by omega)]
          · have h1 : c.parse_line = (LINE_STATUS.LINE_BAD, c) := by
              rw [parse_line_unfold c]; simp only [hlt, h13, he, h10, if_true, if_false]
            have h2 : (c.received d).parse_line = (LINE_STATUS.LINE_BAD, c.received d) := by
              rw [parse_line_unfold (c.received d)]
              simp only [hlt', hb0, hb1, h13, he', h10, if_true, if_false]
            rw [h1, h2]
            simp only [reduceCtorEq, if_false]
      · by_cases h10 : c.m_read_buf c.m_checked_idx = 10
        · have hne : ¬ ((10 : Nat) = 13) := by decide
          have hbp : (c.received d).m_read_buf ((c.received d).m_checked_idx - 1)
              = c.m_read_buf (c.m_checked_idx - 1) :=
            Mem.write_below _ _ _ _ (show c.m_checked_idx - 1 < c.m_read_idx by omega)
          have hck : (c.received d).m_checked_idx = c.m_checked_idx := rfl
          by_cases hp : c.m_checked_idx > 1 ∧ c.m_read_buf (c.m_checked_idx - 1) = 13
          · have h1 : c.parse_line = (LINE_STATUS.LINE_OK,
                { c with
                  m_read_buf := (c.m_read_buf.set (c.m_checked_idx - 1) 0).set c.m_checked_idx 0
                  m_checked_idx := c.m_checked_idx + 1 }) := by
              rw [parse_line_unfold c]; simp only [hlt, h13, h10, hne, hp, and_self, if_true, if_false]
            have h2 : (c.received d).parse_line = (LINE_STATUS.LINE_OK,
                { c.received d with
                  m_read_buf := ((c.received d).m_read_buf.set ((c.received d).m_checked_idx - 1) 0).set
                    (c.received d).m_checked_idx 0
                  m_checked_idx := (c.received d).m_checked_idx + 1 }) := by
              rw [parse_line_unfold (c.received d)]
              have hp' : (c.received d).m_checked_idx > 1
                  ∧ (c.received d).m_read_buf ((c.received d).m_checked_idx - 1) = 13 := by
                rw [hbp]; exact hp
              simp only [hlt', hb0, h13, h10, hne, hp', and_self, if_true, if_false]
            rw [h1, h2]
            simp only [reduceCtorEq, if_false]
            simp only [received, Prod.mk.injEq, true_and]
            rw [Mem.set_write_comm _ _ _ _ _ (by omega), Mem.set_write_comm _ _ _ _ _ hlt]
          · have h1 : c.parse_line = (LINE_STATUS.LINE_BAD, c) := by
              rw [parse_line_unfold c]; simp only [hlt, h13, h10, hne, hp, if_true, if_false]
            have h2 : (c.received d).parse_line = (LINE_STATUS.LINE_BAD, c.received d) := by
              rw [parse_line_unfold (c.received d)]
              have hp' : ¬ ((c.received d).m_checked_idx > 1
                  ∧ (c.received d).m_read_buf ((c.received d).m_checked_idx - 1) = 13) := by
                rw [hbp]; exact hp
              simp only [hlt', hb0, h13, h10, hne, hp', if_true, if_false]
            rw [h1, h2]
            simp only [reduceCtorEq, if_false]
        · have h1 : c.parse_line = parse_line { c with m_checked_idx := c.m_checked_idx + 1 } := by
            rw [parse_line_unfold c]; simp only [hlt, h13, h10, if_true, if_false]
          have h2 : (c.received d).parse_line
              = parse_line (({ c with m_checked_idx := c.m_checked_idx + 1 } : http_conn).received d) := by
            rw [parse_line_unfold (c.received d)]
            simp only [hlt', hb0, h13, h10, if_true, if_false]
            rfl
          rw [h1, h2]
          exact ih hlt
    · have h1 : c.parse_line = (LINE_STATUS.LINE_OPEN, c) := by
        rw [parse_line_unfold c]; simp only [hlt, if_false]
      rw [h1]
      simp only [if_true]

/-! ## The loop of `process_read` -/

/-- The fields that `parse_request_line` may change. -/
theorem parse_request_line_fields {c c' : http_conn} {text : Int} {code : HTTP_CODE}
    (h : c.parse_request_line text = Except.ok (code, c')) :
    c' = { c with
      m_read_buf := c'.m_read_buf
      m_url := c'.m_url
      m_version := c'.m_version
      m_method := c'.m_method
      cgi := c'.cgi
      m_check_state := c'.m_check_state }
    ∧ ((code = HTTP_CODE.BAD_REQUEST ∧ c'.m_check_state = c.m_check_state)
      ∨ (code = HTTP_CODE.NO_REQUEST ∧ c'.m_check_state = CHECK_STATE.CHECK_STATE_HEADER)) := by
  unfold parse_request_line parse_request_line_version parse_request_line_url
    parse_request_line_https parse_request_line_accept at h
  simp only at h
  repeat' split at h
  all_goals first
    | (simp only [Except.ok.injEq, Prod.mk.injEq] at h; obtain ⟨rfl, rfl⟩ := h; simp)
    | simp at h

theorem parse_headers_fields (c : http_conn) (text : Int) :
    (c.parse_headers text).2 = { c with
      m_linger := (c.parse_headers text).2.m_linger
      m_content_length := (c.parse_headers text).2.m_content_length
      m_host := (c.parse_headers text).2.m_host
      m_check_state := (c.parse_headers text).2.m_check_state }
    ∧ ((c.parse_headers text).1 = HTTP_CODE.NO_REQUEST ∨ (c.parse_headers text).1 = HTTP_CODE.GET_REQUEST)
    ∧ ((c.parse_headers text).2.m_check_state = c.m_check_state
      ∨ (c.parse_headers text).2.m_check_state = CHECK_STATE.CHECK_STATE_CONTENT) := by
  unfold parse_headers
  simp only
  repeat' split
  all_goals simp

theorem parse_content_fields {c c' : http_conn} {text : Int} {code : HTTP_CODE}
    (h : c.parse_content text = Except.ok (code, c')) :
    c' = { c with m_read_buf := c'.m_read_buf, m_string := c'.m_string }
    ∧ (code = HTTP_CODE.NO_REQUEST ∨ code = HTTP_CODE.GET_REQUEST) := by
  unfold parse_content at h
  repeat' split at h
  all_goals first
    | (simp only [Except.ok.injEq, Prod.mk.injEq] at h; obtain ⟨rfl, rfl⟩ := h; simp)
    | simp at h

theorem do_request_stat_code (env : Env) (users : Users) (c : http_conn) :
    (do_request_stat env users c).1 ≠ HTTP_CODE.NO_REQUEST := by
  unfold do_request_stat
  simp only
  repeat' split
  all_goals simp

/-- The function `do_request` never answers `NO_REQUEST`. -/
theorem do_request_code {env : Env} {users users' : Users} {c c' : http_conn} {code : HTTP_CODE}
    (h : c.do_request env users = Except.ok (code, c', users')) : code ≠ HTTP_CODE.NO_REQUEST := by
  unfold do_request at h
  simp only at h
  repeat' split at h
  all_goals first
    | (simp only [Except.ok.injEq] at h
       exact fun hc => do_request_stat_code env _ _ (by rw [h]; exact hc))
    | simp at h

theorem process_read_cond_snd_fields (line_status : LINE_STATUS) (c : http_conn) :
    (process_read_cond line_status c).2.m_read_idx = c.m_read_idx
    ∧ (process_read_cond line_status c).2.m_check_state = c.m_check_state
    ∧ (process_read_cond line_status c).2.m_start_line = c.m_start_line
    ∧ c.m_checked_idx ≤ (process_read_cond line_status c).2.m_checked_idx := by
  unfold process_read_cond
  split
  · simp
  · exact ⟨parse_line_read_idx c, parse_line_check_state c, parse_line_start_line c,
      (parse_line_checked_idx c).1⟩

/-- The body keeps `m_read_idx` and `m_checked_idx`, and leaves `LINE_OPEN` exactly in the
`CONTENT` state. -/
theorem process_read_body_again {env : Env} {users : Users} {ls ls' : LINE_STATUS}
    {c c' : http_conn} (h : process_read_body env users ls c = Except.ok (LoopStep.again ls' c')) :
    c'.m_read_idx = c.m_read_idx ∧ c'.m_checked_idx = c.m_checked_idx
    ∧ c'.m_start_line = c.m_checked_idx
    ∧ ((c.m_check_state = CHECK_STATE.CHECK_STATE_CONTENT
        ∧ c'.m_check_state = CHECK_STATE.CHECK_STATE_CONTENT ∧ ls' = LINE_STATUS.LINE_OPEN)
      ∨ (c.m_check_state ≠ CHECK_STATE.CHECK_STATE_CONTENT ∧ ls' = ls)) := by
  unfold process_read_body at h
  simp only at h
  split at h
  · rename_i hs
    split at h
    · simp at h
    · rename_i ret c3 hr
      obtain ⟨hf, _⟩ := parse_request_line_fields hr
      split at h
      · simp at h
      · simp only [Except.ok.injEq, LoopStep.again.injEq] at h
        obtain ⟨rfl, rfl⟩ := h
        rw [hf]
        simp [hs]
  · rename_i hs
    split at h
    · simp at h
    · split at h
      · split at h <;> simp at h
      · simp only [Except.ok.injEq, LoopStep.again.injEq] at h
        obtain ⟨rfl, rfl⟩ := h
        have hf := (parse_headers_fields
          { c with m_start_line := c.m_checked_idx } c.m_start_line).1
        rw [hf]
        simp [hs]
  · rename_i hs
    split at h
    · simp at h
    · rename_i ret c3 hr
      obtain ⟨hf, _⟩ := parse_content_fields hr
      split at h
      · split at h <;> simp at h
      · simp only [Except.ok.injEq, LoopStep.again.injEq] at h
        obtain ⟨rfl, rfl⟩ := h
        rw [hf]
        simp [hs]

theorem process_read_loop_succ (env : Env) (fuel : Nat) (line_status : LINE_STATUS)
    (users : Users) (c : http_conn) :
    process_read_loop env (fuel + 1) line_status users c =
    if (process_read_cond line_status c).1 ≠ LINE_STATUS.LINE_OK then
      Except.ok (HTTP_CODE.NO_REQUEST, (process_read_cond line_status c).2, users)
    else
      match process_read_body env users (process_read_cond line_status c).1
          (process_read_cond line_status c).2 with
      | Except.error f => Except.error f
      | Except.ok (LoopStep.ret code c users) => Except.ok (code, c, users)
      | Except.ok (LoopStep.again line_status c) =>
        process_read_loop env fuel line_status users c := rfl

theorem process_read_turns_pos (ls : LINE_STATUS) (c : http_conn) : 0 < process_read_turns ls c := by
  unfold process_read_turns
  omega

/-- Every turn of the loop that leads to another turn lowers `process_read_turns`. -/
theorem process_read_turns_decrease {env : Env} {users : Users} {ls ls' : LINE_STATUS}
    {c c' : http_conn} (hok : (process_read_cond ls c).1 = LINE_STATUS.LINE_OK)
    (h : process_read_body env users (process_read_cond ls c).1 (process_read_cond ls c).2
      = Except.ok (LoopStep.again ls' c')) :
    process_read_turns ls' c' < process_read_turns ls c := by
  obtain ⟨h1, h2, _, h4⟩ := process_read_body_again h
  unfold process_read_turns
  unfold process_read_cond at hok h1 h2 h4
  by_cases hc : c.m_check_state = CHECK_STATE.CHECK_STATE_CONTENT ∧ ls = LINE_STATUS.LINE_OK
  · simp only [hc, and_self, if_true] at hok h1 h2 h4 ⊢
    rcases h4 with ⟨_, _, h6⟩ | ⟨h5, _⟩
    · rw [h1, h2, h6]
      simp
    · exact absurd rfl h5
  · simp only [hc, if_false] at hok h1 h2 h4 ⊢
    have hp := parse_line_ok c hok
    rw [parse_line_read_idx] at h1
    rw [h1, h2]
    have : (c.m_read_idx - c.parse_line.2.m_checked_idx).toNat
        < (c.m_read_idx - c.m_checked_idx).toNat := by omega
    split <;> omega

/-- Turns beyond `process_read_turns` change nothing. -/
theorem process_read_loop_fuel (env : Env) : ∀ (f1 f2 : Nat) (ls : LINE_STATUS) (users : Users)
    (c : http_conn), process_read_turns ls c ≤ f1 → process_read_turns ls c ≤ f2 →
    process_read_loop env f1 ls users c = process_read_loop env f2 ls users c := by
  intro f1
  induction f1 with
  | zero =>
    intro f2 ls users c h1 _
    have := process_read_turns_pos ls c
    omega
  | succ n ih =>
    intro f2 ls users c h1 h2
    cases f2 with
    | zero =>
      have := process_read_turns_pos ls c
      omega
    | succ m =>
      rw [process_read_loop_succ, process_read_loop_succ]
      by_cases hok : (process_read_cond ls c).1 = LINE_STATUS.LINE_OK
      · simp only [hok, ne_eq, not_true_eq_false, if_false]
        cases hb : process_read_body env users LINE_STATUS.LINE_OK (process_read_cond ls c).2 with
        | error f => rfl
        | ok step =>
          cases step with
          | ret code c' users' => rfl
          | again ls' c' =>
            simp only
            rw [← hok] at hb
            have := process_read_turns_decrease hok hb
            exact ih m ls' users c' (by omega) (by omega)
      · simp only [hok, ne_eq, not_false_eq_true, if_true]

theorem process_read_loop_eq_run (env : Env) (f : Nat) (ls : LINE_STATUS) (users : Users)
    (c : http_conn) (h : process_read_turns ls c ≤ f) :
    process_read_loop env f ls users c = process_read_run env ls users c :=
  process_read_loop_fuel env f _ ls users c h (Nat.le_refl _)

/-- The function `process_read` is the loop run to its end. -/
theorem process_read_eq_run (env : Env) (users : Users) (c : http_conn) :
    c.process_read env users = process_read_run env LINE_STATUS.LINE_OK users c := by
  unfold process_read
  apply process_read_loop_eq_run
  unfold process_read_turns
  split <;> omega

/-- The recursion equation of the loop of `process_read`. -/
theorem process_read_run_unfold (env : Env) (ls : LINE_STATUS) (users : Users) (c : http_conn) :
    process_read_run env ls users c =
    if (process_read_cond ls c).1 ≠ LINE_STATUS.LINE_OK then
      Except.ok (HTTP_CODE.NO_REQUEST, (process_read_cond ls c).2, users)
    else
      match process_read_body env users (process_read_cond ls c).1 (process_read_cond ls c).2 with
      | Except.error f => Except.error f
      | Except.ok (LoopStep.ret code c users) => Except.ok (code, c, users)
      | Except.ok (LoopStep.again ls' c') => process_read_run env ls' users c' := by
  obtain ⟨n, hn⟩ : ∃ n, process_read_turns ls c = n + 1 :=
    ⟨process_read_turns ls c - 1, by have := process_read_turns_pos ls c; omega⟩
  conv_lhs => unfold process_read_run
  rw [hn, process_read_loop_succ]
  by_cases hok : (process_read_cond ls c).1 = LINE_STATUS.LINE_OK
  · simp only [hok, ne_eq, not_true_eq_false, if_false]
    cases hb : process_read_body env users LINE_STATUS.LINE_OK (process_read_cond ls c).2 with
    | error f => rfl
    | ok step =>
      cases step with
      | ret code c' users' => rfl
      | again ls' c' =>
        simp only
        rw [← hok] at hb
        have := process_read_turns_decrease hok hb
        exact process_read_loop_eq_run env n ls' users c' (by omega)
  · simp only [hok, ne_eq, not_false_eq_true, if_true]

/-- An induction principle that follows the turns of the loop of `process_read`. -/
theorem process_read_run_induction (env : Env) (users : Users)
    (P : LINE_STATUS → http_conn → Prop)
    (step : ∀ (ls : LINE_STATUS) (c : http_conn),
      (∀ ls' c', (process_read_cond ls c).1 = LINE_STATUS.LINE_OK →
        process_read_body env users (process_read_cond ls c).1 (process_read_cond ls c).2
          = Except.ok (LoopStep.again ls' c') → P ls' c') → P ls c)
    (ls : LINE_STATUS) (c : http_conn) : P ls c := by
  generalize hn : process_read_turns ls c = n
  induction n using Nat.strong_induction_on generalizing ls c with
  | _ n ih =>
    apply step
    intro ls' c' hok hb
    have := process_read_turns_decrease hok hb
    exact ih _ (by omega) ls' c' rfl

end http_conn

/-! ## Resuming `process_read` after more bytes have arrived -/

theorem Mem.write_write_comm (m : Mem) (r : Int) (d : List Nat) (i : Int) (e : List Nat)
    (h : i + e.length ≤ r) : (m.write r d).write i e = (m.write i e).write r d := by
  funext j
  simp only [Mem.write]
  by_cases h1 : i ≤ j ∧ j < i + (e.length : Int)
  · have h2 : ¬ (r ≤ j ∧ j < r + (d.length : Int)) := by omega
    simp only [h1, h2, and_self, if_true, if_false]
  · simp only [h1, if_false]

namespace http_conn

/-- A `return` of the loop body never carries `NO_REQUEST`. -/
theorem process_read_body_ret {env : Env} {users users' : Users} {ls : LINE_STATUS}
    {c c' : http_conn} {code : HTTP_CODE}
    (h : process_read_body env users ls c = Except.ok (LoopStep.ret code c' users')) :
    code ≠ HTTP_CODE.NO_REQUEST := by
  unfold process_read_body at h
  simp only at h
  split at h
  · split at h
    · simp at h
    · split at h
      · simp only [Except.ok.injEq, LoopStep.ret.injEq] at h
        rw [← h.1]; decide
      · simp at h
  · split at h
    · simp only [Except.ok.injEq, LoopStep.ret.injEq] at h
      rw [← h.1]; decide
    · split at h
      · split at h
        · simp at h
        · rename_i hd
          simp only [Except.ok.injEq, LoopStep.ret.injEq] at h
          obtain ⟨rfl, rfl, rfl⟩ := h
          exact do_request_code hd
      · simp at h
  · split at h
    · simp at h
    · split at h
      · split at h
        · simp at h
        · rename_i hd
          simp only [Except.ok.injEq, LoopStep.ret.injEq] at h
          obtain ⟨rfl, rfl, rfl⟩ := h
          exact do_request_code hd
      · simp at h

/-- Once in the `CONTENT` state, an unfinished `process_read` leaves the parser there. -/
theorem process_read_run_content (env : Env) (users : Users) (ls : LINE_STATUS) (c : http_conn) :
    c.m_check_state = CHECK_STATE.CHECK_STATE_CONTENT →
    ∀ c1 u1, process_read_run env ls users c = Except.ok (HTTP_CODE.NO_REQUEST, c1, u1) →
      c1.m_check_state = CHECK_STATE.CHECK_STATE_CONTENT := by
  induction ls, c using process_read_run_induction env users with
  | step ls c ih =>
    intro hs c1 u1 h
    rw [process_read_run_unfold] at h
    have hcs := (process_read_cond_snd_fields ls c).2.1
    by_cases hok : (process_read_cond ls c).1 = LINE_STATUS.LINE_OK
    · simp only [hok, ne_eq, not_true_eq_false, if_false] at h
      cases hb : process_read_body env users LINE_STATUS.LINE_OK (process_read_cond ls c).2 with
      | error f => rw [hb] at h; simp at h
      | ok step =>
        rw [hb] at h
        cases step with
        | ret code c' users' =>
          simp only [Except.ok.injEq, Prod.mk.injEq] at h
          exact absurd h.1 (process_read_body_ret hb)
        | again ls' c' =>
          simp only at h
          have hb' := hb
          rw [← hok] at hb'
          have hag := (process_read_body_again hb).2.2.2
          rcases hag with ⟨_, h2, _⟩ | ⟨h1, _⟩
          · exact ih ls' c' hok hb' h2 c1 u1 h
          · rw [hcs] at h1; exact absurd hs h1
    · simp only [hok, ne_eq, not_false_eq_true, if_true, Except.ok.injEq, Prod.mk.injEq,
        true_and] at h
      rw [← h.1, hcs]; exact hs

/-- A scan that ended `LINE_OPEN` or `LINE_BAD` ends the same way when it is repeated. -/
theorem parse_line_idem (c : http_conn) (h : c.parse_line.1 ≠ LINE_STATUS.LINE_OK) :
    c.parse_line.2.parse_line = c.parse_line := by
  induction c using parse_line_induction with
  | step c ih =>
    by_cases hlt : c.m_checked_idx < c.m_read_idx
    · by_cases h13 : c.m_read_buf c.m_checked_idx = 13
      · by_cases he : c.m_checked_idx + 1 = c.m_read_idx
        · have h1 : c.parse_line = (LINE_STATUS.LINE_OPEN, c) := by
            rw [parse_line_unfold c]; simp only [hlt, h13, he, if_true]
          rw [h1]; exact h1
        · by_cases h10 : c.m_read_buf (c.m_checked_idx + 1) = 10
          · have h1 : c.parse_line.1 = LINE_STATUS.LINE_OK := by
              rw [parse_line_unfold c]; simp only [hlt, h13, he, h10, if_true, if_false]
            exact absurd h1 h
          · have h1 : c.parse_line = (LINE_STATUS.LINE_BAD, c) := by
              rw [parse_line_unfold c]; simp only [hlt, h13, he, h10, if_true, if_false]
            rw [h1]; exact h1
      · by_cases h10 : c.m_read_buf c.m_checked_idx = 10
        · have hne : ¬ ((10 : Nat) = 13) := by decide
          by_cases hp : c.m_checked_idx > 1 ∧ c.m_read_buf (c.m_checked_idx - 1) = 13
          · have h1 : c.parse_line.1 = LINE_STATUS.LINE_OK := by
              rw [parse_line_unfold c]
              simp only [hlt, h13, h10, hne, hp, and_self, if_true, if_false]
            exact absurd h1 h
          · have h1 : c.parse_line = (LINE_STATUS.LINE_BAD, c) := by
              rw [parse_line_unfold c]; simp only [hlt, h13, h10, hne, hp, if_true, if_false]
            rw [h1]; exact h1
        · have h1 : c.parse_line = parse_line { c with m_checked_idx := c.m_checked_idx + 1 } := by
            rw [parse_line_unfold c]; simp only [hlt, h13, h10, if_true, if_false]
          rw [h1] at h ⊢
          exact ih hlt h
    · have h1 : c.parse_line = (LINE_STATUS.LINE_OPEN, c) := by
        rw [parse_line_unfold c]; simp only [hlt, if_false]
      rw [h1]; exact h1

end http_conn

theorem strcasecmp_eq_length {s lit : List Nat} (h : strcasecmp_eq s lit = true) :
    s.length = lit.length := by
  unfold strcasecmp_eq at h
  have h' : (List.map tolower s).length = (List.map tolower lit).length := by
    rw [beq_iff_eq.mp h]
  simpa using h'

namespace http_conn

theorem parse_request_line_accept_on_received (c : http_conn) (d : List Nat) (u : Int)
    (U : List Nat) (h : U.length = 1 → u + 12 ≤ c.m_read_idx) :
    (c.received d).parse_request_line_accept_on u U
      = received_result d (c.parse_request_line_accept_on u U) := by
  unfold parse_request_line_accept_on
  by_cases h1 : U.length = 1
  · by_cases h2 : READ_BUFFER_SIZE < u + 12
    · simp only [h1, h2, if_true, received_result]
    · simp only [h1, h2, if_true, if_false, received_result]
      simp only [received, Except.ok.injEq, Prod.mk.injEq, true_and]
      rw [Mem.write_write_comm _ _ _ _ _ (by have := h h1; simp only [List.length]; omega)]
  · simp only [h1, if_false, received_result]
    rfl

theorem parse_request_line_https_on_received (c : http_conn) (d : List Nat) (u1 : Int)
    (U : List Nat) (h : u1 + U.length + 11 ≤ c.m_read_idx) :
    (c.received d).parse_request_line_https_on u1 U
      = received_result d (c.parse_request_line_https_on u1 U) := by
  unfold parse_request_line_https_on
  by_cases h2 : strncasecmp_eq U [104, 116, 116, 112, 115, 58, 47, 47] 8 = true
  · simp only [h2, if_true]
    cases hs : strchr (U.drop 8) 47 with
    | none => rfl
    | some k =>
      have hk := strchr_lt hs
      simp only [List.length_drop] at hk
      simp only [List.drop_drop] at *
      exact parse_request_line_accept_on_received { c with m_url := some (u1 + 8 + (k : Int)) } d _ _
        (by intro h1; simp only [List.length_drop] at h1; show _ ≤ c.m_read_idx; omega)
  · simp only [h2, Bool.false_eq_true, if_false]
    by_cases h3 : U.headD 0 ≠ 47
    · simp only [h3, ne_eq, not_false_eq_true, if_true]; rfl
    · simp only [h3, if_false]
      exact parse_request_line_accept_on_received { c with m_url := some u1 } d _ _
        (by intro h1; show _ ≤ c.m_read_idx; omega)

theorem parse_request_line_url_on_received (c : http_conn) (d : List Nat) (url : Int)
    (U : List Nat) (h : url + U.length + 11 ≤ c.m_read_idx) :
    (c.received d).parse_request_line_url_on url U
      = received_result d (c.parse_request_line_url_on url U) := by
  unfold parse_request_line_url_on
  by_cases h1 : strncasecmp_eq U [104, 116, 116, 112, 58, 47, 47] 7 = true
  · simp only [h1, if_true]
    cases hs : strchr (U.drop 7) 47 with
    | none => rfl
    | some k =>
      have hk := strchr_lt hs
      simp only [List.length_drop] at hk
      simp only
      exact parse_request_line_https_on_received c d _ _
        (by simp only [List.length_drop]; omega)
  · simp only [h1, Bool.false_eq_true, if_false]
    exact parse_request_line_https_on_received c d _ _ h

theorem parse_request_line_version_on_received (c : http_conn) (d : List Nat) (url : Int)
    (L : List Nat) (h : url + L.length + 2 ≤ c.m_read_idx) :
    (c.received d).parse_request_line_version_on url L
      = received_result d (c.parse_request_line_version_on url L) := by
  unfold parse_request_line_version_on
  cases hs : strpbrk L [32, 9] with
  | none => rfl
  | some k =>
    have hk := strpbrk_lt hs
    have hcomm : (c.received d).m_read_buf.set (url + k) 0
        = (c.m_read_buf.set (url + k) 0).write c.m_read_idx d :=
      Mem.set_write_comm _ _ _ _ _ (by omega)
    simp only
    by_cases hv : strcasecmp_eq ((L.drop (k + 1)).drop (strspn (L.drop (k + 1)) [32, 9]))
        [72, 84, 84, 80, 47, 49, 46, 49] = true
    · simp only [hv, not_true_eq_false, if_false]
      have hl := strcasecmp_eq_length hv
      simp only [List.length_drop, List.length] at hl
      rw [hcomm]
      exact parse_request_line_url_on_received
        { c with
          m_read_buf := c.m_read_buf.set (url + k) 0
          m_version := some (url + k + 1 + (strspn (L.drop (k + 1)) [32, 9] : Int)) } d url _
        (by simp only [List.length_take]; show _ ≤ c.m_read_idx; omega)
    · simp only [hv, Bool.false_eq_true, not_false_eq_true, if_true, received_result]
      rw [hcomm]; rfl

theorem parse_request_line_on_received (c : http_conn) (d : List Nat) (text : Int)
    (ln : List Nat) (h : ln = [] ∨ text + ln.length + 2 ≤ c.m_read_idx) :
    (c.received d).parse_request_line_on text ln
      = received_result d (c.parse_request_line_on text ln) := by
  unfold parse_request_line_on
  cases hs : strpbrk ln [32, 9] with
  | none => rfl
  | some k =>
    have hk := strpbrk_lt hs
    have hb : text + ln.length + 2 ≤ c.m_read_idx := by
      rcases h with h | h
      · subst h; simp at hk
      · exact h
    have hcomm : (c.received d).m_read_buf.set (text + k) 0
        = (c.m_read_buf.set (text + k) 0).write c.m_read_idx d :=
      Mem.set_write_comm _ _ _ _ _ (by omega)
    have hsp := strspn_le (ln.drop (k + 1)) [32, 9]
    simp only [List.length_drop] at hsp
    simp only
    rw [hcomm]
    by_cases hg : strcasecmp_eq (ln.take k) [71, 69, 84] = true
    · simp only [hg, if_true]
      exact parse_request_line_version_on_received
        { c with
          m_read_buf := c.m_read_buf.set (text + k) 0
          m_url := some (text + k + 1 + (strspn (ln.drop (k + 1)) [32, 9] : Int))
          m_method := METHOD.GET } d _ _
        (by simp only [List.length_drop]; show _ ≤ c.m_read_idx; omega)
    · simp only [hg, Bool.false_eq_true, if_false]
      by_cases hp : strcasecmp_eq (ln.take k) [80, 79, 83, 84] = true
      · simp only [hp, if_true]
        exact parse_request_line_version_on_received
          { c with
            m_read_buf := c.m_read_buf.set (text + k) 0
            m_url := some (text + k + 1 + (strspn (ln.drop (k + 1)) [32, 9] : Int))
            m_method := METHOD.POST
            cgi := 1 } d _ _
          (by simp only [List.length_drop]; show _ ≤ c.m_read_idx; omega)
      · simp only [hp, Bool.false_eq_true, if_false]
        rfl

/-- Bytes that arrive behind a complete request line do not change how it is parsed. -/
theorem parse_request_line_received (c : http_conn) (d : List Nat) (text : Int) (ln : List Nat)
    (h : HasStr c.m_read_buf text ln) (hlt : text + ln.length < c.m_read_idx)
    (hb : ln = [] ∨ text + ln.length + 2 ≤ c.m_read_idx) :
    (c.received d).parse_request_line text = received_result d (c.parse_request_line text) := by
  have h' : HasStr (c.received d).m_read_buf text ln := h.write_above _ _ hlt
  rw [parse_request_line_eq _ _ _ h', parse_request_line_eq _ _ _ h]
  exact parse_request_line_on_received c d text ln hb

/-- Bytes that arrive behind a complete header line do not change how it is parsed. -/
theorem parse_headers_received (c : http_conn) (d : List Nat) (text : Int) (ln : List Nat)
    (h : HasStr c.m_read_buf text ln) (hlt : text + ln.length < c.m_read_idx) :
    (c.received d).parse_headers text
      = ((c.parse_headers text).1, (c.parse_headers text).2.received d) := by
  have h' : HasStr (c.received d).m_read_buf text ln := h.write_above _ _ hlt
  rw [parse_headers_eq _ _ _ h', parse_headers_eq _ _ _ h]
  unfold parse_headers_on
  have e : (c.received d).m_content_length = c.m_content_length := rfl
  simp only [e]
  split_ifs <;> rfl

/-- After a scan that ended with `LINE_OK`, the line that starts at `m_start_line` is a C string
that ends before `m_read_idx`. -/
theorem parse_line_ok_str (c : http_conn) (hinv : c.m_start_line ≤ c.m_checked_idx)
    (hrd : c.m_read_idx ≤ READ_BUFFER_SIZE) (h : c.parse_line.1 = LINE_STATUS.LINE_OK) :
    ∃ ln, HasStr c.parse_line.2.m_read_buf c.m_start_line ln
      ∧ c.m_start_line + ln.length < c.m_read_idx
      ∧ (ln = [] ∨ c.m_start_line + ln.length + 2 ≤ c.m_read_idx) := by
  obtain ⟨h1, h2, h3, h4, _⟩ := parse_line_ok c h
  by_cases hs : c.m_start_line ≤ c.parse_line.2.m_checked_idx - 2
  · obtain ⟨hstr, hle⟩ := HasStr.of_nul c.parse_line.2.m_read_buf c.m_start_line
      (c.parse_line.2.m_checked_idx - 2) hs (by omega) h4
    exact ⟨_, hstr, by omega, Or.inr (by omega)⟩
  · obtain ⟨hstr, hle⟩ := HasStr.of_nul c.parse_line.2.m_read_buf c.m_start_line
      (c.parse_line.2.m_checked_idx - 1) (by omega) (by omega) h3
    have hz : (cstr READ_BUFFER_SIZE c.parse_line.2.m_read_buf c.m_start_line).length = 0 := by
      omega
    exact ⟨_, hstr, by omega, Or.inl (List.length_eq_zero.mp hz)⟩

theorem process_read_body_requestline (env : Env) (users : Users) (ls : LINE_STATUS)
    (c : http_conn) (h : c.m_check_state = CHECK_STATE.CHECK_STATE_REQUESTLINE) :
    process_read_body env users ls c =
      match ({ c with m_start_line := c.m_checked_idx } : http_conn).parse_request_line
          c.m_start_line with
      | Except.error f => Except.error f
      | Except.ok (ret, c) =>
        if ret = HTTP_CODE.BAD_REQUEST then Except.ok (LoopStep.ret HTTP_CODE.BAD_REQUEST c users)
        else Except.ok (LoopStep.again ls c) := by
  cases c
  simp only at h
  subst h
  rfl

theorem process_read_body_header (env : Env) (users : Users) (ls : LINE_STATUS)
    (c : http_conn) (h : c.m_check_state = CHECK_STATE.CHECK_STATE_HEADER) :
    process_read_body env users ls c =
      if (({ c with m_start_line := c.m_checked_idx } : http_conn).parse_headers c.m_start_line).1
          = HTTP_CODE.BAD_REQUEST then
        Except.ok (LoopStep.ret HTTP_CODE.BAD_REQUEST
          (({ c with m_start_line := c.m_checked_idx } : http_conn).parse_headers c.m_start_line).2
          users)
      else if
          (({ c with m_start_line := c.m_checked_idx } : http_conn).parse_headers c.m_start_line).1
            = HTTP_CODE.GET_REQUEST then
        match (({ c with m_start_line := c.m_checked_idx } : http_conn).parse_headers
            c.m_start_line).2.do_request env users with
        | Except.error f => Except.error f
        | Except.ok (code, c, users) => Except.ok (LoopStep.ret code c users)
      else Except.ok (LoopStep.again ls
        (({ c with m_start_line := c.m_checked_idx } : http_conn).parse_headers c.m_start_line).2) := by
  cases c
  simp only at h
  subst h
  rfl

/-- A turn of the loop that parsed a request line or a header and goes on does the same when
more bytes have arrived behind that line. -/
theorem process_read_body_received {env : Env} {users : Users} {ls ls' : LINE_STATUS}
    {c c' : http_conn} (d : List Nat)
    (hs : c.m_check_state ≠ CHECK_STATE.CHECK_STATE_CONTENT) (ln : List Nat)
    (hstr : HasStr c.m_read_buf c.m_start_line ln)
    (hlt : c.m_start_line + ln.length < c.m_read_idx)
    (hb : ln = [] ∨ c.m_start_line + ln.length + 2 ≤ c.m_read_idx)
    (h : process_read_body env users ls c = Except.ok (LoopStep.again ls' c')) :
    process_read_body env users ls (c.received d)
      = Except.ok (LoopStep.again ls' (c'.received d)) := by
  cases hst : c.m_check_state with
  | CHECK_STATE_CONTENT => exact absurd hst hs
  | CHECK_STATE_REQUESTLINE =>
    have hst' : (c.received d).m_check_state = CHECK_STATE.CHECK_STATE_REQUESTLINE := hst
    rw [process_read_body_requestline env users ls c hst] at h
    rw [process_read_body_requestline env users ls _ hst']
    have hpr := parse_request_line_received { c with m_start_line := c.m_checked_idx } d
      c.m_start_line ln hstr hlt hb
    have hpr' : ({ c.received d with m_start_line := (c.received d).m_checked_idx }
        : http_conn).parse_request_line (c.received d).m_start_line
        = received_result d (({ c with m_start_line := c.m_checked_idx }
            : http_conn).parse_request_line c.m_start_line) := hpr
    rw [hpr']
    cases hp : ({ c with m_start_line := c.m_checked_idx } : http_conn).parse_request_line
        c.m_start_line with
    | error f => rw [hp] at h; simp at h
    | ok r =>
      obtain ⟨code, c2⟩ := r
      rw [hp] at h
      simp only at h
      simp only [received_result]
      by_cases hc : code = HTTP_CODE.BAD_REQUEST
      · simp only [hc, if_true] at h; simp at h
      · simp only [hc, if_false, Except.ok.injEq, LoopStep.again.injEq] at h ⊢
        obtain ⟨rfl, rfl⟩ := h
        exact ⟨rfl, rfl⟩
  | CHECK_STATE_HEADER =>
    have hst' : (c.received d).m_check_state = CHECK_STATE.CHECK_STATE_HEADER := hst
    rw [process_read_body_header env users ls c hst] at h
    rw [process_read_body_header env users ls _ hst']
    have hpr := parse_headers_received { c with m_start_line := c.m_checked_idx } d
      c.m_start_line ln hstr hlt
    have hpr' : ({ c.received d with m_start_line := (c.received d).m_checked_idx }
        : http_conn).parse_headers (c.received d).m_start_line
        = ((({ c with m_start_line := c.m_checked_idx } : http_conn).parse_headers
              c.m_start_line).1,
            (({ c with m_start_line := c.m_checked_idx } : http_conn).parse_headers
              c.m_start_line).2.received d) := hpr
    rw [hpr']
    generalize ({ c with m_start_line := c.m_checked_idx } : http_conn).parse_headers
      c.m_start_line = r at h
    obtain ⟨code, c2⟩ := r
    simp only at h ⊢
    by_cases h1 : code = HTTP_CODE.BAD_REQUEST
    · simp only [h1, if_true] at h; simp at h
    · by_cases h2 : code = HTTP_CODE.GET_REQUEST
      · subst h2
        simp only [reduceCtorEq, if_true, if_false] at h
        split at h <;> simp at h
      · simp only [h1, h2, if_false, Except.ok.injEq, LoopStep.again.injEq] at h ⊢
        obtain ⟨rfl, rfl⟩ := h
        exact ⟨rfl, rfl⟩

/-- Resuming: when `process_read` has answered `NO_REQUEST` before the body of a request, running
it on the connection it left, after more bytes have arrived, gives what running it on the
earlier connection with the same bytes gives. -/
theorem process_read_run_received (env : Env) (users : Users) (d : List Nat) (ls : LINE_STATUS)
    (c : http_conn) :
    c.m_start_line ≤ c.m_checked_idx → c.m_read_idx ≤ READ_BUFFER_SIZE →
    ∀ c1 u1, process_read_run env ls users c = Except.ok (HTTP_CODE.NO_REQUEST, c1, u1) →
      c1.m_check_state ≠ CHECK_STATE.CHECK_STATE_CONTENT →
      process_read_run env ls users (c.received d)
        = process_read_run env LINE_STATUS.LINE_OK u1 (c1.received d) := by
  induction ls, c using process_read_run_induction env users with
  | step ls c ih =>
    intro hinv hrd c1 u1 h hc1
    have hcs : c.m_check_state ≠ CHECK_STATE.CHECK_STATE_CONTENT := fun hc =>
      hc1 (process_read_run_content env users ls c hc c1 u1 h)
    have hcond : process_read_cond ls c = c.parse_line := by
      unfold process_read_cond; simp only [hcs, false_and, if_false]
    have hcond' : process_read_cond ls (c.received d) = (c.received d).parse_line := by
      unfold process_read_cond
      have : (c.received d).m_check_state = c.m_check_state := rfl
      simp only [this, hcs, false_and, if_false]
    rw [process_read_run_unfold] at h
    by_cases hok : c.parse_line.1 = LINE_STATUS.LINE_OK
    · have hok' : (process_read_cond ls c).1 = LINE_STATUS.LINE_OK := by rw [hcond]; exact hok
      simp only [hok', ne_eq, not_true_eq_false, if_false] at h
      have hpl : (c.received d).parse_line = (LINE_STATUS.LINE_OK, c.parse_line.2.received d) := by
        rw [parse_line_received, hok]; simp
      rw [process_read_run_unfold, hcond', hpl]
      simp only [ne_eq, not_true_eq_false, if_false]
      cases hb : process_read_body env users LINE_STATUS.LINE_OK (process_read_cond ls c).2 with
      | error f => rw [hb] at h; simp at h
      | ok step =>
        rw [hb] at h
        cases step with
        | ret code c' users' =>
          simp only [Except.ok.injEq, Prod.mk.injEq] at h
          exact absurd h.1 (process_read_body_ret hb)
        | again ls' c' =>
          simp only at h
          obtain ⟨ln, hstr, hlt, hbd⟩ := parse_line_ok_str c hinv hrd hok
          have hb2 : process_read_body env users LINE_STATUS.LINE_OK c.parse_line.2
              = Except.ok (LoopStep.again ls' c') := by rw [← hcond]; exact hb
          have hfr := process_read_body_received d
            (by rw [parse_line_check_state]; exact hcs) ln
            (by rw [parse_line_start_line]; exact hstr)
            (by rw [parse_line_start_line, parse_line_read_idx]; exact hlt)
            (by rw [parse_line_start_line, parse_line_read_idx]; exact hbd) hb2
          rw [hfr]
          simp only
          have hag := process_read_body_again hb2
          have hb' : process_read_body env users (process_read_cond ls c).1
              (process_read_cond ls c).2 = Except.ok (LoopStep.again ls' c') := by
            rw [hok']; exact hb
          exact ih ls' c' hok' hb' (by rw [hag.2.2.1, hag.2.1])
            (by rw [hag.1, parse_line_read_idx]; exact hrd) c1 u1 h hc1
    · have hok' : ¬ (process_read_cond ls c).1 = LINE_STATUS.LINE_OK := by rw [hcond]; exact hok
      simp only [hok', ne_eq, not_false_eq_true, if_true, Except.ok.injEq, Prod.mk.injEq,
        true_and] at h
      obtain ⟨rfl, rfl⟩ := h
      rw [hcond]
      have hcond1 : process_read_cond LINE_STATUS.LINE_OK (c.parse_line.2.received d)
          = (c.parse_line.2.received d).parse_line := by
        unfold process_read_cond
        have : (c.parse_line.2.received d).m_check_state = c.m_check_state := by
          show c.parse_line.2.m_check_state = _
          exact parse_line_check_state c
        simp only [this, hcs, false_and, if_false]
      have hceq : process_read_cond ls (c.received d)
          = process_read_cond LINE_STATUS.LINE_OK (c.parse_line.2.received d) := by
        rw [hcond', hcond1, parse_line_received c d]
        by_cases hop : c.parse_line.1 = LINE_STATUS.LINE_OPEN
        · simp only [hop, if_true]
        · simp only [hop, if_false]
          rw [parse_line_received c.parse_line.2 d, parse_line_idem c hok]
          simp only [hop, if_false]
      rw [process_read_run_unfold env ls, process_read_run_unfold env LINE_STATUS.LINE_OK, hceq]

/-! ## Termination of `process_read` -/

theorem scan_field_fault (m : Mem) (s : Int) (stop : Nat) (fuel : Nat) (i : Int) (dst : List Nat) :
    scan_field m s stop fuel i dst ≠ Except.error Fault.fuel := by
  induction fuel generalizing i dst with
  | zero => simp [scan_field]
  | succ n ih =>
    unfold scan_field
    repeat' split
    all_goals first
      | exact ih _ _
      | simp

theorem strcpy_url_fault (c : http_conn) (url : Int) (lit : List Nat) :
    c.strcpy_url url lit ≠ Except.error Fault.fuel := by
  unfold strcpy_url
  split <;> simp

theorem bind_fault {α β : Type} (x : Except Fault α) (g : α → Except Fault β)
    (hx : x ≠ Except.error Fault.fuel) (hg : ∀ a, g a ≠ Except.error Fault.fuel) :
    (x >>= g) ≠ Except.error Fault.fuel := by
  cases x with
  | error e =>
    intro h
    apply hx
    simpa [bind, Except.bind] using h
  | ok a => exact hg a

theorem map_fault {α β : Type} (x : Except Fault α) (g : α → β)
    (hx : x ≠ Except.error Fault.fuel) : x.map g ≠ Except.error Fault.fuel := by
  cases x with
  | error e =>
    intro h
    apply hx
    simpa [Except.map] using h
  | ok a => simp [Except.map]

theorem do_request_cgi_check_fault (env : Env) (users : Users) (c : http_conn) (url p : Int)
    (name password : List Nat) :
    do_request_cgi_check env users c url p name password ≠ Except.error Fault.fuel := by
  unfold do_request_cgi_check
  simp only
  repeat' split
  all_goals first
    | exact map_fault _ _ (strcpy_url_fault _ _ _)
    | simp

theorem do_request_cgi_fault (env : Env) (users : Users) (c : http_conn) (len url p : Int) :
    do_request_cgi env users c len url p ≠ Except.error Fault.fuel := by
  unfold do_request_cgi
  simp only
  repeat' split
  all_goals first
    | exact do_request_cgi_check_fault _ _ _ _ _ _ _
    | (intro h
       simp only [Except.error.injEq] at h
       subst h
       exact scan_field_fault _ _ _ _ _ _ (by assumption))
    | simp

theorem do_request_page_fault (c : http_conn) (len : Int) (lit : List Nat) :
    c.do_request_page len lit ≠ Except.error Fault.fuel := by
  unfold do_request_page
  split <;> simp

theorem do_request_file_fault (c : http_conn) (len url p : Int) :
    c.do_request_file len url p ≠ Except.error Fault.fuel := by
  unfold do_request_file
  repeat' split
  all_goals first
    | exact do_request_page_fault _ _ _
    | simp

theorem do_request_fault (env : Env) (users : Users) (c : http_conn) :
    c.do_request env users ≠ Except.error Fault.fuel := by
  unfold do_request
  simp only
  split
  · simp
  · split
    · simp
    · split
      · simp
      · split
        · rename_i f hf
          intro h
          simp only [Except.error.injEq] at h
          subst h
          split at hf
          · exact do_request_cgi_fault _ _ _ _ _ _ hf
          · simp at hf
        · split
          · rename_i f hf
            intro h
            simp only [Except.error.injEq] at h
            subst h
            exact do_request_file_fault _ _ _ _ hf
          · simp

theorem parse_request_line_accept_on_fault (c : http_conn) (u : Int) (U : List Nat) :
    c.parse_request_line_accept_on u U ≠ Except.error Fault.fuel := by
  unfold parse_request_line_accept_on
  repeat' split
  all_goals simp

theorem parse_request_line_accept_fault (c : http_conn) (u : Int) :
    c.parse_request_line_accept u ≠ Except.error Fault.fuel := by
  unfold parse_request_line_accept
  repeat' split
  all_goals simp

theorem parse_request_line_https_fault (c : http_conn) (u : Int) :
    c.parse_request_line_https u ≠ Except.error Fault.fuel := by
  unfold parse_request_line_https
  simp only
  repeat' split
  all_goals first
    | exact parse_request_line_accept_fault _ _
    | simp

theorem parse_request_line_url_fault (c : http_conn) (u : Int) :
    c.parse_request_line_url u ≠ Except.error Fault.fuel := by
  unfold parse_request_line_url
  simp only
  repeat' split
  all_goals first
    | exact parse_request_line_https_fault _ _
    | simp

theorem parse_request_line_version_fault (c : http_conn) (u : Int) :
    c.parse_request_line_version u ≠ Except.error Fault.fuel := by
  unfold parse_request_line_version
  simp only
  repeat' split
  all_goals first
    | exact parse_request_line_url_fault _ _
    | simp

theorem parse_request_line_fault (c : http_conn) (text : Int) :
    c.parse_request_line text ≠ Except.error Fault.fuel := by
  unfold parse_request_line
  simp only
  repeat' split
  all_goals first
    | exact parse_request_line_version_fault _ _
    | simp

theorem parse_content_fault (c : http_conn) (text : Int) :
    c.parse_content text ≠ Except.error Fault.fuel := by
  unfold parse_content
  repeat' split
  all_goals simp

/-- The body of the loop of `process_read` never fails for lack of fuel. -/
theorem process_read_body_fault (env : Env) (users : Users) (ls : LINE_STATUS) (c : http_conn) :
    process_read_body env users ls c ≠ Except.error Fault.fuel := by
  unfold process_read_body
  simp only
  intro h
  repeat' split at h
  all_goals first
    | (simp only [Except.error.injEq] at h
       subst h
       first
         | exact parse_request_line_fault _ _ (by assumption)
         | exact parse_content_fault _ _ (by assumption)
         | exact do_request_fault _ _ _ (by assumption))
    | simp at h

/-- The loop of `process_read` ends: with the fuel that `process_read` gives it, it never stops
for lack of fuel. -/
theorem process_read_run_total (env : Env) (users : Users) (ls : LINE_STATUS) (c : http_conn) :
    process_read_run env ls users c ≠ Except.error Fault.fuel := by
  induction ls, c using process_read_run_induction env users with
  | step ls c ih =>
    rw [process_read_run_unfold]
    by_cases hok : (process_read_cond ls c).1 = LINE_STATUS.LINE_OK
    · simp only [hok, ne_eq, not_true_eq_false, if_false]
      cases hb : process_read_body env users LINE_STATUS.LINE_OK (process_read_cond ls c).2 with
      | error f =>
        simp only [Except.error.injEq]
        intro hf
        subst hf
        exact process_read_body_fault _ _ _ _ hb
      | ok step =>
        cases step with
        | ret code c' users' => simp
        | again ls' c' =>
          simp only
          exact ih ls' c' hok (by rw [hok]; exact hb)
    · simp only [hok, ne_eq, not_false_eq_true, if_true]
      simp

theorem process_read_total (env : Env) (users : Users) (c : http_conn) :
    c.process_read env users ≠ Except.error Fault.fuel := by
  rw [process_read_eq_run]
  exact process_read_run_total env users _ c

end http_conn

/-! ## A request that arrives in pieces (C8) -/

theorem Mem.write_at (m : Mem) (r : Int) (d : List Nat) (k : Nat) (hk : k < d.length) :
    m.write r d (r + k) = d.getD k 0 := by
  simp only [Mem.write]
  rw [if_pos (by omega)]
  congr 1
  omega

theorem Mem.write_append (m : Mem) (r : Int) (d e : List Nat) :
    (m.write r d).write (r + d.length) e = m.write r (d ++ e) := by
  funext j
  simp only [Mem.write, List.length_append, Nat.cast_add]
  by_cases h1 : r + (d.length : Int) ≤ j ∧ j < r + d.length + e.length
  · rw [if_pos h1, if_pos (by omega)]
    have e1 : (j - r).toNat = d.length + (j - (r + d.length)).toNat := by omega
    rw [e1, List.getD_eq_getElem?_getD, List.getD_eq_getElem?_getD,
      List.getElem?_append_right (by omega)]
    congr 2
    omega
  · rw [if_neg h1]
    by_cases h2 : r ≤ j ∧ j < r + d.length
    · rw [if_pos h2, if_pos (by omega)]
      rw [List.getD_eq_getElem?_getD, List.getD_eq_getElem?_getD,
        List.getElem?_append_left (by omega)]
    · rw [if_neg h2, if_neg (by omega)]

namespace http_conn

theorem received_append (c : http_conn) (d e : List Nat) :
    (c.received d).received e = c.received (d ++ e) := by
  simp only [received, List.length_append, Nat.cast_add, Mem.write_append, add_assoc]

/-- The scan of `parse_line` steps over bytes that are neither CR nor LF. -/
theorem parse_line_skip (n : Nat) : ∀ (c : http_conn), c.m_checked_idx + n ≤ c.m_read_idx →
    (∀ k : Nat, k < n → c.m_read_buf (c.m_checked_idx + k) ≠ 13
      ∧ c.m_read_buf (c.m_checked_idx + k) ≠ 10) →
    c.parse_line = parse_line { c with m_checked_idx := c.m_checked_idx + n } := by
  induction n with
  | zero =>
    intro c _ _
    simp only [Nat.cast_zero, add_zero]
  | succ n ih =>
    intro c hn hclean
    have h0 := hclean 0 (by omega)
    simp only [Nat.cast_zero, add_zero] at h0
    have hlt : c.m_checked_idx < c.m_read_idx := by omega
    rw [parse_line_unfold c]
    simp only [hlt, h0.1, h0.2, if_true, if_false]
    rw [ih { c with m_checked_idx := c.m_checked_idx + 1 } (by simp only; omega)
      (by
        intro k hk
        have := hclean (k + 1) (by omega)
        have e : c.m_checked_idx + ((k + 1 : Nat) : Int) = c.m_checked_idx + 1 + (k : Int) := by
          push_cast; ring
        rw [e] at this
        exact this)]
    have e : c.m_checked_idx + 1 + (n : Int) = c.m_checked_idx + ((n + 1 : Nat) : Int) := by
      push_cast; ring
    simp only [e]

/-- The scan of `parse_line` over a line without CR or LF that ends with CR LF. -/
theorem parse_line_at_crlf (c : http_conn) (n : Nat) (hn : c.m_checked_idx + n + 2 ≤ c.m_read_idx)
    (hclean : ∀ k : Nat, k < n → c.m_read_buf (c.m_checked_idx + k) ≠ 13
      ∧ c.m_read_buf (c.m_checked_idx + k) ≠ 10)
    (hcr : c.m_read_buf (c.m_checked_idx + n) = 13)
    (hlf : c.m_read_buf (c.m_checked_idx + n + 1) = 10) :
    c.parse_line = (LINE_STATUS.LINE_OK,
      { c with
        m_read_buf := (c.m_read_buf.set (c.m_checked_idx + n) 0).set (c.m_checked_idx + n + 1) 0
        m_checked_idx := c.m_checked_idx + n + 2 }) := by
  rw [parse_line_skip n c (by omega) hclean, parse_line_unfold]
  have hlt : c.m_checked_idx + (n : Int) < c.m_read_idx := by omega
  have hne : ¬ (c.m_checked_idx + (n : Int) + 1 = c.m_read_idx) := by omega
  simp only [hlt, hcr, hlf, hne, if_true, if_false]

/-- The scan of `parse_line` over bytes without CR or LF, up to the last byte read. -/
theorem parse_line_open_clean (c : http_conn) (n : Nat) (hn : c.m_checked_idx + n = c.m_read_idx)
    (hclean : ∀ k : Nat, k < n → c.m_read_buf (c.m_checked_idx + k) ≠ 13
      ∧ c.m_read_buf (c.m_checked_idx + k) ≠ 10) :
    c.parse_line.1 = LINE_STATUS.LINE_OPEN := by
  rw [parse_line_skip n c (by omega) hclean, parse_line_unfold]
  have hlt : ¬ (c.m_checked_idx + (n : Int) < c.m_read_idx) := by omega
  simp only [hlt, if_false]

/-- The scan of `parse_line` over bytes without CR or LF, followed by a CR that is the last byte
read. -/
theorem parse_line_open_cr (c : http_conn) (n : Nat) (hn : c.m_checked_idx + n + 1 = c.m_read_idx)
    (hclean : ∀ k : Nat, k < n → c.m_read_buf (c.m_checked_idx + k) ≠ 13
      ∧ c.m_read_buf (c.m_checked_idx + k) ≠ 10)
    (hcr : c.m_read_buf (c.m_checked_idx + n) = 13) :
    c.parse_line.1 = LINE_STATUS.LINE_OPEN := by
  rw [parse_line_skip n c (by omega) hclean, parse_line_unfold]
  have hlt : c.m_checked_idx + (n : Int) < c.m_read_idx := by omega
  simp only [hlt, hcr, hn, if_true]

theorem received_buf_at (c : http_conn) (d : List Nat) (k : Nat) (hk : k < d.length) :
    (c.received d).m_read_buf (c.m_read_idx + k) = d.getD k 0 :=
  Mem.write_at _ _ _ _ hk

theorem process_read_cond_of_ne (ls : LINE_STATUS) (c : http_conn)
    (h : c.m_check_state ≠ CHECK_STATE.CHECK_STATE_CONTENT) :
    process_read_cond ls c = c.parse_line := by
  unfold process_read_cond
  simp only [h, false_and, if_false]

theorem process_read_run_of_scan_open (env : Env) (users : Users) (ls : LINE_STATUS)
    (c : http_conn) (h : c.m_check_state ≠ CHECK_STATE.CHECK_STATE_CONTENT)
    (hpl : c.parse_line.1 ≠ LINE_STATUS.LINE_OK) :
    process_read_run env ls users c
      = Except.ok (HTTP_CODE.NO_REQUEST, c.parse_line.2, users) := by
  rw [process_read_run_unfold, process_read_cond_of_ne ls c h]
  simp only [hpl, ne_eq, not_false_eq_true, if_true]

theorem process_read_run_of_scan_ok (env : Env) (users : Users) (ls ls' : LINE_STATUS)
    (c c2 c3 : http_conn) (h : c.m_check_state ≠ CHECK_STATE.CHECK_STATE_CONTENT)
    (hpl : c.parse_line = (LINE_STATUS.LINE_OK, c2))
    (hb : process_read_body env users LINE_STATUS.LINE_OK c2 = Except.ok (LoopStep.again ls' c3)) :
    process_read_run env ls users c = process_read_run env ls' users c3 := by
  rw [process_read_run_unfold, process_read_cond_of_ne ls c h, hpl]
  simp only [ne_eq, not_true_eq_false, if_false, hb]

theorem parse_line_at_end (c : http_conn) (h : c.m_checked_idx = c.m_read_idx) :
    c.parse_line = (LINE_STATUS.LINE_OPEN, c) := by
  rw [parse_line_unfold]
  have : ¬ (c.m_checked_idx < c.m_read_idx) := by omega
  simp only [this, if_false]

/-- The scan of `parse_line` over the first bytes of a line: while its CR LF has not arrived
completely, the answer is `LINE_OPEN`. -/
theorem parse_line_received_open (c : http_conn) (L X pre suf : List Nat)
    (hr : c.m_checked_idx = c.m_read_idx) (hL : ∀ b ∈ L, b ≠ 13 ∧ b ≠ 10)
    (h : pre ++ suf = L ++ 13 :: 10 :: X) (hlen : pre.length < L.length + 2) :
    (c.received pre).parse_line.1 = LINE_STATUS.LINE_OPEN := by
  have hp : pre = (L ++ 13 :: 10 :: X).take pre.length := by
    rw [← h, List.take_left']
    rfl
  have hck : (c.received pre).m_checked_idx = c.m_read_idx := hr
  have hrd : (c.received pre).m_read_idx = c.m_read_idx + pre.length := rfl
  by_cases hle : pre.length ≤ L.length
  · rw [List.take_append_of_le_length hle] at hp
    apply parse_line_open_clean (c.received pre) pre.length (by rw [hck, hrd])
    intro k hk
    rw [hck, received_buf_at c pre k hk, List.getD_eq_getElem _ _ hk]
    have hmem : pre[k] ∈ L := by
      have : pre[k] ∈ List.take pre.length L := by
        rw [← hp]; exact List.getElem_mem _
      exact List.mem_of_mem_take this
    exact hL _ hmem
  · have hl1 : pre.length = L.length + 1 := by omega
    have hp' : pre = L ++ [13] := by
      rw [hp, hl1, List.take_append_eq_append_take]
      simp
    apply parse_line_open_cr (c.received pre) L.length (by rw [hck, hrd, hl1]; push_cast; ring)
    · intro k hk
      rw [hck, received_buf_at c pre k (by omega), hp',
        List.getD_eq_getElem _ _ (by simp; omega), List.getElem_append_left hk]
      exact hL _ (List.getElem_mem _)
    · rw [hck, received_buf_at c pre L.length (by omega), hp']
      simp

/-- One complete line arrives at a connection that has consumed all it had read: `process_read`
scans the line, runs the parser of the current state on it, and answers `NO_REQUEST` when that
parser asks for more. -/
theorem process_read_line_step (env : Env) (users : Users) (c : http_conn) (L : List Nat)
    (hcs : c.m_check_state ≠ CHECK_STATE.CHECK_STATE_CONTENT)
    (hr : c.m_checked_idx = c.m_read_idx)
    (hb : c.m_read_idx + L.length + 2 ≤ READ_BUFFER_SIZE)
    (hL : ∀ b ∈ L, b ≠ 0 ∧ b ≠ 13 ∧ b ≠ 10)
    (hbody : ∀ c2 : http_conn, c2.m_check_state = c.m_check_state →
      c2.m_start_line = c.m_start_line → c2.m_read_idx = c.m_read_idx + L.length + 2 →
      (c.m_start_line = c.m_read_idx → HasStr c2.m_read_buf c.m_read_idx L) →
      ∃ c3, process_read_body env users LINE_STATUS.LINE_OK c2
          = Except.ok (LoopStep.again LINE_STATUS.LINE_OK c3)
        ∧ c3.m_check_state = CHECK_STATE.CHECK_STATE_HEADER) :
    ∃ c', process_read_run env LINE_STATUS.LINE_OK users (c.received (L ++ [13, 10]))
        = Except.ok (HTTP_CODE.NO_REQUEST, c', users)
      ∧ c'.m_check_state = CHECK_STATE.CHECK_STATE_HEADER
      ∧ c'.m_start_line = c'.m_checked_idx
      ∧ c'.m_checked_idx = c'.m_read_idx
      ∧ c'.m_read_idx = c.m_read_idx + L.length + 2 := by
  have hck : (c.received (L ++ [13, 10])).m_checked_idx = c.m_read_idx := hr
  have hrd : (c.received (L ++ [13, 10])).m_read_idx = c.m_read_idx + L.length + 2 := by
    simp only [received, List.length_append, List.length_cons, List.length_nil]
    push_cast; ring
  have hbuf : ∀ k : Nat, k < L.length →
      (c.received (L ++ [13, 10])).m_read_buf (c.m_read_idx + k) = L[k]?.getD 0 := by
    intro k hk
    rw [received_buf_at c _ k (by simp; omega), List.getD_eq_getElem?_getD,
      List.getElem?_append_left hk]
  have hpl := parse_line_at_crlf (c.received (L ++ [13, 10])) L.length (by rw [hck, hrd])
    (by
      intro k hk
      rw [hck, hbuf k hk, List.getElem?_eq_getElem hk]
      have := hL _ (List.getElem_mem (l := L) hk)
      exact ⟨this.2.1, this.2.2⟩)
    (by
      rw [hck, received_buf_at c _ L.length (by simp), List.getD_eq_getElem?_getD,
        List.getElem?_append_right (le_refl _)]
      simp)
    (by
      rw [hck]
      have := received_buf_at c (L ++ [13, 10]) (L.length + 1) (by simp)
      rw [show c.m_read_idx + ((L.length + 1 : Nat) : Int) = c.m_read_idx + L.length + 1 by
        push_cast; ring] at this
      rw [this, List.getD_eq_getElem?_getD, List.getElem?_append_right (by omega)]
      simp)
  rw [hck] at hpl
  obtain ⟨c3, hb3, hst3⟩ := hbody
    { c.received (L ++ [13, 10]) with
      m_read_buf := ((c.received (L ++ [13, 10])).m_read_buf.set (c.m_read_idx + L.length) 0).set
        (c.m_read_idx + L.length + 1) 0
      m_checked_idx := c.m_read_idx + L.length + 2 } rfl rfl hrd (by
    intro _
    refine ⟨?_, fun b hb => (hL b hb).1, ?_, by omega⟩
    · intro k hk
      have h1 : ¬ (c.m_read_idx + (k : Int) = c.m_read_idx + L.length + 1) := by omega
      have h2 : ¬ (c.m_read_idx + (k : Int) = c.m_read_idx + L.length) := by omega
      simp only [Mem.set, h1, h2, if_false]
      rw [hbuf k hk, List.getElem?_eq_getElem hk]
      rfl
    · have h1 : ¬ (c.m_read_idx + (L.length : Int) = c.m_read_idx + L.length + 1) := by omega
      simp only [Mem.set, h1, if_false, if_true])
  have hag := process_read_body_again hb3
  simp only at hag
  refine ⟨c3, ?_, hst3, by rw [hag.2.2.1, hag.2.1], by rw [hag.2.1, hag.1, hrd], by rw [hag.1, hrd]⟩
  have hcs' : (c.received (L ++ [13, 10])).m_check_state ≠ CHECK_STATE.CHECK_STATE_CONTENT := hcs
  rw [process_read_run_of_scan_ok env users _ _ _ _ c3 hcs' hpl hb3,
    process_read_run_of_scan_open env users _ c3 (by rw [hst3]; decide)
      (by rw [parse_line_at_end c3 (by rw [hag.2.1, hag.1, hrd])]; simp),
    parse_line_at_end c3 (by rw [hag.2.1, hag.1, hrd])]

end http_conn

theorem append_split {A B pre suf : List Nat} (h : pre ++ suf = A ++ B)
    (hl : A.length ≤ pre.length) : ∃ pre', pre = A ++ pre' ∧ pre' ++ suf = B := by
  refine ⟨pre.drop A.length, ?_, ?_⟩
  · have h1 : pre.take A.length = A := by
      have := congrArg (List.take A.length) h
      rw [List.take_append_of_le_length hl, List.take_left'] at this
      · exact this
      · rfl
    conv_lhs => rw [← List.take_append_drop A.length pre]
    rw [h1]
  · have := congrArg (List.drop A.length) h
    rw [List.drop_append_of_le_length hl, List.drop_left'] at this
    · exact this
    · rfl

namespace http_conn

theorem parse_headers_on_nonempty (c : http_conn) (text : Int) (ln : List Nat) (h : ln ≠ []) :
    (c.parse_headers_on text ln).1 = HTTP_CODE.NO_REQUEST
    ∧ (c.parse_headers_on text ln).2.m_check_state = c.m_check_state := by
  unfold parse_headers_on
  simp only [h, if_false]
  split_ifs <;> exact ⟨rfl, rfl⟩

/-- The loop body on a header line that is not empty: the line is taken in and the loop goes
on. -/
theorem process_read_body_header_line (env : Env) (users : Users) (c2 : http_conn) (L : List Nat)
    (hst : c2.m_check_state = CHECK_STATE.CHECK_STATE_HEADER) (hne : L ≠ [])
    (hstr : HasStr c2.m_read_buf c2.m_start_line L) :
    ∃ c3, process_read_body env users LINE_STATUS.LINE_OK c2
        = Except.ok (LoopStep.again LINE_STATUS.LINE_OK c3)
      ∧ c3.m_check_state = CHECK_STATE.CHECK_STATE_HEADER := by
  rw [process_read_body_header env users _ c2 hst]
  have hstr' : HasStr ({ c2 with m_start_line := c2.m_checked_idx } : http_conn).m_read_buf
      c2.m_start_line L := hstr
  have hon := parse_headers_on_nonempty { c2 with m_start_line := c2.m_checked_idx }
    c2.m_start_line L hne
  rw [← parse_headers_eq _ _ _ hstr'] at hon
  generalize ({ c2 with m_start_line := c2.m_checked_idx } : http_conn).parse_headers
    c2.m_start_line = r at hon
  obtain ⟨code, c3⟩ := r
  simp only at hon
  obtain ⟨rfl, hs3⟩ := hon
  refine ⟨c3, ?_, by rw [hs3]; exact hst⟩
  simp only [reduceCtorEq, if_false]

/-- The function `parse_request_line` accepts a line `METHOD SP /path SP HTTP/1.1` whose method
is `GET` or `POST`. -/
theorem parse_request_line_origin (c : http_conn) (text : Int) (M path : List Nat)
    (hM : M = bytes "GET" ∨ M = bytes "POST") (hpath : ∀ b ∈ path, b ≠ 32 ∧ b ≠ 9)
    (h : HasStr c.m_read_buf text (M ++ 32 :: (47 :: path ++ 32 :: [72, 84, 84, 80, 47, 49, 46, 49])))
    (hb : text + (M ++ 32 :: (47 :: path ++ 32 :: [72, 84, 84, 80, 47, 49, 46, 49])).length + 2
      ≤ READ_BUFFER_SIZE) :
    ∃ c', c.parse_request_line text = Except.ok (HTTP_CODE.NO_REQUEST, c')
      ∧ c'.m_check_state = CHECK_STATE.CHECK_STATE_HEADER := by
  rw [bytes_GET, bytes_POST] at hM
  have hURL : ∀ x ∈ 47 :: path, x ≠ 32 ∧ x ≠ 9 := by
    intro x hx
    rcases List.mem_cons.mp hx with rfl | hx
    · decide
    · exact hpath x hx
  rw [parse_request_line_eq c text _ h,
    parse_request_line_on_tokens c text M (47 :: path) hM hURL (by simp)]
  unfold parse_request_line_url_on
  have h1 : strncasecmp_eq (47 :: path) [104, 116, 116, 112, 58, 47, 47] 7 = false :=
    strncasecmp_eq_cons_ne _ _ _ _ _ (by decide)
  simp only [h1, Bool.false_eq_true, if_false]
  rw [parse_request_line_https_on_slash]
  unfold parse_request_line_accept_on
  simp only [List.length_append, List.length_cons, List.length_nil] at hb
  by_cases hl : (47 :: path).length = 1
  · have hp0 : path.length = 0 := by simpa using hl
    have hbd : ¬ (READ_BUFFER_SIZE < text + (M.length : Int) + 1 + 12) := by
      rw [hp0] at hb
      push_cast at hb
      omega
    simp only [hl, hbd, if_true, if_false]
    exact ⟨_, rfl, rfl⟩
  · simp only [hl, if_false]
    exact ⟨_, rfl, rfl⟩

/-- While the header lines of a request arrive, and before its blank line is complete,
`process_read` answers `NO_REQUEST` and stays in the `HEADER` state. -/
theorem process_read_headers_incomplete (env : Env) (users : Users) :
    ∀ (hs : List (List Nat)) (c : http_conn) (pre suf : List Nat),
    c.m_check_state = CHECK_STATE.CHECK_STATE_HEADER →
    c.m_start_line = c.m_checked_idx → c.m_checked_idx = c.m_read_idx →
    c.m_read_idx + (crlf_lines hs).length + 2 ≤ READ_BUFFER_SIZE →
    (∀ h ∈ hs, h ≠ [] ∧ ∀ b ∈ h, b ≠ 0 ∧ b ≠ 13 ∧ b ≠ 10) →
    pre ++ suf = crlf_lines hs ++ [13, 10] → suf ≠ [] →
    ∃ c1, process_read_run env LINE_STATUS.LINE_OK users (c.received pre)
        = Except.ok (HTTP_CODE.NO_REQUEST, c1, users)
      ∧ c1.m_check_state = CHECK_STATE.CHECK_STATE_HEADER := by
  intro hs
  induction hs with
  | nil =>
    intro c pre suf hst hsl hr hb hwf h hsuf
    have hlen : pre.length < ([] : List Nat).length + 2 := by
      have := congrArg List.length h
      simp only [crlf_lines, List.length_append, List.length_cons, List.length_nil] at this
      have : 0 < suf.length := List.length_pos.mpr hsuf
      simp only [List.length_nil]
      omega
    have hop := parse_line_received_open c [] [] pre suf hr (by simp) (by simpa [crlf_lines] using h)
      hlen
    have hcs : (c.received pre).m_check_state ≠ CHECK_STATE.CHECK_STATE_CONTENT := by
      show c.m_check_state ≠ _
      rw [hst]; decide
    refine ⟨_, process_read_run_of_scan_open env users _ _ hcs (by rw [hop]; decide), ?_⟩
    rw [parse_line_check_state]
    exact hst
  | cons l t ih =>
    intro c pre suf hst hsl hr hb hwf h hsuf
    have hl := hwf l (List.mem_cons_self _ _)
    have hcs : (c.received pre).m_check_state ≠ CHECK_STATE.CHECK_STATE_CONTENT := by
      show c.m_check_state ≠ _
      rw [hst]; decide
    simp only [crlf_lines, List.length_append, List.length_cons, List.length_nil] at hb
    by_cases hlen : pre.length < l.length + 2
    · have hop := parse_line_received_open c l (crlf_lines t ++ [13, 10]) pre suf hr
        (fun b hb => ⟨(hl.2 b hb).2.1, (hl.2 b hb).2.2⟩)
        (by rw [h]; simp [crlf_lines]) hlen
      refine ⟨_, process_read_run_of_scan_open env users _ _ hcs (by rw [hop]; decide), ?_⟩
      rw [parse_line_check_state]
      exact hst
    · obtain ⟨pre', hpre, hrest⟩ := append_split (A := l ++ [13, 10])
        (B := crlf_lines t ++ [13, 10]) (by rw [h]; simp [crlf_lines]) (by simp; omega)
      obtain ⟨c', hrun, hst', hsl', hr', hrd'⟩ := process_read_line_step env users c l
        (by rw [hst]; decide) hr (by push_cast at hb; omega) hl.2
        (fun c2 h1 h2 _ h4 => process_read_body_header_line env users c2 l (by rw [h1]; exact hst)
          hl.1 (by rw [h2, hsl, hr]; exact h4 (by rw [hsl, hr])))
      have hA := process_read_run_received env users pre' LINE_STATUS.LINE_OK
        (c.received (l ++ [13, 10]))
        (by show c.m_start_line ≤ c.m_checked_idx; omega)
        (by
          show c.m_read_idx + ((l ++ [13, 10]).length : Int) ≤ READ_BUFFER_SIZE
          simp only [List.length_append, List.length_cons, List.length_nil]
          push_cast at hb ⊢
          omega)
        c' users hrun (by rw [hst']; decide)
      rw [received_append, ← hpre] at hA
      rw [hA]
      exact ih c' pre' suf hst' hsl' hr' (by rw [hrd']; push_cast at hb; omega)
        (fun h hh => hwf h (List.mem_cons_of_mem _ hh)) hrest hsuf

/-- While a well-formed request without body arrives, and before its blank line is complete,
`process_read` answers `NO_REQUEST` and has not reached the `CONTENT` state. -/
theorem process_read_request_incomplete (env : Env) (users : Users) (r : Request)
    (hwf : r.well_formed) (c : http_conn) (pre suf : List Nat)
    (hst : c.m_check_state = CHECK_STATE.CHECK_STATE_REQUESTLINE)
    (hsl : c.m_start_line = c.m_checked_idx) (hr : c.m_checked_idx = c.m_read_idx)
    (hb : c.m_read_idx + r.octets.length ≤ READ_BUFFER_SIZE)
    (h : pre ++ suf = r.octets) (hsuf : suf ≠ []) :
    ∃ c1, process_read_run env LINE_STATUS.LINE_OK users (c.received pre)
        = Except.ok (HTTP_CODE.NO_REQUEST, c1, users)
      ∧ c1.m_check_state ≠ CHECK_STATE.CHECK_STATE_CONTENT := by
  obtain ⟨hM, hpath, hhead, _⟩ := hwf
  have hcs : (c.received pre).m_check_state ≠ CHECK_STATE.CHECK_STATE_CONTENT := by
    show c.m_check_state ≠ _
    rw [hst]; decide
  have hline : ∀ b ∈ r.line, b ≠ 0 ∧ b ≠ 13 ∧ b ≠ 10 := by
    intro b hb
    simp only [Request.line, List.mem_append, List.mem_cons, List.mem_nil_iff, or_false] at hb
    rcases hb with hb | hb | (hb | hb) | hb
    · rw [bytes_GET, bytes_POST] at hM
      rcases hM with hM | hM <;> rw [hM] at hb <;> simp at hb <;> omega
    · omega
    · omega
    · have := hpath b hb
      exact ⟨this.1, this.2.1, this.2.2.1⟩
    · omega
  simp only [Request.octets, List.length_append, List.length_cons, List.length_nil] at hb
  by_cases hlen : pre.length < r.line.length + 2
  · have hop := parse_line_received_open c r.line (crlf_lines r.headers ++ [13, 10]) pre suf hr
      (fun b hb => ⟨(hline b hb).2.1, (hline b hb).2.2⟩)
      (by rw [h]; simp [Request.octets]) hlen
    refine ⟨_, process_read_run_of_scan_open env users _ _ hcs (by rw [hop]; decide), ?_⟩
    rw [parse_line_check_state]
    exact hcs
  · obtain ⟨pre', hpre, hrest⟩ := append_split (A := r.line ++ [13, 10])
      (B := crlf_lines r.headers ++ [13, 10]) (by rw [h]; rfl) (by simp; omega)
    obtain ⟨c', hrun, hst', hsl', hr', hrd'⟩ := process_read_line_step env users c r.line
      (by rw [hst]; decide) hr (by push_cast at hb; omega) hline
      (fun c2 h1 h2 h3 h4 => by
        have hstr := h4 (by rw [hsl, hr])
        have hp := parse_request_line_origin { c2 with m_start_line := c2.m_checked_idx }
          c2.m_start_line r.method r.path hM
          (fun b hb => ⟨(hpath b hb).2.2.2.1, (hpath b hb).2.2.2.2.1⟩)
          (by rw [h2, hsl, hr]; exact hstr)
          (by
            rw [h2, hsl, hr]
            have : (r.line.length : Int) = ((r.method ++ 32 :: (47 :: r.path ++ 32 ::
                [72, 84, 84, 80, 47, 49, 46, 49])).length : Int) := rfl
            rw [← this]
            push_cast at hb
            omega)
        obtain ⟨c3, hp3, hs3⟩ := hp
        refine ⟨c3, ?_, hs3⟩
        rw [process_read_body_requestline env users _ c2 (by rw [h1]; exact hst), hp3]
        simp)
    have hA := process_read_run_received env users pre' LINE_STATUS.LINE_OK
      (c.received (r.line ++ [13, 10]))
      (by show c.m_start_line ≤ c.m_checked_idx; omega)
      (by
        show c.m_read_idx + ((r.line ++ [13, 10]).length : Int) ≤ READ_BUFFER_SIZE
        simp only [List.length_append, List.length_cons, List.length_nil]
        push_cast at hb ⊢
        omega)
      c' users hrun (by rw [hst']; decide)
    rw [received_append, ← hpre] at hA
    rw [hA]
    obtain ⟨c1, h1, h2⟩ := process_read_headers_incomplete env users r.headers c' pre' suf hst' hsl'
      hr' (by rw [hrd']; push_cast at hb; omega)
      (fun h hh => ⟨(hhead h hh).1, fun b hb =>
        ⟨((hhead h hh).2 b hb).1, ((hhead h hh).2 b hb).2.1, ((hhead h hh).2 b hb).2.2.1⟩⟩)
      hrest hsuf
    exact ⟨c1, h1, by rw [h2]; decide⟩

/-! ## The driver and a malformed line (C1) -/

/-- Whenever `parse_line` reports `LINE_BAD` outside the `CONTENT` state, `process_read`
answers `NO_REQUEST`, the code of an incomplete request. -/
theorem process_read_line_bad (env : Env) (users : Users) (c : http_conn)
    (hstate : c.m_check_state ≠ CHECK_STATE.CHECK_STATE_CONTENT)
    (hbad : c.parse_line.1 = LINE_STATUS.LINE_BAD) :
    c.process_read env users = Except.ok (HTTP_CODE.NO_REQUEST, c.parse_line.2, users) := by
  rw [process_read_eq_run]
  exact process_read_run_of_scan_open env users _ c hstate (by rw [hbad]; decide)

/-- A successful level-triggered `read_once`: the bytes are stored and the cursor advanced. -/
theorem read_once_LT_data (c : http_conn) (d : List Nat) (rest : List RecvResult)
    (hmode : c.m_TRIGMode = 0) (hidx : 0 ≤ c.m_read_idx) (hpos : 0 < d.length)
    (hfit : c.m_read_idx + d.length ≤ READ_BUFFER_SIZE) :
    c.read_once (RecvResult.data d :: rest) = Except.ok (true, c.received d) := by
  have h1 : ¬ (c.m_read_idx ≥ READ_BUFFER_SIZE) := by
    have : (0 : Int) < (d.length : Int) := by exact_mod_cast hpos
    omega
  have h2 : ¬ (c.m_read_idx < 0 ∨ READ_BUFFER_SIZE < c.m_read_idx + d.length) := by omega
  have h3 : ¬ ((d.length : Int) ≤ 0) := by
    have : (0 : Int) < (d.length : Int) := by exact_mod_cast hpos
    omega
  simp [read_once, h1, hmode, recv, h2, RecvResult.ret, h3, received]

/-- C1 (code_bug): a request line that ends in a bare line feed makes `parse_line` report
`LINE_BAD` in the `REQUESTLINE` state, and a header line with a stray carriage return makes it
report `LINE_BAD` in the `HEADER` state; in both cases `process_read` answers `NO_REQUEST`, the
code of an incomplete request, and not `BAD_REQUEST`. -/
theorem process_read_line_bad_gives_no_request (env : Env) (users : Users) :
    (((fresh 0 Scenario.doc_root).received Scenario.request_bare_lf).parse_line.1
        = LINE_STATUS.LINE_BAD
      ∧ (((fresh 0 Scenario.doc_root).received Scenario.request_bare_lf).process_read env users
          ).toOption.map (fun r => r.1) = some HTTP_CODE.NO_REQUEST)
    ∧ ((((fresh 0 Scenario.doc_root).received Scenario.request_cr_in_header).process_read
          Scenario.env_ok Scenario.no_users).toOption.map
          (fun r => (r.1, r.2.1.m_check_state, r.2.1.parse_line.1))
        = some (HTTP_CODE.NO_REQUEST, CHECK_STATE.CHECK_STATE_HEADER, LINE_STATUS.LINE_BAD)) := by
  refine ⟨⟨by decide, ?_⟩, by decide⟩
  rw [process_read_line_bad env users _ (by decide) (by decide)]
  rfl

/-! ## The response to a missing file (C2) -/

/-- C2 (code_bug): for the outcome `NO_RESOURCE` the function `process_write` returns false and
leaves the connection, its write buffer included, as it was: no 404 response is built. -/
theorem process_write_no_resource (c : http_conn) :
    c.process_write HTTP_CODE.NO_RESOURCE = (false, c) := rfl

/-- The request `GET /nope.html HTTP/1.1` for a file that does not exist yields `NO_RESOURCE`. -/
theorem process_read_missing_file :
    (((fresh 0 Scenario.doc_root).received Scenario.request_missing_file).process_read
      Scenario.env_no_file Scenario.no_users).toOption.map (fun r => (r.1, r.2.1.real_file_str))
      = some (HTTP_CODE.NO_RESOURCE, bytes "/srv/root/nope.html") := by
  decide!

/-! ## Registration and login (C3, C4, C5) -/

/-- C3 (code_bug): the registration request with body `user=alice&passwd=s3cret` on an empty
users map, the INSERT succeeding, resolves to `/log.html` but leaves the users map with the single
entry `alice ↦ cret`: the password is read from index `i + 10`, two bytes past the `=` of
`&passwd=`. -/
theorem register_alice_stores_cret :
    (((fresh 0 Scenario.doc_root).received Scenario.request_register).process_read
      Scenario.env_ok Scenario.no_users).toOption.map
        (fun r => (r.1, r.2.1.url_str, r.2.1.body_str, r.2.2))
      = some (HTTP_CODE.FILE_REQUEST, some (bytes "/log.html"),
          some (bytes "user=alice&passwd=s3cret"), [(bytes "alice", bytes "cret")]) := by
  decide!

/-- C4 (code_bug): the registration of `alice` with password `s3cret` leaves the users map
`[alice ↦ cret]`, and with that map the login request with body `user=alice&passwd=XYcret`
resolves to `/welcome.html` although the password differs from the registered one. -/
theorem login_other_password_is_welcomed :
    ((((fresh 0 Scenario.doc_root).received Scenario.request_register).process_read
      Scenario.env_ok Scenario.no_users).toOption.map (fun r => r.2.2)
      = some [(bytes "alice", bytes "cret")])
    ∧ ((((fresh 0 Scenario.doc_root).received Scenario.request_login_other).process_read
      Scenario.env_ok [(bytes "alice", bytes "cret")]).toOption.map
        (fun r => (r.1, r.2.1.url_str, r.2.1.body_str))
      = some (HTTP_CODE.FILE_REQUEST, some (bytes "/welcome.html"),
          some (bytes "user=alice&passwd=XYcret"))) := by
  constructor
  · decide!
  · decide!

/-- C5 (code_bug): when the INSERT fails, the registration request resolves to
`/registerError.html` and the users map, empty before, has nevertheless received an entry. -/
theorem register_failed_insert_mutates_users :
    (((fresh 0 Scenario.doc_root).received Scenario.request_register).process_read
      Scenario.env_db_down Scenario.no_users).toOption.map
        (fun r => (r.1, r.2.1.url_str, r.2.2))
      = some (HTTP_CODE.FILE_REQUEST, some (bytes "/registerError.html"),
          [(bytes "alice", bytes "cret")]) := by
  decide!

/-! ## The cursors of the read buffer (C6) -/

/-- C6 (code_bug): on a freshly initialised connection in LT mode, a `recv` that returns -1 makes
`read_once` return false with `m_read_idx = -1`, below zero and below `m_checked_idx = 0`. -/
theorem read_once_LT_failed_recv (c0 : http_conn) (again : Bool) :
    (http_conn.init { c0 with m_TRIGMode := 0 }).read_once [RecvResult.failed again]
      = Except.ok (false, { http_conn.init { c0 with m_TRIGMode := 0 } with m_read_idx := -1 }) := by
  simp [read_once, init, recv, RecvResult.ret, READ_BUFFER_SIZE]

/-- C8 (confirmed): a well-formed request without body is cut anywhere before its last byte into
`pre` and `suf`.  On a freshly initialised connection that has received `pre`, `process_read`
answers `NO_REQUEST`; run again on the connection it left, once `suf` has arrived, it ends (never
for lack of fuel) with exactly the result, connection state and users map that `process_read`
gives when the whole request has arrived at once: same outcome, method, URL, host, keep-alive
flag and content length. -/
theorem process_read_split_request (env : Env) (users : Users) (TRIGMode : Int)
    (root : List Nat) (r : Request) (hwf : r.well_formed) (pre suf : List Nat)
    (h : pre ++ suf = r.octets) (hsuf : suf ≠ []) :
    ∃ c1, ((fresh TRIGMode root).received pre).process_read env users
        = Except.ok (HTTP_CODE.NO_REQUEST, c1, users)
      ∧ (c1.received suf).process_read env users
        = ((fresh TRIGMode root).received (pre ++ suf)).process_read env users
      ∧ (c1.received suf).process_read env users ≠ Except.error Fault.fuel := by
  have hfit := hwf.2.2.2
  obtain ⟨c1, h1, h2⟩ := process_read_request_incomplete env users r hwf (fresh TRIGMode root) pre suf
    rfl rfl rfl (by
      show (0 : Int) + _ ≤ _
      omega) h hsuf
  refine ⟨c1, by rw [process_read_eq_run]; exact h1, ?_, process_read_total _ _ _⟩
  rw [process_read_eq_run, process_read_eq_run, ← received_append]
  refine (process_read_run_received env users suf LINE_STATUS.LINE_OK
    ((fresh TRIGMode root).received pre) (le_refl _) ?_ c1 users h1 h2).symm
  show (0 : Int) + (pre.length : Int) ≤ READ_BUFFER_SIZE
  have := congrArg List.length h
  simp only [List.length_append] at this
  omega

theorem process_read_split_request_witness :
    Scenario.request_get_root.well_formed
    ∧ bytes "GET / HTTP/1.1\r" ++ bytes "\nHost: x\r\n\r\n" = Scenario.request_get_root.octets
    ∧ bytes "\nHost: x\r\n\r\n" ≠ []
    ∧ ∃ c1, ((fresh 0 Scenario.doc_root).received (bytes "GET / HTTP/1.1\r")).process_read
          Scenario.env_ok Scenario.no_users
        = Except.ok (HTTP_CODE.NO_REQUEST, c1, Scenario.no_users)
      ∧ (c1.received (bytes "\nHost: x\r\n\r\n")).process_read Scenario.env_ok Scenario.no_users
        = ((fresh 0 Scenario.doc_root).received
            (bytes "GET / HTTP/1.1\r" ++ bytes "\nHost: x\r\n\r\n")).process_read
            Scenario.env_ok Scenario.no_users
      ∧ (c1.received (bytes "\nHost: x\r\n\r\n")).process_read Scenario.env_ok Scenario.no_users
        ≠ Except.error Fault.fuel :=
  ⟨by decide, by decide, by decide,
    process_read_split_request Scenario.env_ok Scenario.no_users 0 Scenario.doc_root
      Scenario.request_get_root (by decide) _ _ (by decide) (by decide)⟩

/-! ## A body that arrives in pieces (C7), and request lines the parser accepts (C9, C10) -/

theorem process_read_body_content (env : Env) (users : Users) (ls : LINE_STATUS)
    (c : http_conn) (h : c.m_check_state = CHECK_STATE.CHECK_STATE_CONTENT) :
    process_read_body env users ls c =
      match ({ c with m_start_line := c.m_checked_idx } : http_conn).parse_content
          c.m_start_line with
      | Except.error f => Except.error f
      | Except.ok (ret, c) =>
        if ret = HTTP_CODE.GET_REQUEST then
          match c.do_request env users with
          | Except.error f => Except.error f
          | Except.ok (code, c, users) => Except.ok (LoopStep.ret code c users)
        else Except.ok (LoopStep.again LINE_STATUS.LINE_OPEN c) := by
  cases c
  simp only at h
  subst h
  rfl

/-- In the `CONTENT` state, while fewer than `m_content_length` bytes lie behind
`m_checked_idx`, `process_read` answers `NO_REQUEST` and lets `parse_line` scan the bytes of the
body, which moves `m_checked_idx` on. -/
theorem process_read_content_short (env : Env) (users : Users) (c : http_conn)
    (hst : c.m_check_state = CHECK_STATE.CHECK_STATE_CONTENT)
    (hshort : c.m_read_idx < c.m_checked_idx + c.m_content_length)
    (hpl : (parse_line { c with m_start_line := c.m_checked_idx }).1 ≠ LINE_STATUS.LINE_OK) :
    c.process_read env users
      = Except.ok (HTTP_CODE.NO_REQUEST,
          (parse_line { c with m_start_line := c.m_checked_idx }).2, users) := by
  have hcond : process_read_cond LINE_STATUS.LINE_OK c = (LINE_STATUS.LINE_OK, c) := by
    unfold process_read_cond
    simp only [hst, and_self, if_true]
  have hpc : ({ c with m_start_line := c.m_checked_idx } : http_conn).parse_content c.m_start_line
      = Except.ok (HTTP_CODE.NO_REQUEST, { c with m_start_line := c.m_checked_idx }) := by
    unfold parse_content
    have : ¬ (c.m_read_idx ≥ c.m_checked_idx + c.m_content_length) := by omega
    simp only [this, if_false]
  have hbody : process_read_body env users LINE_STATUS.LINE_OK c
      = Except.ok (LoopStep.again LINE_STATUS.LINE_OPEN
          { c with m_start_line := c.m_checked_idx }) := by
    rw [process_read_body_content env users _ c hst, hpc]
    simp
  have hcond2 : process_read_cond LINE_STATUS.LINE_OPEN { c with m_start_line := c.m_checked_idx }
      = parse_line { c with m_start_line := c.m_checked_idx } := by
    unfold process_read_cond
    simp
  rw [process_read_eq_run, process_read_run_unfold, hcond]
  simp only [ne_eq, not_true_eq_false, if_false, hbody]
  rw [process_read_run_unfold, hcond2]
  simp only [hpl, ne_eq, not_false_eq_true, if_true]

/-- The registration request cut after 14 of its 24 body bytes: what `process_read` leaves. -/
theorem process_read_register_part1 :
    (((fresh 0 Scenario.doc_root).received Scenario.request_register_part1).process_read
      Scenario.env_ok Scenario.no_users).toOption.map
        (fun r => ((r.1, r.2.1.m_check_state, r.2.1.m_checked_idx, r.2.1.m_read_idx),
          (r.2.1.m_content_length, r.2.1.m_string, r.2.2)))
      = some ((HTTP_CODE.NO_REQUEST, CHECK_STATE.CHECK_STATE_CONTENT, 64, 64), (24, none, [])) := by
  decide!

/-- C7 (code_bug): the registration request with `Content-Length: 24` arrives in two reads, cut
after 14 body bytes.  After the first read `process_read` answers `NO_REQUEST`.  After the second
read the buffer holds the 50 bytes of the head and all 24 body bytes, and `process_read` answers
`NO_REQUEST` again, with `m_string` unset: the request is not dispatched. -/
theorem process_read_split_body_not_dispatched :
    ∃ c1 c2,
      ((fresh 0 Scenario.doc_root).received Scenario.request_register_part1).process_read
          Scenario.env_ok Scenario.no_users
        = Except.ok (HTTP_CODE.NO_REQUEST, c1, Scenario.no_users)
      ∧ (c1.received Scenario.request_register_part2).process_read Scenario.env_ok Scenario.no_users
        = Except.ok (HTTP_CODE.NO_REQUEST, c2, Scenario.no_users)
      ∧ c2.m_check_state = CHECK_STATE.CHECK_STATE_CONTENT
      ∧ c2.m_content_length = 24
      ∧ c2.m_read_idx = 50 + 24
      ∧ c2.m_string = none := by
  have h1 := process_read_register_part1
  cases hres : ((fresh 0 Scenario.doc_root).received Scenario.request_register_part1).process_read
      Scenario.env_ok Scenario.no_users with
  | error f => rw [hres] at h1; simp [Except.toOption] at h1
  | ok r =>
    obtain ⟨code, c1, u1⟩ := r
    rw [hres] at h1
    simp only [Except.toOption, Option.map_some', Option.some.injEq, Prod.mk.injEq] at h1
    obtain ⟨⟨rfl, hst, hck, hrd⟩, hcl, hstr, rfl⟩ := h1
    have hlen : (Scenario.request_register_part2.length : Int) = 10 := by decide
    have hst' : (c1.received Scenario.request_register_part2).m_check_state
        = CHECK_STATE.CHECK_STATE_CONTENT := hst
    have hck' : (c1.received Scenario.request_register_part2).m_checked_idx = 64 := hck
    have hrd' : (c1.received Scenario.request_register_part2).m_read_idx = 74 := by
      show c1.m_read_idx + _ = _
      rw [hrd, hlen]; rfl
    have hcl' : (c1.received Scenario.request_register_part2).m_content_length = 24 := hcl
    have hopen : (parse_line { c1.received Scenario.request_register_part2 with
        m_start_line := (c1.received Scenario.request_register_part2).m_checked_idx }).1
        = LINE_STATUS.LINE_OPEN := by
      apply parse_line_open_clean _ 10
      · show (c1.received Scenario.request_register_part2).m_checked_idx + ((10 : Nat) : Int)
          = (c1.received Scenario.request_register_part2).m_read_idx
        rw [hck', hrd']; rfl
      · intro k hk
        show (c1.received Scenario.request_register_part2).m_read_buf
              ((c1.received Scenario.request_register_part2).m_checked_idx + k) ≠ 13
            ∧ (c1.received Scenario.request_register_part2).m_read_buf
              ((c1.received Scenario.request_register_part2).m_checked_idx + k) ≠ 10
        rw [hck', ← hrd, received_buf_at c1 _ k (by
          have : Scenario.request_register_part2.length = 10 := by decide
          omega)]
        have hall : ∀ k < 10, Scenario.request_register_part2.getD k 0 ≠ 13
            ∧ Scenario.request_register_part2.getD k 0 ≠ 10 := by decide
        exact hall k hk
    refine ⟨c1, _, rfl, process_read_content_short Scenario.env_ok Scenario.no_users _ hst'
      (by rw [hrd', hck', hcl']; decide) (by rw [hopen]; decide), ?_, ?_, ?_, ?_⟩
    · rw [parse_line_check_state]; exact hst
    · rw [parse_line_content_length]; exact hcl
    · rw [parse_line_read_idx]; exact hrd'
    · rw [parse_line_fields]; exact hstr

/-- C9 (counterexample): the request line `get /index.html http/1.1`, whose method token is not
`GET` or `POST` and whose version string is not `HTTP/1.1`, is accepted: `parse_request_line`
answers `NO_REQUEST`, sets the method `GET` and moves to the `HEADER` state. -/
theorem parse_request_line_accepts_lower_case :
    method_token (bytes "get /index.html http/1.1") ≠ bytes "GET"
    ∧ method_token (bytes "get /index.html http/1.1") ≠ bytes "POST"
    ∧ version_string (bytes "get /index.html http/1.1") ≠ bytes "HTTP/1.1"
    ∧ ((Scenario.conn_after_line (bytes "get /index.html http/1.1")).parse_request_line 0
        ).toOption.map (fun r => (r.1, r.2.m_check_state, r.2.m_method, r.2.url_str))
      = some (HTTP_CODE.NO_REQUEST, CHECK_STATE.CHECK_STATE_HEADER, METHOD.GET,
          some (bytes "/index.html")) := by
  decide!

/-- C10 (counterexample): for the request line `GET http://x/ HTTP/1.1` the parsed URL is
`/judge.html`, not the substring `/` that starts at the first `/` after the authority; and for
`GET http://x HTTP/1.1`, where no `/` follows the authority, `parse_request_line` does not answer
`BAD_REQUEST` but passes the null pointer to `strncasecmp`. -/
theorem parse_request_line_absolute_url_root :
    ((Scenario.conn_after_line (bytes "GET http://x/ HTTP/1.1")).parse_request_line 0
        ).toOption.map (fun r => (r.1, r.2.url_str))
      = some (HTTP_CODE.NO_REQUEST, some (bytes "/judge.html"))
    ∧ fault_of ((Scenario.conn_after_line (bytes "GET http://x HTTP/1.1")).parse_request_line 0)
      = some Fault.null_pointer := by
  decide!

theorem parse_request_line_tokens_witness :
    HasStr (Scenario.conn_after_line (bytes "DELETE /x HTTP/1.0")).m_read_buf 0
      (bytes "DELETE /x HTTP/1.0")
    ∧ (((strcasecmp_eq (method_token (bytes "DELETE /x HTTP/1.0")) (bytes "GET") = false
          ∧ strcasecmp_eq (method_token (bytes "DELETE /x HTTP/1.0")) (bytes "POST") = false) →
        ∃ c', (Scenario.conn_after_line (bytes "DELETE /x HTTP/1.0")).parse_request_line 0
          = Except.ok (HTTP_CODE.BAD_REQUEST, c'))
      ∧ (strcasecmp_eq (version_string (bytes "DELETE /x HTTP/1.0")) (bytes "HTTP/1.1") = false →
        ∃ c', (Scenario.conn_after_line (bytes "DELETE /x HTTP/1.0")).parse_request_line 0
          = Except.ok (HTTP_CODE.BAD_REQUEST, c'))
      ∧ (∀ code c', (Scenario.conn_after_line (bytes "DELETE /x HTTP/1.0")).parse_request_line 0
            = Except.ok (code, c') →
          (Scenario.conn_after_line (bytes "DELETE /x HTTP/1.0")).m_check_state
            = CHECK_STATE.CHECK_STATE_REQUESTLINE →
          c'.m_check_state = CHECK_STATE.CHECK_STATE_HEADER →
          (strcasecmp_eq (method_token (bytes "DELETE /x HTTP/1.0")) (bytes "GET") = true
            ∨ strcasecmp_eq (method_token (bytes "DELETE /x HTTP/1.0")) (bytes "POST") = true)
          ∧ strcasecmp_eq (version_string (bytes "DELETE /x HTTP/1.0")) (bytes "HTTP/1.1") = true
          ∧ ∃ u, c'.m_url = some u ∧ c'.m_read_buf u = 47)) := by
  have h : HasStr (Scenario.conn_after_line (bytes "DELETE /x HTTP/1.0")).m_read_buf 0
      (bytes "DELETE /x HTTP/1.0") := ⟨by decide!, by decide!, by decide!, by decide!⟩
  exact ⟨h, parse_request_line_tokens _ 0 _ h⟩

theorem parse_request_line_absolute_url_witness :
    (bytes "GET" = bytes "GET" ∨ bytes "GET" = bytes "POST")
    ∧ (bytes "http://" = bytes "http://" ∨ bytes "http://" = bytes "https://")
    ∧ (∀ b ∈ bytes "example.org", b ≠ 47 ∧ b ≠ 32 ∧ b ≠ 9)
    ∧ (∀ b ∈ bytes "/a/b.html", b ≠ 32 ∧ b ≠ 9)
    ∧ bytes "GET http://example.org/a/b.html HTTP/1.1"
        = bytes "GET" ++ 32 :: (bytes "http://" ++ bytes "example.org" ++ bytes "/a/b.html"
            ++ 32 :: bytes "HTTP/1.1")
    ∧ HasStr (Scenario.conn_after_line (bytes "GET http://example.org/a/b.html HTTP/1.1")).m_read_buf
        0 (bytes "GET http://example.org/a/b.html HTTP/1.1")
    ∧ (0 : Int) + (bytes "GET http://example.org/a/b.html HTTP/1.1").length + 1 < READ_BUFFER_SIZE
    ∧ ((∀ rest, bytes "/a/b.html" = 47 :: rest →
        ∃ c', (Scenario.conn_after_line
              (bytes "GET http://example.org/a/b.html HTTP/1.1")).parse_request_line 0
            = Except.ok (HTTP_CODE.NO_REQUEST, c')
          ∧ c'.m_check_state = CHECK_STATE.CHECK_STATE_HEADER
          ∧ c'.url_str = some (if rest = [] then bytes "/judge.html" else bytes "/a/b.html"))
      ∧ (bytes "/a/b.html" = [] → bytes "http://" = bytes "https://" →
        ∃ c', (Scenario.conn_after_line
              (bytes "GET http://example.org/a/b.html HTTP/1.1")).parse_request_line 0
            = Except.ok (HTTP_CODE.BAD_REQUEST, c'))) := by
  have h : HasStr
      (Scenario.conn_after_line (bytes "GET http://example.org/a/b.html HTTP/1.1")).m_read_buf
      0 (bytes "GET http://example.org/a/b.html HTTP/1.1") :=
    ⟨by decide!, by decide!, by decide!, by decide!⟩
  exact ⟨Or.inl rfl, Or.inl rfl, by decide, by decide, by decide!, h, by decide!,
    parse_request_line_absolute_url _ 0 (bytes "GET") (bytes "http://") (bytes "example.org")
      (bytes "/a/b.html") (bytes "GET http://example.org/a/b.html HTTP/1.1")
      (Or.inl rfl) (Or.inl rfl) (by decide) (by decide) (by decide!) h (by decide!)⟩

/-! ## The outcome of `do_request` (C16, C17) -/

/-- When `do_request` returns, it returns what `do_request_stat` makes of a connection that holds
the same file name. -/
theorem do_request_ok_stat {env : Env} {users users' : Users} {c c' : http_conn}
    {code : HTTP_CODE} (h : c.do_request env users = Except.ok (code, c', users')) :
    ∃ c1 u1, do_request_stat env u1 c1 = (code, c', users') := by
  unfold do_request at h
  simp only at h
  repeat' split at h
  all_goals first
    | (simp only [Except.ok.injEq] at h; exact ⟨_, _, h⟩)
    | simp at h

theorem do_request_stat_real_file (env : Env) (users : Users) (c : http_conn) :
    (do_request_stat env users c).2.1.m_real_file = c.m_real_file := by
  unfold do_request_stat
  simp only
  repeat' split
  all_goals rfl

/-- C16 (code_bug): a request for an existing, world-readable regular file whose mapping fails
(the file is empty, so `mmap` is called with length 0 and returns `MAP_FAILED`, the address -1).
The outcome of `process_read` is `FILE_REQUEST`, not `INTERNAL_ERROR`, and `m_file_address` holds
the address -1. -/
theorem do_request_failed_mmap_is_file_request :
    (((fresh 0 Scenario.doc_root).received Scenario.request_index).process_read
      Scenario.env_mmap_fails Scenario.no_users).toOption.map
        (fun r => (r.1, r.2.1.m_file_address, r.2.1.real_file_str))
      = some (HTTP_CODE.FILE_REQUEST, -1, bytes "/srv/root/index.html") := by
  decide!

/-- C17 (confirmed): whenever `do_request` returns, its outcome follows from what `stat` says
about the file name it has built, in this order: no such file gives `NO_RESOURCE`; a file that is
not world-readable gives `FORBIDDEN_REQUEST`; a world-readable directory gives `BAD_REQUEST`; and
any other file gives `FILE_REQUEST`, with `m_file_address` the address that `mmap` returned and
`m_file_stat` the result of `stat`. -/
theorem do_request_outcome (env : Env) (users users' : Users) (c c' : http_conn)
    (code : HTTP_CODE) (h : c.do_request env users = Except.ok (code, c', users')) :
    (env.stat c'.real_file_str = none → code = HTTP_CODE.NO_RESOURCE)
    ∧ ∀ st, env.stat c'.real_file_str = some st →
        (st.S_IROTH = false → code = HTTP_CODE.FORBIDDEN_REQUEST)
        ∧ (st.S_IROTH = true → st.S_ISDIR = true → code = HTTP_CODE.BAD_REQUEST)
        ∧ (st.S_IROTH = true → st.S_ISDIR = false →
            code = HTTP_CODE.FILE_REQUEST ∧ c'.m_file_address = env.mmap c'.real_file_str
              ∧ c'.m_file_stat = st) := by
  obtain ⟨c1, u1, h1⟩ := do_request_ok_stat h
  have hrf : c'.real_file_str = cstr FILENAME_LEN c1.m_real_file 0 := by
    have := do_request_stat_real_file env u1 c1
    rw [h1] at this
    unfold real_file_str
    rw [this]
  rw [hrf]
  unfold do_request_stat at h1
  simp only at h1
  cases hst : env.stat (cstr FILENAME_LEN c1.m_real_file 0) with
  | none =>
    rw [hst] at h1
    simp only [Prod.mk.injEq] at h1
    exact ⟨fun _ => h1.1.symm, fun st hs => by simp at hs⟩
  | some st0 =>
    rw [hst] at h1
    simp only at h1
    refine ⟨fun hn => by simp at hn, ?_⟩
    intro st hs
    simp only [Option.some.injEq] at hs
    subst hs
    by_cases hr : st0.S_IROTH = true
    · by_cases hd : st0.S_ISDIR = true
      · simp only [hr, hd, not_true_eq_false, if_false, if_true, Prod.mk.injEq] at h1
        exact ⟨fun hf => by simp [hr] at hf, fun _ _ => h1.1.symm, fun _ hf => by simp [hd] at hf⟩
      · simp only [hr, hd, not_true_eq_false, if_false, Bool.false_eq_true,
          Prod.mk.injEq] at h1
        obtain ⟨h2, h3, _⟩ := h1
        refine ⟨fun hf => by simp [hr] at hf, fun _ hf => absurd hf hd, fun _ _ => ?_⟩
        subst h3
        exact ⟨h2.symm, rfl, rfl⟩
    · have hr' : st0.S_IROTH = false := by simpa using hr
      simp only [hr', Bool.false_eq_true, not_false_eq_true, if_true, Prod.mk.injEq] at h1
      exact ⟨fun _ => h1.1.symm, fun hf => absurd hf hr, fun hf => absurd hf hr⟩

theorem do_request_outcome_witness :
    ∃ code c' users',
      (Scenario.conn_parsed (bytes "GET /index.html HTTP/1.1")).do_request Scenario.env_ok
          Scenario.no_users = Except.ok (code, c', users')
      ∧ (Scenario.env_ok.stat c'.real_file_str = none → code = HTTP_CODE.NO_RESOURCE)
      ∧ ∀ st, Scenario.env_ok.stat c'.real_file_str = some st →
          (st.S_IROTH = false → code = HTTP_CODE.FORBIDDEN_REQUEST)
          ∧ (st.S_IROTH = true → st.S_ISDIR = true → code = HTTP_CODE.BAD_REQUEST)
          ∧ (st.S_IROTH = true → st.S_ISDIR = false →
              code = HTTP_CODE.FILE_REQUEST
                ∧ c'.m_file_address = Scenario.env_ok.mmap c'.real_file_str
                ∧ c'.m_file_stat = st) := by
  have hsome : ((Scenario.conn_parsed (bytes "GET /index.html HTTP/1.1")).do_request
      Scenario.env_ok Scenario.no_users).toOption.isSome = true := by decide!
  cases h : (Scenario.conn_parsed (bytes "GET /index.html HTTP/1.1")).do_request Scenario.env_ok
      Scenario.no_users with
  | error f => rw [h] at hsome; simp [Except.toOption] at hsome
  | ok r =>
    obtain ⟨code, c', users'⟩ := r
    exact ⟨code, c', users', rfl, do_request_outcome _ _ _ _ _ _ h⟩

end http_conn

/-! ## The segments set up by `process_write` (C14) -/

theorem to_int32_of_range (x : Int) (h1 : -2147483648 ≤ x) (h2 : x < 2147483648) :
    to_int32 x = x := by
  unfold to_int32
  omega

namespace http_conn

/-- The function `add_response` changes the write buffer and its cursor only. -/
theorem add_response_fields (c : http_conn) (text : List Nat) :
    (c.add_response text).2 = { c with
      m_write_buf := (c.add_response text).2.m_write_buf
      m_write_idx := (c.add_response text).2.m_write_idx } := by
  unfold add_response
  simp only
  repeat' split
  all_goals rfl

theorem add_headers_fields (c : http_conn) (n : Int) :
    (c.add_headers n).2 = { c with
      m_write_buf := (c.add_headers n).2.m_write_buf
      m_write_idx := (c.add_headers n).2.m_write_idx } := by
  unfold add_headers
  split
  · rename_i c1 h1
    have := add_response_fields c (bytes "Content-Length:" ++ fmt_d n ++ [13, 10])
    unfold add_content_length at h1
    rw [h1] at this
    simp only at this ⊢
    rw [this]
  · rename_i c1 h1
    have e1 := add_response_fields c (bytes "Content-Length:" ++ fmt_d n ++ [13, 10])
    unfold add_content_length at h1
    rw [h1] at e1
    simp only at e1
    split
    · rename_i c2 h2
      have e2 := add_response_fields c1 (bytes "Content-Type:" ++ bytes "text/html" ++ [13, 10])
      unfold add_content_type at h2
      rw [h2] at e2
      simp only at e2 ⊢
      rw [e2, e1]
    · rename_i c2 h2
      have e2 := add_response_fields c1 (bytes "Content-Type:" ++ bytes "text/html" ++ [13, 10])
      unfold add_content_type at h2
      rw [h2] at e2
      simp only at e2
      split
      · rename_i c3 h3
        have e3 := add_response_fields c2 (bytes "Connection:"
          ++ (if c2.m_linger = true then bytes "keep-alive" else bytes "close") ++ [13, 10])
        unfold add_linger at h3
        rw [h3] at e3
        simp only at e3 ⊢
        rw [e3, e2, e1]
      · rename_i c3 h3
        have e3 := add_response_fields c2 (bytes "Connection:"
          ++ (if c2.m_linger = true then bytes "keep-alive" else bytes "close") ++ [13, 10])
        unfold add_linger at h3
        rw [h3] at e3
        simp only at e3
        have e4 := add_response_fields c3 [13, 10]
        unfold add_blank_line
        rw [e4, e3, e2, e1]

theorem process_write_error_segments (c c' : http_conn) (status : Int) (title form : List Nat)
    (h : c.process_write_error status title form = (true, c')) :
    c'.m_iv0 = { iov_base := 0, iov_len := c'.m_write_idx } ∧ c'.m_iv_count = 1
      ∧ c'.bytes_to_send = c'.m_iv0.iov_len := by
  unfold process_write_error at h
  simp only at h
  split at h
  · simp at h
  · unfold process_write_single at h
    simp only [Prod.mk.injEq, true_and] at h
    subst h
    exact ⟨rfl, rfl, rfl⟩

/-- What `process_write` sets up when the sum of the lengths fits: whenever `process_write`
returns true, segment 0 is the header buffer with length `m_write_idx`.  For `FILE_REQUEST` the
file is not empty and there are two segments, the second one the mapped file with length
`st_size`, and `bytes_to_send` is the sum of the two lengths when that sum fits the `int` field
(it lies between -2^31 and 2^31 - 1).  For every other outcome there is one segment and
`bytes_to_send` is its length. -/
theorem process_write_segments (c c' : http_conn) (ret : HTTP_CODE)
    (h : c.process_write ret = (true, c')) :
    c'.m_iv0 = { iov_base := 0, iov_len := c'.m_write_idx }
    ∧ (ret = HTTP_CODE.FILE_REQUEST →
        c'.m_file_stat.st_size ≠ 0 ∧ c'.m_iv_count = 2
        ∧ c'.m_iv1 = { iov_base := c'.m_file_address, iov_len := c'.m_file_stat.st_size }
        ∧ (-2147483648 ≤ c'.m_write_idx + c'.m_file_stat.st_size →
            c'.m_write_idx + c'.m_file_stat.st_size < 2147483648 →
            c'.bytes_to_send = c'.m_iv0.iov_len + c'.m_iv1.iov_len))
    ∧ (ret ≠ HTTP_CODE.FILE_REQUEST →
        c'.m_iv_count = 1 ∧ c'.bytes_to_send = c'.m_iv0.iov_len) := by
  cases ret with
  | INTERNAL_ERROR =>
    obtain ⟨h1, h2, h3⟩ := process_write_error_segments c c' _ _ _ h
    exact ⟨h1, fun hf => by simp at hf, fun _ => ⟨h2, h3⟩⟩
  | BAD_REQUEST =>
    obtain ⟨h1, h2, h3⟩ := process_write_error_segments c c' _ _ _ h
    exact ⟨h1, fun hf => by simp at hf, fun _ => ⟨h2, h3⟩⟩
  | FORBIDDEN_REQUEST =>
    obtain ⟨h1, h2, h3⟩ := process_write_error_segments c c' _ _ _ h
    exact ⟨h1, fun hf => by simp at hf, fun _ => ⟨h2, h3⟩⟩
  | FILE_REQUEST =>
    unfold process_write at h
    simp only at h
    split at h
    · rename_i hsz
      simp only [Prod.mk.injEq, true_and] at h
      subst h
      refine ⟨rfl, fun _ => ⟨?_, rfl, rfl, fun h1 h2 => ?_⟩, fun hf => absurd rfl hf⟩
      · show ((c.add_status_line 200 ok_200_title).2.add_headers _).2.m_file_stat.st_size ≠ 0
        rw [add_headers_fields]
        exact hsz
      · exact to_int32_of_range _ h1 h2
    · split at h <;> simp at h
  | NO_REQUEST => simp [process_write] at h
  | GET_REQUEST => simp [process_write] at h
  | NO_RESOURCE => simp [process_write] at h
  | CLOSED_CONNECTION => simp [process_write] at h

/-- C14 (code_bug): for a file of 2 GiB (`st_size` = 2^31) `process_write` returns true with
two segments of 89 and 2147483648 bytes, and `bytes_to_send`, an `int`, is -2147483559, not their
sum. -/
theorem process_write_large_file :
    (fun r : Bool × http_conn =>
        (r.1, r.2.m_iv_count, r.2.m_iv0.iov_len, r.2.m_iv1.iov_len, r.2.bytes_to_send))
      (Scenario.conn_large_file.process_write HTTP_CODE.FILE_REQUEST)
      = (true, 2, 89, 2147483648, -2147483559)
    ∧ (Scenario.conn_large_file.process_write HTTP_CODE.FILE_REQUEST).2.bytes_to_send
      ≠ (Scenario.conn_large_file.process_write HTTP_CODE.FILE_REQUEST).2.m_iv0.iov_len
        + (Scenario.conn_large_file.process_write HTTP_CODE.FILE_REQUEST).2.m_iv1.iov_len := by
  decide!

theorem process_write_segments_witness :
    ∃ c', Scenario.conn_file_1000.process_write HTTP_CODE.FILE_REQUEST = (true, c')
      ∧ c'.m_iv0 = { iov_base := 0, iov_len := c'.m_write_idx }
      ∧ (HTTP_CODE.FILE_REQUEST = HTTP_CODE.FILE_REQUEST →
          c'.m_file_stat.st_size ≠ 0 ∧ c'.m_iv_count = 2
          ∧ c'.m_iv1 = { iov_base := c'.m_file_address, iov_len := c'.m_file_stat.st_size }
          ∧ (-2147483648 ≤ c'.m_write_idx + c'.m_file_stat.st_size →
              c'.m_write_idx + c'.m_file_stat.st_size < 2147483648 →
              c'.bytes_to_send = c'.m_iv0.iov_len + c'.m_iv1.iov_len))
      ∧ (HTTP_CODE.FILE_REQUEST ≠ HTTP_CODE.FILE_REQUEST →
          c'.m_iv_count = 1 ∧ c'.bytes_to_send = c'.m_iv0.iov_len) := by
  have htrue : (Scenario.conn_file_1000.process_write HTTP_CODE.FILE_REQUEST).1 = true := by
    decide!
  exact ⟨_, Prod.ext htrue rfl, process_write_segments _ _ _ (Prod.ext htrue rfl)⟩

end http_conn

namespace connection_pool

theorem init_loop_spec (connect : Nat → Int) : ∀ (n i : Nat) (p p' : connection_pool),
    init_loop connect n i p = some p' →
    p'.m_FreeConn = p.m_FreeConn + n ∧ p'.connList.length = p.connList.length + n
      ∧ p'.m_CurConn = p.m_CurConn
      ∧ ((∀ h ∈ p.connList, h ≠ 0) → ∀ h ∈ p'.connList, h ≠ 0) := by
  intro n
  induction n with
  | zero =>
    intro i p p' h
    simp only [init_loop, Option.some.injEq] at h
    subst h
    simp
  | succ n ih =>
    intro i p p' h
    simp only [init_loop] at h
    split at h
    · simp at h
    · rename_i hne
      obtain ⟨h1, h2, h3, h4⟩ := ih _ _ _ h
      simp only [List.length_append, List.length_cons, List.length_nil] at h1 h2 h3 h4
      refine ⟨by rw [h1]; push_cast; ring, by rw [h2]; ring, h3, fun hall => h4 ?_⟩
      intro x hx
      simp only [List.mem_append, List.mem_singleton] at hx
      rcases hx with hx | rfl
      · exact hall x hx
      · exact hne

theorem init_inv (MaxConn0 MaxConn : Int) (connect : Nat → Int) (p : connection_pool)
    (hM : 0 ≤ MaxConn) (h : (construct MaxConn0).init MaxConn connect = some p) :
    PoolInv p [] MaxConn := by
  unfold init at h
  split at h
  · simp at h
  · rename_i p1 h1
    simp only [Option.some.injEq] at h
    subst h
    obtain ⟨a, b, c, d⟩ := init_loop_spec connect _ _ _ _ h1
    simp only [construct, List.length_nil, zero_add, Nat.cast_zero] at a b c
    have hd := d (by simp [construct])
    have hn : (MaxConn.toNat : Int) = MaxConn := Int.toNat_of_nonneg hM
    exact ⟨by simp only; rw [a, c]; omega, by simp only; rw [a, b], rfl, by simp only; rw [c]; rfl,
      by simp only; rw [a]; omega, hd, by simp⟩

theorem run_inv : ∀ (calls : List PoolCall) (p : connection_pool) (leased : List Int) (M : Int),
    PoolInv p leased M →
    run calls p leased ≠ Except.error PoolStop.blocked
    ∧ ∀ p' leased', run calls p leased = Except.ok (p', leased') → PoolInv p' leased' M := by
  intro calls
  induction calls with
  | nil =>
    intro p leased M hinv
    simp only [run]
    refine ⟨by simp, ?_⟩
    intro p' leased' h
    simp only [Except.ok.injEq, Prod.mk.injEq] at h
    obtain ⟨rfl, rfl⟩ := h
    exact hinv
  | cons call rest ih =>
    intro p leased M hinv
    cases call with
    | get =>
      simp only [run]
      unfold GetConnection
      by_cases hlen : p.connList.length = 0
      · simp only [hlen, if_true, if_false]
        exact ih p leased M hinv
      · have hpos : ¬ (p.reserve ≤ 0) := by
          have := hinv.free_len
          have := hinv.free_sem
          have : 0 < p.connList.length := Nat.pos_of_ne_zero hlen
          omega
        simp only [hlen, hpos, if_false]
        cases hl : p.connList with
        | nil => rw [hl] at hlen; simp at hlen
        | cons conn tl =>
          simp only
          have hne : conn ≠ 0 := hinv.list_ne conn (by rw [hl]; simp)
          simp only [hne, if_false]
          apply ih
          have h1 := hinv.total
          have h2 := hinv.free_len
          have h3 := hinv.free_sem
          have h4 := hinv.cur_len
          rw [hl] at h2
          simp only [List.length_cons] at h2
          refine ⟨?_, ?_, ?_, ?_, hinv.max, ?_, ?_⟩
          · simp only; omega
          · simp only; push_cast at h2; omega
          · simp only; omega
          · simp only [List.length_cons]; push_cast; omega
          · intro x hx
            exact hinv.list_ne x (by rw [hl]; simp [hx])
          · intro x hx
            simp only [List.mem_cons] at hx
            rcases hx with rfl | hx
            · exact hne
            · exact hinv.leased_ne x hx
    | release conn =>
      simp only [run]
      by_cases hmem : conn ∈ leased
      · rw [if_pos hmem]
        have hne : conn ≠ 0 := hinv.leased_ne conn hmem
        apply ih
        unfold ReleaseConnection
        simp only [hne, if_false]
        have h1 := hinv.total
        have h2 := hinv.free_len
        have h3 := hinv.free_sem
        have h4 := hinv.cur_len
        have hl : (leased.erase conn).length = leased.length - 1 := List.length_erase_of_mem hmem
        have hpos : 0 < leased.length := List.length_pos_of_mem hmem
        refine ⟨?_, ?_, ?_, ?_, hinv.max, ?_, ?_⟩
        · simp only; omega
        · simp only [List.length_append, List.length_cons, List.length_nil]
          push_cast; omega
        · simp only; omega
        · simp only; rw [hl]; omega
        · intro x hx
          simp only [List.mem_append, List.mem_singleton] at hx
          rcases hx with hx | rfl
          · exact hinv.list_ne x hx
          · exact hne
        · intro x hx
          exact hinv.leased_ne x (List.mem_of_mem_erase hx)
      · rw [if_neg hmem]
        refine ⟨by simp, ?_⟩
        intro p' leased' h
        simp at h

/-- C19 (counterexample): on a pool of one handle, the second call of `GetConnection` in a row
finds the list empty; it does not block but returns the null handle. -/
theorem GetConnection_null_when_leased :
    (Scenario.pool_of_one.bind GetConnection).map (fun r => r.1) = some 1000
    ∧ (((Scenario.pool_of_one.bind GetConnection).bind (fun r => r.2.GetConnection)).map
        (fun r => r.1)) = some 0 := by
  decide

/-- C19 (corrected): whenever the list of free handles is empty, `GetConnection` returns at once,
with the null handle, and leaves the pool as it is. -/
theorem GetConnection_empty (p : connection_pool) (h : p.connList = []) :
    p.GetConnection = some (0, p) := by
  unfold GetConnection
  simp [h]

theorem GetConnection_empty_witness :
    (Scenario.pool_of_one.bind GetConnection) = some (1000, Scenario.pool_exhausted)
    ∧ Scenario.pool_exhausted.m_CurConn = Scenario.pool_exhausted.m_MaxConn
    ∧ Scenario.pool_exhausted.connList = []
    ∧ Scenario.pool_exhausted.GetConnection = some (0, Scenario.pool_exhausted) :=
  ⟨by decide, by decide, rfl, GetConnection_empty Scenario.pool_exhausted rfl⟩

/-- C20 (confirmed): a pool is constructed and `init` gives it `MaxConn` handles.  Then, for
every sequence of calls of `GetConnection` and of `ReleaseConnection` on handles that are leased
at the time, no call blocks, and after the sequence the free counter plus the in-use counter is
`MaxConn`, the free counter is both the length of the list of handles and the value of the
semaphore, `m_MaxConn` is `MaxConn`, and the in-use counter is the number of leased handles. -/
theorem pool_counts (MaxConn0 MaxConn : Int) (connect : Nat → Int) (p : connection_pool)
    (calls : List PoolCall) (hM : 0 ≤ MaxConn)
    (hinit : (construct MaxConn0).init MaxConn connect = some p) :
    run calls p [] ≠ Except.error PoolStop.blocked
    ∧ ∀ p' leased', run calls p [] = Except.ok (p', leased') →
        p'.m_FreeConn + p'.m_CurConn = MaxConn
        ∧ p'.m_FreeConn = p'.connList.length
        ∧ p'.m_FreeConn = p'.reserve
        ∧ p'.m_MaxConn = MaxConn
        ∧ p'.m_CurConn = leased'.length := by
  obtain ⟨h1, h2⟩ := run_inv calls p [] MaxConn (init_inv MaxConn0 MaxConn connect p hM hinit)
  refine ⟨h1, fun p' leased' h => ?_⟩
  have := h2 p' leased' h
  exact ⟨this.total, this.free_len, this.free_sem, this.max, this.cur_len⟩

theorem pool_counts_witness :
    (0 : Int) ≤ 2
    ∧ (construct 0).init 2 (fun i => 1000 + i)
        = some { m_MaxConn := 2, m_CurConn := 0, m_FreeConn := 2, connList := [1000, 1001],
                 reserve := 2 }
    ∧ (run [PoolCall.get, PoolCall.get, PoolCall.get, PoolCall.release 1000, PoolCall.get]
          { m_MaxConn := 2, m_CurConn := 0, m_FreeConn := 2, connList := [1000, 1001],
            reserve := 2 } [] ≠ Except.error PoolStop.blocked
      ∧ ∀ p' leased',
          run [PoolCall.get, PoolCall.get, PoolCall.get, PoolCall.release 1000, PoolCall.get]
            { m_MaxConn := 2, m_CurConn := 0, m_FreeConn := 2, connList := [1000, 1001],
              reserve := 2 } [] = Except.ok (p', leased') →
          p'.m_FreeConn + p'.m_CurConn = 2
          ∧ p'.m_FreeConn = p'.connList.length
          ∧ p'.m_FreeConn = p'.reserve
          ∧ p'.m_MaxConn = 2
          ∧ p'.m_CurConn = leased'.length) :=
  ⟨by decide, by decide,
    pool_counts 0 2 (fun i => 1000 + i) _
      [PoolCall.get, PoolCall.get, PoolCall.get, PoolCall.release 1000, PoolCall.get]
      (by decide) (by decide)⟩

end connection_pool

namespace http_conn

/-! ## The end of a response in `write` (C15) -/

theorem write_sent_fields (c : http_conn) (temp : Nat) :
    (c.write_sent temp).m_linger = c.m_linger
    ∧ (c.write_sent temp).bytes_to_send = c.bytes_to_send - temp := by
  unfold write_sent
  simp only
  split <;> exact ⟨rfl, rfl⟩

theorem write_loop_last_byte : ∀ (ns : List Nat) (c : http_conn) (rest : List WritevResult),
    0 < c.bytes_to_send → c.bytes_to_send ≤ (ns.sum : Nat) →
    (write_loop (ns.map WritevResult.sent ++ rest) c).1 = c.m_linger
    ∧ (c.m_linger = true →
        ∃ c0 : http_conn, (write_loop (ns.map WritevResult.sent ++ rest) c).2 = c0.init) := by
  intro ns
  induction ns with
  | nil =>
    intro c rest hpos hsum
    simp only [List.sum_nil, Nat.cast_zero] at hsum
    omega
  | cons n t ih =>
    intro c rest hpos hsum
    obtain ⟨hl, hb⟩ := write_sent_fields c n
    simp only [List.map_cons, List.cons_append, write_loop]
    generalize c.write_sent n = c1 at hl hb ⊢
    by_cases hdone : c1.bytes_to_send ≤ 0
    · simp only [hdone, if_true]
      by_cases hlin : c1.m_linger = true
      · simp only [hlin, if_true]
        exact ⟨by rw [← hl, hlin], fun _ => ⟨_, rfl⟩⟩
      · simp only [hlin, if_false]
        refine ⟨by rw [← hl]; simpa using hlin, fun h => ?_⟩
        rw [← hl] at h
        exact absurd h hlin
    · simp only [hdone, if_false]
      have := ih c1 rest (by omega) (by
        rw [hb]
        simp only [List.sum_cons, Nat.cast_add] at hsum
        omega)
      rw [hl] at this
      exact this

/-- C15 (confirmed): a response has bytes left to send, and the calls of `writev` made by one
call of `write` send `ns` bytes in turn, all that is left in the end.  Then `write` returns the
keep-alive flag.  When the flag is set, the connection is reinitialised: the parser is in the
`REQUESTLINE` state, `m_read_idx`, `m_checked_idx`, `m_start_line`, `m_write_idx`,
`bytes_to_send` and `bytes_have_send` are 0, and the read and write buffers are all NUL. -/
theorem write_last_byte (c : http_conn) (ns : List Nat) (rest : List WritevResult)
    (hpos : 0 < c.bytes_to_send) (hsum : c.bytes_to_send ≤ (ns.sum : Nat)) :
    (c.write (ns.map WritevResult.sent ++ rest)).1 = c.m_linger
    ∧ (c.m_linger = true →
        (c.write (ns.map WritevResult.sent ++ rest)).2.m_check_state
          = CHECK_STATE.CHECK_STATE_REQUESTLINE
        ∧ (c.write (ns.map WritevResult.sent ++ rest)).2.m_read_idx = 0
        ∧ (c.write (ns.map WritevResult.sent ++ rest)).2.m_checked_idx = 0
        ∧ (c.write (ns.map WritevResult.sent ++ rest)).2.m_start_line = 0
        ∧ (c.write (ns.map WritevResult.sent ++ rest)).2.m_write_idx = 0
        ∧ (c.write (ns.map WritevResult.sent ++ rest)).2.bytes_to_send = 0
        ∧ (c.write (ns.map WritevResult.sent ++ rest)).2.bytes_have_send = 0
        ∧ (c.write (ns.map WritevResult.sent ++ rest)).2.m_read_buf = Mem.zero
        ∧ (c.write (ns.map WritevResult.sent ++ rest)).2.m_write_buf = Mem.zero) := by
  have hne : ¬ (c.bytes_to_send = 0) := by omega
  unfold write
  simp only [hne, if_false]
  obtain ⟨h1, h2⟩ := write_loop_last_byte ns c rest hpos hsum
  refine ⟨h1, fun hl => ?_⟩
  obtain ⟨c0, h0⟩ := h2 hl
  rw [h0]
  exact ⟨rfl, rfl, rfl, rfl, rfl, rfl, rfl, rfl, rfl⟩

theorem write_last_byte_witness :
    0 < Scenario.conn_response_ready.bytes_to_send
    ∧ Scenario.conn_response_ready.bytes_to_send ≤ (([100, 49].sum : Nat) : Int)
    ∧ (Scenario.conn_response_ready.write ([100, 49].map WritevResult.sent ++ [])).1
        = Scenario.conn_response_ready.m_linger
    ∧ (Scenario.conn_response_ready.m_linger = true →
        (Scenario.conn_response_ready.write ([100, 49].map WritevResult.sent ++ [])).2.m_check_state
          = CHECK_STATE.CHECK_STATE_REQUESTLINE
        ∧ (Scenario.conn_response_ready.write ([100, 49].map WritevResult.sent ++ [])).2.m_read_idx
          = 0
        ∧ (Scenario.conn_response_ready.write ([100, 49].map WritevResult.sent ++ [])).2.m_checked_idx
          = 0
        ∧ (Scenario.conn_response_ready.write ([100, 49].map WritevResult.sent ++ [])).2.m_start_line
          = 0
        ∧ (Scenario.conn_response_ready.write ([100, 49].map WritevResult.sent ++ [])).2.m_write_idx
          = 0
        ∧ (Scenario.conn_response_ready.write ([100, 49].map WritevResult.sent ++ [])).2.bytes_to_send
          = 0
        ∧ (Scenario.conn_response_ready.write
            ([100, 49].map WritevResult.sent ++ [])).2.bytes_have_send = 0
        ∧ (Scenario.conn_response_ready.write ([100, 49].map WritevResult.sent ++ [])).2.m_read_buf
          = Mem.zero
        ∧ (Scenario.conn_response_ready.write ([100, 49].map WritevResult.sent ++ [])).2.m_write_buf
          = Mem.zero) :=
  ⟨by decide!, by decide!,
    write_last_byte Scenario.conn_response_ready [100, 49] [] (by decide!) (by decide!)⟩

end http_conn

theorem Mem.read_eq (m : Mem) : ∀ (l : List Nat) (off : Int),
    (∀ k : Nat, k < l.length → m (off + k) = l.getD k 0) → Mem.read m off l.length = l := by
  intro l
  induction l with
  | nil => intro off _; rfl
  | cons b t ih =>
    intro off h
    simp only [List.length_cons, Mem.read]
    have h0 := h 0 (by simp)
    simp only [Nat.cast_zero, add_zero, List.getD_cons_zero] at h0
    rw [h0, ih (off + 1)]
    intro k hk
    have := h (k + 1) (by simp; omega)
    simp only [List.getD_cons_succ] at this
    rw [← this]
    congr 1
    push_cast
    ring

theorem Wrote.read {c : http_conn} {xs : List Nat} (h : Wrote c xs) :
    Mem.read c.m_write_buf 0 c.m_write_idx.toNat = xs := by
  rw [h.idx]
  simp only [Int.toNat_ofNat]
  apply Mem.read_eq
  intro k hk
  rw [zero_add]
  exact h.buf k hk

namespace http_conn

/-- An append that fits: `add_response` returns true, the text is behind what the buffer held,
and the write cursor has moved past it. -/
theorem add_response_ok (c : http_conn) (xs t : List Nat) (hw : Wrote c xs)
    (hfit : xs.length + t.length < 1023) :
    (c.add_response t).1 = true ∧ Wrote (c.add_response t).2 (xs ++ t)
      ∧ (c.add_response t).2.m_linger = c.m_linger := by
  have hidx := hw.idx
  have h1 : ¬ (c.m_write_idx ≥ WRITE_BUFFER_SIZE) := by
    unfold WRITE_BUFFER_SIZE; omega
  have h2 : (0 : Int) < WRITE_BUFFER_SIZE - 1 - c.m_write_idx := by
    unfold WRITE_BUFFER_SIZE; omega
  have h3 : ¬ ((t.length : Int) ≥ WRITE_BUFFER_SIZE - 1 - c.m_write_idx) := by
    unfold WRITE_BUFFER_SIZE; omega
  have h4 : t.take (WRITE_BUFFER_SIZE - 1 - c.m_write_idx - 1).toNat = t := by
    apply List.take_of_length_le
    unfold WRITE_BUFFER_SIZE; omega
  unfold add_response
  simp only [h1, h2, h3, h4, if_true, if_false]
  refine ⟨trivial, ⟨?_, ?_⟩, trivial⟩
  · simp only [List.length_append]
    rw [hidx]
    push_cast
    ring
  · intro k hk
    simp only [List.length_append] at hk
    simp only [Mem.write, List.length_append, List.length_cons, List.length_nil]
    rw [hidx]
    by_cases hlt : k < xs.length
    · rw [if_neg (by omega), hw.buf k hlt, List.getD_eq_getElem?_getD, List.getD_eq_getElem?_getD,
        List.getElem?_append_left hlt]
    · rw [if_pos (by push_cast; omega)]
      have e : ((k : Int) - (xs.length : Int)).toNat = k - xs.length := by omega
      have eL : (t ++ [0]).getD (k - xs.length) 0 = t.getD (k - xs.length) 0 := by
        rw [List.getD_eq_getElem?_getD, List.getD_eq_getElem?_getD,
          List.getElem?_append_left (by omega)]
      have eR : (xs ++ t).getD k 0 = t.getD (k - xs.length) 0 := by
        rw [List.getD_eq_getElem?_getD, List.getD_eq_getElem?_getD,
          List.getElem?_append_right (by omega)]
      rw [e, eL, eR]

/-- The four appends of `add_headers`, when they fit. -/
theorem add_headers_ok (c : http_conn) (xs : List Nat) (n : Int) (hw : Wrote c xs)
    (hfit : xs.length + (fmt_d n).length + 66 < 1023) :
    (c.add_headers n).1 = true
    ∧ Wrote (c.add_headers n).2
        (xs ++ (bytes "Content-Length:" ++ fmt_d n ++ [13, 10])
          ++ (bytes "Content-Type:" ++ bytes "text/html" ++ [13, 10])
          ++ (bytes "Connection:" ++ (if c.m_linger = true then bytes "keep-alive" else bytes "close")
              ++ [13, 10])
          ++ [13, 10])
    ∧ (c.add_headers n).2.m_linger = c.m_linger := by
  have hl1 : (bytes "Content-Length:").length = 15 := by decide
  have hl2 : (bytes "Content-Type:" ++ bytes "text/html" ++ [13, 10]).length = 24 := by decide
  have hl3 : (bytes "Connection:" ++ (if c.m_linger = true then bytes "keep-alive" else bytes "close")
      ++ [13, 10]).length ≤ 23 := by
    split <;> decide
  obtain ⟨a1, w1, l1⟩ := add_response_ok c xs (bytes "Content-Length:" ++ fmt_d n ++ [13, 10]) hw
    (by simp only [List.length_append, hl1, List.length_cons, List.length_nil]; omega)
  unfold add_headers add_content_length
  generalize c.add_response (bytes "Content-Length:" ++ fmt_d n ++ [13, 10]) = r1 at a1 w1 l1 ⊢
  obtain ⟨b1, c1⟩ := r1
  simp only at a1 w1 l1
  subst a1
  simp only
  have hx1 : (xs ++ (bytes "Content-Length:" ++ fmt_d n ++ [13, 10])).length
      = xs.length + (fmt_d n).length + 17 := by
    simp only [List.length_append, hl1, List.length_cons, List.length_nil]; omega
  obtain ⟨a2, w2, l2⟩ := add_response_ok c1 _ (bytes "Content-Type:" ++ bytes "text/html" ++ [13, 10])
    w1 (by rw [hx1, hl2]; omega)
  unfold add_content_type
  generalize c1.add_response (bytes "Content-Type:" ++ bytes "text/html" ++ [13, 10]) = r2
    at a2 w2 l2 ⊢
  obtain ⟨b2, c2⟩ := r2
  simp only at a2 w2 l2
  subst a2
  simp only
  have hlin : c2.m_linger = c.m_linger := by rw [l2, l1]
  obtain ⟨a3, w3, l3⟩ := add_response_ok c2 _
    (bytes "Connection:" ++ (if c.m_linger = true then bytes "keep-alive" else bytes "close")
      ++ [13, 10]) w2
    (by rw [List.length_append, hx1, hl2]; omega)
  unfold add_linger
  rw [hlin]
  generalize c2.add_response (bytes "Connection:"
    ++ (if c.m_linger = true then bytes "keep-alive" else bytes "close") ++ [13, 10]) = r3
    at a3 w3 l3 ⊢
  obtain ⟨b3, c3⟩ := r3
  simp only at a3 w3 l3
  subst a3
  simp only
  obtain ⟨a4, w4, l4⟩ := add_response_ok c3 _ [13, 10] w3
    (by
      rw [List.length_append, List.length_append, hx1, hl2]
      simp only [List.length_cons, List.length_nil]
      omega)
  unfold add_blank_line
  exact ⟨a4, w4, by rw [l4, l3, hlin]⟩

/-- The arms of `process_write` that send a canned page, on an empty write buffer. -/
theorem process_write_error_ok (c : http_conn) (status : Int) (title form : List Nat)
    (h0 : c.m_write_idx = 0)
    (hfit : (bytes "HTTP/1.1" ++ [32] ++ fmt_d status ++ [32] ++ title ++ [13, 10]).length
      + (fmt_d form.length).length + 66 + form.length < 1023) :
    (c.process_write_error status title form).1 = true
    ∧ Wrote (c.process_write_error status title form).2
        ((bytes "HTTP/1.1" ++ [32] ++ fmt_d status ++ [32] ++ title ++ [13, 10])
          ++ (bytes "Content-Length:" ++ fmt_d form.length ++ [13, 10])
          ++ (bytes "Content-Type:" ++ bytes "text/html" ++ [13, 10])
          ++ (bytes "Connection:" ++ (if c.m_linger = true then bytes "keep-alive" else bytes "close")
              ++ [13, 10])
          ++ [13, 10] ++ form) := by
  have hw0 : Wrote c [] := ⟨by rw [h0]; rfl, fun k hk => by simp at hk⟩
  obtain ⟨a1, w1, l1⟩ := add_response_ok c []
    (bytes "HTTP/1.1" ++ [32] ++ fmt_d status ++ [32] ++ title ++ [13, 10]) hw0
    (by simp only [List.length_nil, zero_add]; omega)
  simp only [List.nil_append] at w1
  unfold process_write_error add_status_line
  simp only
  generalize (c.add_response (bytes "HTTP/1.1" ++ [32] ++ fmt_d status ++ [32] ++ title
    ++ [13, 10])).2 = c1 at w1 l1 ⊢
  obtain ⟨a2, w2, l2⟩ := add_headers_ok c1 _ form.length w1 (by omega)
  rw [l1] at w2
  generalize (c1.add_headers form.length).2 = c2 at w2 l2 ⊢
  have hlen : ((bytes "HTTP/1.1" ++ [32] ++ fmt_d status ++ [32] ++ title ++ [13, 10])
      ++ (bytes "Content-Length:" ++ fmt_d form.length ++ [13, 10])
      ++ (bytes "Content-Type:" ++ bytes "text/html" ++ [13, 10])
      ++ (bytes "Connection:" ++ (if c.m_linger = true then bytes "keep-alive" else bytes "close")
          ++ [13, 10])
      ++ [13, 10]).length
      ≤ (bytes "HTTP/1.1" ++ [32] ++ fmt_d status ++ [32] ++ title ++ [13, 10]).length
        + (fmt_d form.length).length + 66 := by
    have hl1 : (bytes "Content-Length:").length = 15 := by decide
    have hl2 : (bytes "Content-Type:" ++ bytes "text/html" ++ [13, 10]).length = 24 := by decide
    have hl3 : (bytes "Connection:"
        ++ (if c.m_linger = true then bytes "keep-alive" else bytes "close")
        ++ [13, 10]).length ≤ 23 := by
      split <;> decide
    rw [List.length_append, List.length_append, List.length_append, List.length_append, hl2,
      List.length_append (bytes "Content-Length:" ++ fmt_d (form.length : Int)),
      List.length_append (bytes "Content-Length:"), hl1]
    simp only [List.length_cons, List.length_nil]
    omega
  obtain ⟨a3, w3, l3⟩ := add_response_ok c2 _ form w2 (by omega)
  unfold add_content
  generalize c2.add_response form = r3 at a3 w3 l3 ⊢
  obtain ⟨b3, c3⟩ := r3
  simp only at a3 w3 l3
  subst a3
  simp only [process_write_single]
  exact ⟨trivial, ⟨w3.idx, w3.buf⟩⟩

/-- C13 (confirmed): for the outcomes `INTERNAL_ERROR`, `BAD_REQUEST` and `FORBIDDEN_REQUEST`,
`process_write` on an empty write buffer returns true, and the write buffer then holds, up to
`m_write_idx`, exactly the status line (`500 Internal Error`, `404 Not Found`, `403 Forbidden`),
the `Content-Length` header with the length of the body, the `Content-Type` header with
`text/html`, the `Connection` header with `keep-alive` when `m_linger` is set and `close`
otherwise, each line ended by CR LF, a blank line, and the canned body. -/
theorem process_write_canned (c : http_conn) (ret : HTTP_CODE) (hidx : c.m_write_idx = 0)
    (hret : ret = HTTP_CODE.INTERNAL_ERROR ∨ ret = HTTP_CODE.BAD_REQUEST
      ∨ ret = HTTP_CODE.FORBIDDEN_REQUEST) :
    (c.process_write ret).1 = true
    ∧ Mem.read (c.process_write ret).2.m_write_buf 0 (c.process_write ret).2.m_write_idx.toNat
      = canned_response ret c.m_linger
    ∧ (c.process_write ret).2.m_write_idx = (canned_response ret c.m_linger).length := by
  rcases hret with rfl | rfl | rfl
  · obtain ⟨a, w⟩ := process_write_error_ok c 500 error_500_title error_500_form hidx (by decide)
    have e : (bytes "HTTP/1.1" ++ [32] ++ fmt_d 500 ++ [32] ++ error_500_title ++ [13, 10])
        ++ (bytes "Content-Length:" ++ fmt_d error_500_form.length ++ [13, 10])
        ++ (bytes "Content-Type:" ++ bytes "text/html" ++ [13, 10])
        ++ (bytes "Connection:" ++ (if c.m_linger = true then bytes "keep-alive" else bytes "close")
            ++ [13, 10])
        ++ [13, 10] ++ error_500_form = canned_response HTTP_CODE.INTERNAL_ERROR c.m_linger := by
      cases c.m_linger <;> decide
    rw [e] at w
    exact ⟨a, w.read, w.idx⟩
  · obtain ⟨a, w⟩ := process_write_error_ok c 404 error_404_title error_404_form hidx (by decide)
    have e : (bytes "HTTP/1.1" ++ [32] ++ fmt_d 404 ++ [32] ++ error_404_title ++ [13, 10])
        ++ (bytes "Content-Length:" ++ fmt_d error_404_form.length ++ [13, 10])
        ++ (bytes "Content-Type:" ++ bytes "text/html" ++ [13, 10])
        ++ (bytes "Connection:" ++ (if c.m_linger = true then bytes "keep-alive" else bytes "close")
            ++ [13, 10])
        ++ [13, 10] ++ error_404_form = canned_response HTTP_CODE.BAD_REQUEST c.m_linger := by
      cases c.m_linger <;> decide
    rw [e] at w
    exact ⟨a, w.read, w.idx⟩
  · obtain ⟨a, w⟩ := process_write_error_ok c 403 error_403_title error_403_form hidx (by decide)
    have e : (bytes "HTTP/1.1" ++ [32] ++ fmt_d 403 ++ [32] ++ error_403_title ++ [13, 10])
        ++ (bytes "Content-Length:" ++ fmt_d error_403_form.length ++ [13, 10])
        ++ (bytes "Content-Type:" ++ bytes "text/html" ++ [13, 10])
        ++ (bytes "Connection:" ++ (if c.m_linger = true then bytes "keep-alive" else bytes "close")
            ++ [13, 10])
        ++ [13, 10] ++ error_403_form = canned_response HTTP_CODE.FORBIDDEN_REQUEST c.m_linger := by
      cases c.m_linger <;> decide
    rw [e] at w
    exact ⟨a, w.read, w.idx⟩

theorem process_write_canned_witness :
    (fresh 0 Scenario.doc_root).m_write_idx = 0
    ∧ (HTTP_CODE.BAD_REQUEST = HTTP_CODE.INTERNAL_ERROR
        ∨ HTTP_CODE.BAD_REQUEST = HTTP_CODE.BAD_REQUEST
        ∨ HTTP_CODE.BAD_REQUEST = HTTP_CODE.FORBIDDEN_REQUEST)
    ∧ ((fresh 0 Scenario.doc_root).process_write HTTP_CODE.BAD_REQUEST).1 = true
    ∧ Mem.read ((fresh 0 Scenario.doc_root).process_write HTTP_CODE.BAD_REQUEST).2.m_write_buf 0
        ((fresh 0 Scenario.doc_root).process_write HTTP_CODE.BAD_REQUEST).2.m_write_idx.toNat
      = canned_response HTTP_CODE.BAD_REQUEST (fresh 0 Scenario.doc_root).m_linger
    ∧ ((fresh 0 Scenario.doc_root).process_write HTTP_CODE.BAD_REQUEST).2.m_write_idx
      = (canned_response HTTP_CODE.BAD_REQUEST (fresh 0 Scenario.doc_root).m_linger).length :=
  ⟨rfl, Or.inr (Or.inl rfl),
    process_write_canned (fresh 0 Scenario.doc_root) HTTP_CODE.BAD_REQUEST rfl
      (Or.inr (Or.inl rfl))⟩

end http_conn

theorem bytes_content_length :
    bytes "Content-length:"
      = [67, 111, 110, 116, 101, 110, 116, 45, 108, 101, 110, 103, 116, 104, 58] := by decide

theorem not_connection_of_content_length {ln : List Nat}
    (h : strncasecmp_eq ln
      [67, 111, 110, 116, 101, 110, 116, 45, 108, 101, 110, 103, 116, 104, 58] 15 = true) :
    strncasecmp_eq ln [67, 111, 110, 110, 101, 99, 116, 105, 111, 110, 58] 11 = false := by
  unfold strncasecmp_eq at h ⊢
  have h' := beq_iff_eq.mp h
  have h11 : List.map tolower (List.take 11 ln)
      = (List.map tolower (List.take 15 ln)).take 11 := by
    rw [← List.map_take, List.take_take]
    rfl
  rw [h11, h']
  decide

theorem isdigit_facts {d : Nat} (h : isdigit d = true) :
    isspace d = false ∧ is_blank d = false ∧ d ≠ 45 ∧ d ≠ 43 := by
  unfold isdigit at h
  simp only [Bool.and_eq_true, decide_eq_true_eq] at h
  unfold isspace is_blank
  refine ⟨?_, ?_, by omega, by omega⟩
  · simp only [Bool.or_eq_false_iff, beq_eq_false_iff_ne, ne_eq, Bool.and_eq_false_imp,
      decide_eq_true_eq, decide_eq_false_iff_not, not_le]
    omega
  · simp only [List.contains_cons, List.contains_nil, Bool.or_false, Bool.or_eq_false_iff,
      beq_eq_false_iff_ne, ne_eq]
    omega

theorem dropWhile_of_head {p : Nat → Bool} {ds : List Nat} (h : ∀ d ∈ ds, p d = false) :
    ds.dropWhile p = ds := by
  cases ds with
  | nil => rfl
  | cons d t => simp [List.dropWhile, h d (by simp)]

theorem dropWhile_append_all {p : Nat → Bool} (bl ds : List Nat) (h : ∀ b ∈ bl, p b = true) :
    (bl ++ ds).dropWhile p = ds.dropWhile p := by
  induction bl with
  | nil => rfl
  | cons b t ih =>
    simp only [List.cons_append, List.dropWhile, h b (by simp)]
    exact ih (fun x hx => h x (by simp [hx]))

/-- The function `atol` on a string of decimal digits that stands for a number within the range
of `long`. -/
theorem atol_decimal (ds : List Nat) (hd : ∀ d ∈ ds, isdigit d = true)
    (hmax : (decimal_value ds : Int) ≤ LONG_MAX) : atol ds = decimal_value ds := by
  unfold atol
  have h1 : ds.dropWhile isspace = ds := dropWhile_of_head (fun d hd' => (isdigit_facts (hd d hd')).1)
  have h2 : ¬ (ds.head? = some 45 ∨ ds.head? = some 43) := by
    cases ds with
    | nil => simp
    | cons d t =>
      have := isdigit_facts (hd d (by simp))
      simp only [List.head?_cons, Option.some.injEq]
      omega
  have h3 : ds.takeWhile isdigit = ds := List.takeWhile_eq_self_iff.mpr hd
  have h4 : ¬ (ds.head? = some 45) := fun h => h2 (Or.inl h)
  have h7 : ¬ (ds.head? = some 43) := fun h => h2 (Or.inr h)
  simp only [h1, h4, h7, or_self, if_false, h3, decide_False, Bool.false_eq_true]
  have h5 : ¬ (((List.foldl (fun a d => 10 * a + (d - 48)) 0 ds : Nat) : Int) < LONG_MIN) := by
    unfold LONG_MIN; omega
  have h6 : ¬ (LONG_MAX < ((List.foldl (fun a d => 10 * a + (d - 48)) 0 ds : Nat) : Int)) := by
    unfold decimal_value at hmax; omega
  rw [if_neg h5, if_neg h6]
  rfl

namespace http_conn

/-- What `parse_headers` does with a header line that is not empty. -/
theorem parse_headers_line (c : http_conn) (text : Int) (ln : List Nat)
    (h : HasStr c.m_read_buf text ln) (hne : ln ≠ []) :
    (c.parse_headers text).1 = HTTP_CODE.NO_REQUEST
    ∧ (c.parse_headers text).2.m_read_buf = c.m_read_buf
    ∧ (c.parse_headers text).2.m_content_length
      = if is_content_length ln then content_length_value ln else c.m_content_length := by
  rw [parse_headers_eq c text ln h]
  unfold parse_headers_on is_content_length content_length_value
  rw [bytes_content_length]
  simp only [hne, if_false]
  by_cases hcl : strncasecmp_eq ln
      [67, 111, 110, 116, 101, 110, 116, 45, 108, 101, 110, 103, 116, 104, 58] 15 = true
  · have hco := not_connection_of_content_length hcl
    simp only [hco, hcl, Bool.false_eq_true, if_false, if_true, drop_strspn]
    exact ⟨trivial, trivial, trivial⟩
  · simp only [hcl, Bool.false_eq_true, if_false]
    repeat' split
    all_goals exact ⟨rfl, rfl, rfl⟩

theorem parse_headers_lines : ∀ (lines : List (Int × List Nat)) (c : http_conn),
    (∀ x ∈ lines, HasStr c.m_read_buf x.1 x.2 ∧ x.2 ≠ []) →
    (lines.foldl (fun c x => (c.parse_headers x.1).2) c).m_content_length
      = content_length_after c.m_content_length (lines.map Prod.snd)
    ∧ (lines.foldl (fun c x => (c.parse_headers x.1).2) c).m_read_buf = c.m_read_buf := by
  intro lines
  induction lines with
  | nil => intro c _; exact ⟨rfl, rfl⟩
  | cons x t ih =>
    intro c h
    obtain ⟨hs, hne⟩ := h x (by simp)
    obtain ⟨_, hb, hc⟩ := parse_headers_line c x.1 x.2 hs hne
    have := ih (c.parse_headers x.1).2 (fun y hy => by
      rw [hb]
      exact h y (by simp [hy]))
    simp only [List.foldl_cons, List.map_cons, content_length_after]
    rw [this.1, this.2, hb, hc]
    exact ⟨rfl, rfl⟩

/-- C12 (corrected): header lines that are not empty are stored in the read buffer, and
`parse_headers` is called on each in turn, then on a blank line.  Each of the first calls returns
`NO_REQUEST`.  The content length stored then is the value that `atol` gives for the last
`Content-Length` header, a signed number, and the value before the calls when there is no such
header; for a header `Content-Length:`, blanks or tabs, and decimal digits of a number in the
range of `long`, it is that number.  On the blank line `parse_headers` moves to the `CONTENT`
state and returns `NO_REQUEST` exactly when the stored value is not 0, and returns `GET_REQUEST`
otherwise. -/
theorem parse_headers_content_length (c : http_conn) (lines : List (Int × List Nat)) (t0 : Int)
    (hlines : ∀ x ∈ lines, HasStr c.m_read_buf x.1 x.2 ∧ x.2 ≠ [])
    (hblank : c.m_read_buf t0 = 0) :
    (∀ (c2 : http_conn) (t : Int) (ln : List Nat), HasStr c2.m_read_buf t ln → ln ≠ [] →
      (c2.parse_headers t).1 = HTTP_CODE.NO_REQUEST)
    ∧ (lines.foldl (fun c x => (c.parse_headers x.1).2) c).m_content_length
      = content_length_after c.m_content_length (lines.map Prod.snd)
    ∧ ((lines.foldl (fun c x => (c.parse_headers x.1).2) c).parse_headers t0
      = if content_length_after c.m_content_length (lines.map Prod.snd) ≠ 0 then
          (HTTP_CODE.NO_REQUEST,
            { lines.foldl (fun c x => (c.parse_headers x.1).2) c with
              m_check_state := CHECK_STATE.CHECK_STATE_CONTENT })
        else (HTTP_CODE.GET_REQUEST, lines.foldl (fun c x => (c.parse_headers x.1).2) c))
    ∧ (∀ (cl : Int) (ls : List (List Nat)), (∀ ln ∈ ls, is_content_length ln = false) →
        content_length_after cl ls = cl)
    ∧ (∀ (cl : Int) (name blanks ds : List Nat), name.length = 15 →
        is_content_length name = true → (∀ b ∈ blanks, b = 32 ∨ b = 9) →
        (∀ d ∈ ds, isdigit d = true) → (decimal_value ds : Int) ≤ LONG_MAX →
        content_length_after cl [name ++ blanks ++ ds] = decimal_value ds) := by
  obtain ⟨h1, h2⟩ := parse_headers_lines lines c hlines
  refine ⟨fun c2 t ln hs hne => (parse_headers_line c2 t ln hs hne).1, h1, ?_, ?_, ?_⟩
  · have hb : (lines.foldl (fun c x => (c.parse_headers x.1).2) c).m_read_buf t0 = 0 := by
      rw [h2]; exact hblank
    rw [← h1]
    generalize lines.foldl (fun c x => (c.parse_headers x.1).2) c = c1 at hb
    unfold parse_headers
    rw [if_pos hb]
  · intro cl ls
    induction ls generalizing cl with
    | nil => intro _; rfl
    | cons ln t ih =>
      intro h
      simp only [content_length_after, List.foldl_cons, h ln (by simp), Bool.false_eq_true,
        if_false]
      exact ih cl (fun x hx => h x (by simp [hx]))
  · intro cl name blanks ds hlen hname hbl hds hmax
    have hcl : is_content_length (name ++ blanks ++ ds) = true := by
      unfold is_content_length strncasecmp_eq at hname ⊢
      rw [List.append_assoc, List.take_append_of_le_length (by omega)]
      exact hname
    simp only [content_length_after, List.foldl_cons, List.foldl_nil, hcl, if_true]
    unfold content_length_value
    rw [List.append_assoc, List.drop_append_of_le_length (by omega),
      List.drop_of_length_le (by omega), List.nil_append,
      dropWhile_append_all blanks ds (fun b hb => by
        rcases hbl b hb with rfl | rfl <;> decide),
      dropWhile_of_head (fun d hd => (isdigit_facts (hds d hd)).2.1)]
    exact atol_decimal ds hds hmax

/-- C12 (counterexample): the header `Content-Length: -5` stores the content length −5, not an
unsigned decimal value, and on the blank line that follows the parser moves to the `CONTENT`
state although the value is not greater than 0: `process_read` on the request
`GET / HTTP/1.1`, `Content-Length: -5`, blank line, ends with that state and that value. -/
theorem parse_headers_negative_content_length :
    ((Scenario.conn_after_line (bytes "Content-Length: -5")).parse_headers 0).2.m_content_length
      = -5
    ∧ (((fresh 0 Scenario.doc_root).received Scenario.request_negative_length).process_read
        Scenario.env_ok Scenario.no_users).toOption.map
          (fun r => (r.2.1.m_check_state, r.2.1.m_content_length))
      = some (CHECK_STATE.CHECK_STATE_CONTENT, -5) := by
  decide!

theorem parse_headers_content_length_witness :
    (∀ x ∈ [((0 : Int), bytes "Host: x"), (9, bytes "Content-Length: 24")],
      HasStr Scenario.conn_after_headers.m_read_buf x.1 x.2 ∧ x.2 ≠ [])
    ∧ Scenario.conn_after_headers.m_read_buf 29 = 0
    ∧ ([((0 : Int), bytes "Host: x"), (9, bytes "Content-Length: 24")].foldl
        (fun c x => (c.parse_headers x.1).2) Scenario.conn_after_headers).m_content_length
      = content_length_after Scenario.conn_after_headers.m_content_length
          ([((0 : Int), bytes "Host: x"), (9, bytes "Content-Length: 24")].map Prod.snd)
    ∧ content_length_after Scenario.conn_after_headers.m_content_length
          ([((0 : Int), bytes "Host: x"), (9, bytes "Content-Length: 24")].map Prod.snd) = 24 := by
  have h : ∀ x ∈ [((0 : Int), bytes "Host: x"), (9, bytes "Content-Length: 24")],
      HasStr Scenario.conn_after_headers.m_read_buf x.1 x.2 ∧ x.2 ≠ [] := by
    intro x hx
    simp only [List.mem_cons, List.mem_singleton, List.not_mem_nil, or_false] at hx
    rcases hx with rfl | rfl
    · exact ⟨⟨by decide!, by decide!, by decide!, by decide!⟩, by decide⟩
    · exact ⟨⟨by decide!, by decide!, by decide!, by decide!⟩, by decide⟩
  have hb : Scenario.conn_after_headers.m_read_buf 29 = 0 := by decide!
  exact ⟨h, hb, (parse_headers_content_length Scenario.conn_after_headers _ 29 h hb).2.1,
    by decide!⟩

end http_conn

theorem AcceptedAt.shift {m : Mem} {r : Except Fault (HTTP_CODE × http_conn)} {base : Int}
    {U : List Nat} {n : Nat} (hn : n ≤ U.length)
    (h : AcceptedAt m r (base + n) (U.drop n)) : AcceptedAt m r base U := by
  obtain ⟨h1, h2⟩ := h
  constructor
  · intro f hf
    rcases h1 f hf with h | ⟨j, hj, hb⟩
    · exact Or.inl h
    · refine Or.inr ⟨n + j, ?_, ?_⟩
      · simp only [List.length_drop] at hj; omega
      · push_cast; omega
  · intro c' hc
    obtain ⟨j, hj, h47, hu, hb⟩ := h2 c' hc
    simp only [List.length_drop] at hj hb
    refine ⟨n + j, by omega, ?_, ?_, ?_⟩
    · rw [List.drop_drop] at h47
      rw [← h47]
    · rw [hu]; congr 1; push_cast; ring
    · rw [hb]
      have e : base + (n : Int) + (j : Int) + 1 = base + ((n + j : Nat) : Int) + 1 := by
        push_cast; ring
      rw [e]
      by_cases hc : j + 1 = U.length - n
      · rw [if_pos hc, if_pos (by omega)]
      · rw [if_neg hc, if_neg (by omega)]

theorem AcceptedAt.of_bad {m : Mem} {c' : http_conn} {base : Int} {U : List Nat} :
    AcceptedAt m (Except.ok (HTTP_CODE.BAD_REQUEST, c')) base U := by
  constructor
  · intro f hf; simp at hf
  · intro c'' hc
    simp only [Except.ok.injEq, Prod.mk.injEq] at hc
    exact absurd hc.1 (by decide)

namespace http_conn

theorem parse_request_line_accept_on_at (c : http_conn) (u : Int) (U : List Nat)
    (h47 : U.headD 0 = 47) (hu : c.m_url = some u) :
    AcceptedAt c.m_read_buf (c.parse_request_line_accept_on u U) u U := by
  have hpos : 0 < U.length := by
    cases U with
    | nil => simp at h47
    | cons _ _ => simp
  unfold parse_request_line_accept_on
  constructor
  · intro f hf
    split at hf
    · rename_i hl
      split at hf
      · rename_i hb
        refine Or.inr ⟨0, by omega, ?_⟩
        simpa using hb
      · simp at hf
    · simp at hf
  · intro c' hc
    refine ⟨0, hpos, by simpa using h47, ?_, ?_⟩
    · split at hc
      · split at hc
        · simp at hc
        · simp only [Except.ok.injEq, Prod.mk.injEq, true_and] at hc
          rw [← hc]; simpa using hu
      · simp only [Except.ok.injEq, Prod.mk.injEq, true_and] at hc
        rw [← hc]; simpa using hu
    · split at hc
      · rename_i hl
        split at hc
        · simp at hc
        · simp only [Except.ok.injEq, Prod.mk.injEq, true_and] at hc
          rw [← hc, if_pos (by omega)]
          simp
      · rename_i hl
        simp only [Except.ok.injEq, Prod.mk.injEq, true_and] at hc
        rw [← hc, if_neg (by omega)]

theorem parse_request_line_https_on_at (c : http_conn) (u1 : Int) (U : List Nat) :
    AcceptedAt c.m_read_buf (c.parse_request_line_https_on u1 U) u1 U := by
  unfold parse_request_line_https_on
  split
  · rename_i hp
    have hlen := strncasecmp_eq_length hp (by simp)
    cases hs : strchr (U.drop 8) 47 with
    | none => exact AcceptedAt.of_bad
    | some k =>
      have hk := strchr_lt hs
      simp only [List.length_drop] at hk
      have hh := strchr_head hs
      rw [List.drop_drop] at hh
      have e : u1 + 8 + (k : Int) = u1 + ((8 + k : Nat) : Int) := by push_cast; ring
      simp only [e]
      apply AcceptedAt.shift (by omega : 8 + k ≤ U.length)
      have := parse_request_line_accept_on_at
        { c with m_url := some (u1 + ((8 + k : Nat) : Int)) } (u1 + ((8 + k : Nat) : Int))
        (U.drop (8 + k)) (by rw [← hh]) rfl
      exact this
  · split
    · exact AcceptedAt.of_bad
    · rename_i h47
      have := parse_request_line_accept_on_at { c with m_url := some u1 } u1 U
        (by simpa using h47) rfl
      exact this

theorem parse_request_line_url_on_at (c : http_conn) (url : Int) (U : List Nat) :
    AcceptedAt c.m_read_buf (c.parse_request_line_url_on url U) url U := by
  unfold parse_request_line_url_on
  split
  · rename_i hp
    have hlen := strncasecmp_eq_length hp (by simp)
    cases hs : strchr (U.drop 7) 47 with
    | none =>
      constructor
      · intro f hf
        simp only [Except.error.injEq] at hf
        exact Or.inl hf.symm
      · intro c' hc; simp at hc
    | some k =>
      have hk := strchr_lt hs
      simp only [List.length_drop] at hk
      have e : url + 7 + (k : Int) = url + ((7 + k : Nat) : Int) := by push_cast; ring
      simp only [e]
      exact AcceptedAt.shift (by omega : 7 + k ≤ U.length)
        (parse_request_line_https_on_at c _ _)
  · exact parse_request_line_https_on_at c url U

theorem headD_drop_mem_take {L : List Nat} {i k : Nat} (hi : i < k) (hk : k ≤ L.length) :
    (L.drop i).headD 0 ∈ L.take k := by
  have hil : i < L.length := by omega
  have h1 : (L.drop i).headD 0 = L[i] := by
    rw [List.headD_eq_head?_getD, List.head?_drop, List.getElem?_eq_getElem hil]; rfl
  have h2 : i < (L.take k).length := by simp; omega
  have h3 : (L.take k)[i] = L[i] := by simp
  rw [h1, ← h3]
  exact List.getElem_mem h2

theorem first_token_not_blank {L : List Nat} {b : Nat} (h : b ∈ first_token L) :
    is_blank b = false := by
  unfold first_token at h
  have := List.mem_takeWhile_imp h
  simpa using this

/-- The version test and the URL tests of `parse_request_line`, on the string `L` stored at
`url`: the blank that ends the URL token is at `k`, the accepted URL starts at `j`. -/
theorem parse_request_line_version_on_at (c : http_conn) (url : Int) (L : List Nat) :
    (∀ f, c.parse_request_line_version_on url L = Except.error f →
      f = Fault.null_pointer
        ∨ ∃ k j : Nat, j + 1 = k ∧ k + 9 ≤ L.length ∧ READ_BUFFER_SIZE < url + j + 12)
    ∧ ∀ c', c.parse_request_line_version_on url L = Except.ok (HTTP_CODE.NO_REQUEST, c') →
      ∃ k j : Nat, j < k ∧ k + 9 ≤ L.length
        ∧ (∀ i, i < k → is_blank ((L.drop i).headD 0) = false)
        ∧ (L.drop j).headD 0 = 47 ∧ c'.m_url = some (url + j)
        ∧ c'.m_read_buf = if j + 1 = k then
            (c.m_read_buf.set (url + k) 0).write (url + j + 1)
              [106, 117, 100, 103, 101, 46, 104, 116, 109, 108, 0]
          else c.m_read_buf.set (url + k) 0 := by
  unfold parse_request_line_version_on
  cases hs : strpbrk L [32, 9] with
  | none =>
    constructor
    · intro f hf; simp at hf
    · intro c' hc
      simp only [Except.ok.injEq, Prod.mk.injEq] at hc
      exact absurd hc.1 (by decide)
  | some k =>
    have hk := strpbrk_lt hs
    have htok := (strpbrk_blank_some hs).1
    simp only
    split
    · constructor
      · intro f hf; simp at hf
      · intro c' hc
        simp only [Except.ok.injEq, Prod.mk.injEq] at hc
        exact absurd hc.1 (by decide)
    · rename_i hv
      have hv' : strcasecmp_eq ((L.drop (k + 1)).drop (strspn (L.drop (k + 1)) [32, 9]))
          [72, 84, 84, 80, 47, 49, 46, 49] = true := by simpa using hv
      have hl := strcasecmp_eq_length hv'
      simp only [List.length_drop, List.length_cons, List.length_nil] at hl
      have hk9 : k + 9 ≤ L.length := by omega
      have hlen : (L.take k).length = k := by simp; omega
      obtain ⟨h1, h2⟩ := parse_request_line_url_on_at
        { c with
          m_read_buf := c.m_read_buf.set (url + k) 0
          m_version := some (url + k + 1 + (strspn (L.drop (k + 1)) [32, 9] : Int)) } url (L.take k)
      constructor
      · intro f hf
        rcases h1 f hf with h | ⟨j, hj, hb⟩
        · exact Or.inl h
        · exact Or.inr ⟨k, j, by omega, hk9, hb⟩
      · intro c' hc
        obtain ⟨j, hj, h47, hu, hb⟩ := h2 c' hc
        rw [hlen] at hj hb
        refine ⟨k, j, hj, hk9, ?_, ?_, hu, hb⟩
        · intro i hi
          have := @headD_drop_mem_take L i k hi (by omega)
          rw [htok] at this
          exact first_token_not_blank this
        · rw [← h47, List.headD_eq_head?_getD, List.headD_eq_head?_getD, List.head?_drop,
            List.head?_drop, List.getElem?_take_of_lt hj]

/-- The function `parse_request_line` on the line `ln` stored at `text`: the blank behind the
method is at `a`, the accepted URL starts at `q`, the blank that ends the URL token is at `e`. -/
theorem parse_request_line_on_at (c : http_conn) (text : Int) (ln : List Nat) :
    (∀ f, c.parse_request_line_on text ln = Except.error f →
      f = Fault.null_pointer
        ∨ ∃ q : Nat, q + 10 ≤ ln.length ∧ READ_BUFFER_SIZE < text + q + 12)
    ∧ ∀ c', c.parse_request_line_on text ln = Except.ok (HTTP_CODE.NO_REQUEST, c') →
      ∃ a q e : Nat, a < q ∧ q < e ∧ e + 9 ≤ ln.length
        ∧ (∀ i, q ≤ i → i < e → is_blank ((ln.drop i).headD 0) = false)
        ∧ (ln.drop q).headD 0 = 47 ∧ c'.m_url = some (text + q)
        ∧ c'.m_read_buf = if q + 1 = e then
            ((c.m_read_buf.set (text + a) 0).set (text + e) 0).write (text + q + 1)
              [106, 117, 100, 103, 101, 46, 104, 116, 109, 108, 0]
          else (c.m_read_buf.set (text + a) 0).set (text + e) 0 := by
  have key : ∀ (c1 : http_conn) (k0 : Nat), k0 < ln.length →
      c1.m_read_buf = c.m_read_buf.set (text + k0) 0 →
      (∀ f, c1.parse_request_line_version_on
            (text + k0 + 1 + (strspn (ln.drop (k0 + 1)) [32, 9] : Int))
            ((ln.drop (k0 + 1)).drop (strspn (ln.drop (k0 + 1)) [32, 9])) = Except.error f →
        f = Fault.null_pointer
          ∨ ∃ q : Nat, q + 10 ≤ ln.length ∧ READ_BUFFER_SIZE < text + q + 12)
      ∧ ∀ c', c1.parse_request_line_version_on
            (text + k0 + 1 + (strspn (ln.drop (k0 + 1)) [32, 9] : Int))
            ((ln.drop (k0 + 1)).drop (strspn (ln.drop (k0 + 1)) [32, 9]))
          = Except.ok (HTTP_CODE.NO_REQUEST, c') →
        ∃ a q e : Nat, a < q ∧ q < e ∧ e + 9 ≤ ln.length
          ∧ (∀ i, q ≤ i → i < e → is_blank ((ln.drop i).headD 0) = false)
          ∧ (ln.drop q).headD 0 = 47 ∧ c'.m_url = some (text + q)
          ∧ c'.m_read_buf = if q + 1 = e then
              ((c.m_read_buf.set (text + a) 0).set (text + e) 0).write (text + q + 1)
                [106, 117, 100, 103, 101, 46, 104, 116, 109, 108, 0]
            else (c.m_read_buf.set (text + a) 0).set (text + e) 0 := by
    intro c1 k0 hk0 hbuf
    have hsp := strspn_le (ln.drop (k0 + 1)) [32, 9]
    simp only [List.length_drop] at hsp
    generalize strspn (ln.drop (k0 + 1)) [32, 9] = sp at hsp ⊢
    obtain ⟨h1, h2⟩ := parse_request_line_version_on_at c1 (text + k0 + 1 + (sp : Int))
      ((ln.drop (k0 + 1)).drop sp)
    simp only [List.length_drop] at h1 h2
    constructor
    · intro f hf
      rcases h1 f hf with h | ⟨k, j, hj, hk9, hb⟩
      · exact Or.inl h
      · refine Or.inr ⟨k0 + 1 + sp + j, by omega, ?_⟩
        push_cast; omega
    · intro c' hc
      obtain ⟨k, j, hj, hk9, hnb, h47, hu, hb⟩ := h2 c' hc
      refine ⟨k0, k0 + 1 + sp + j, k0 + 1 + sp + k, by omega, by omega, by omega, ?_, ?_, ?_, ?_⟩
      · intro i hi1 hi2
        have := hnb (i - (k0 + 1 + sp)) (by omega)
        rw [List.drop_drop, List.drop_drop] at this
        rw [← this]; congr 3; omega
      · rw [List.drop_drop, List.drop_drop] at h47
        rw [← h47]; congr 2; omega
      · rw [hu]; congr 1; push_cast; ring
      · rw [hb, hbuf]
        have e1 : text + (k0 : Int) + 1 + (sp : Int) + (k : Int)
            = text + ((k0 + 1 + sp + k : Nat) : Int) := by push_cast; ring
        have e2 : text + (k0 : Int) + 1 + (sp : Int) + (j : Int) + 1
            = text + ((k0 + 1 + sp + j : Nat) : Int) + 1 := by push_cast; ring
        rw [e1, e2]
        by_cases hjk : j + 1 = k
        · rw [if_pos hjk, if_pos (by omega)]
        · rw [if_neg hjk, if_neg (by omega)]
  unfold parse_request_line_on
  cases hs : strpbrk ln [32, 9] with
  | none =>
    constructor
    · intro f hf; simp at hf
    · intro c' hc
      simp only [Except.ok.injEq, Prod.mk.injEq] at hc
      exact absurd hc.1 (by decide)
  | some k0 =>
    have hk0 := strpbrk_lt hs
    simp only
    split
    · exact key _ k0 hk0 rfl
    · split
      · exact key _ k0 hk0 rfl
      · constructor
        · intro f hf; simp at hf
        · intro c' hc
          simp only [Except.ok.injEq, Prod.mk.injEq] at hc
          exact absurd hc.1 (by decide)

/-- C11: the request line `ln` is stored at `text` and lies, with the two bytes behind it, among
the bytes already scanned (`text + |ln| + 2 ≤ m_checked_idx ≤ 2048`).  Then `parse_request_line`
does not store outside the read buffer, and when it accepts the line, `m_url` points at a `/` of
the line and no byte before `text` or from `m_checked_idx` on is changed.  When the URL is exactly
`/`, that is, the `/` is followed directly by the blank that ends the URL token, the parsed URL
afterwards reads `/judge.html`, and the rewrite stores the eleven bytes at `m_url + 1` up to
`m_url + 11`, an index below `m_checked_idx` and below 2048. -/
theorem parse_request_line_root_url (c : http_conn) (text : Int) (ln : List Nat)
    (h : HasStr c.m_read_buf text ln) (hline : text + ln.length + 2 ≤ c.m_checked_idx)
    (hchk : c.m_checked_idx ≤ READ_BUFFER_SIZE) :
    c.parse_request_line text ≠ Except.error Fault.read_buf_bounds
    ∧ ∀ c', c.parse_request_line text = Except.ok (HTTP_CODE.NO_REQUEST, c') →
      ∃ u, c'.m_url = some u ∧ text ≤ u ∧ c.m_read_buf u = 47
        ∧ (∀ i, (i < text ∨ c.m_checked_idx ≤ i) → c'.m_read_buf i = c.m_read_buf i)
        ∧ ((c.m_read_buf (u + 1) = 32 ∨ c.m_read_buf (u + 1) = 9) →
          c'.url_str = some (bytes "/judge.html")
          ∧ u + 11 < c.m_checked_idx ∧ u + 11 < READ_BUFFER_SIZE
          ∧ ∃ a, text ≤ a ∧ a < u
            ∧ c'.m_read_buf = ((c.m_read_buf.set a 0).set (u + 1) 0).write (u + 1)
                [106, 117, 100, 103, 101, 46, 104, 116, 109, 108, 0]) := by
  rw [parse_request_line_eq c text ln h]
  obtain ⟨h1, h2⟩ := parse_request_line_on_at c text ln
  constructor
  · intro hf
    rcases h1 _ hf with hn | ⟨q, hq, hb⟩
    · cases hn
    · omega
  · intro c' hc
    obtain ⟨a, q, e, haq, hqe, he9, hnb, h47, hu, hb⟩ := h2 c' hc
    have hmu : c.m_read_buf (text + q) = 47 := by
      rw [h.byte_at q (by omega)]; exact h47
    refine ⟨text + q, hu, by omega, hmu, ?_, ?_⟩
    · intro i hi
      rw [hb]
      split
      · simp only [Mem.write, Mem.set, List.length_cons, List.length_nil]
        rw [if_neg (by push_cast; omega), if_neg (by omega), if_neg (by omega)]
      · simp only [Mem.set]
        rw [if_neg (by omega), if_neg (by omega)]
    · intro hbl
      have hq1 : q + 1 = e := by
        by_contra hne
        have hnb1 := hnb (q + 1) (by omega) (by omega)
        have hb1 := h.byte_at (q + 1) (by omega)
        have e1 : text + ((q + 1 : Nat) : Int) = text + (q : Int) + 1 := by push_cast; ring
        rw [e1] at hb1
        rw [← hb1] at hnb1
        rcases hbl with h32 | h9
        · rw [h32] at hnb1; exact absurd hnb1 (by decide)
        · rw [h9] at hnb1; exact absurd hnb1 (by decide)
      have e2 : text + (e : Int) = text + (q : Int) + 1 := by rw [← hq1]; push_cast; ring
      rw [if_pos hq1, e2] at hb
      have hu12 : text + (q : Int) + 12 ≤ READ_BUFFER_SIZE := by omega
      have hS0 : HasStr c.m_read_buf (text + q) (ln.drop q) := h.drop q (by omega)
      have hS1 := hS0.set_outside (text + a) 0 (Or.inl (by omega))
      have hS2 := hS1.take_set 1 (by simp only [List.length_drop]; omega)
      have htake : (ln.drop q).take 1 = [47] := by
        cases hd : ln.drop q with
        | nil => rw [hd] at h47; simp at h47
        | cons b t => rw [hd] at h47; simp at h47; simp [h47]
      rw [htake] at hS2
      have e3 : text + (q : Int) + ((1 : Nat) : Int) = text + (q : Int) + 1 := by push_cast; ring
      rw [e3] at hS2
      have hJ := HasStr.judge hS2 hu12
      refine ⟨?_, by omega, by omega, text + a, by omega, by omega, hb⟩
      unfold url_str
      rw [hu]
      simp only [Option.map_some', Option.some.injEq]
      unfold str
      rw [hb, bytes_judge]
      exact hJ.cstr_eq

theorem parse_request_line_root_url_witness :
    HasStr (Scenario.conn_after_line (bytes "GET / HTTP/1.1")).m_read_buf 0 (bytes "GET / HTTP/1.1")
    ∧ (0 : Int) + (bytes "GET / HTTP/1.1").length + 2
        ≤ (Scenario.conn_after_line (bytes "GET / HTTP/1.1")).m_checked_idx
    ∧ (Scenario.conn_after_line (bytes "GET / HTTP/1.1")).m_checked_idx ≤ READ_BUFFER_SIZE
    ∧ ((Scenario.conn_after_line (bytes "GET / HTTP/1.1")).parse_request_line 0).toOption.map
        (fun r => (r.1, r.2.m_url, r.2.url_str))
      = some (HTTP_CODE.NO_REQUEST, some 4, some (bytes "/judge.html"))
    ∧ (Scenario.conn_after_line (bytes "GET / HTTP/1.1")).m_read_buf 5 = 32
    ∧ (Scenario.conn_after_line (bytes "GET / HTTP/1.1")).parse_request_line 0
        ≠ Except.error Fault.read_buf_bounds
    ∧ ∀ c', (Scenario.conn_after_line (bytes "GET / HTTP/1.1")).parse_request_line 0
          = Except.ok (HTTP_CODE.NO_REQUEST, c') →
        ∃ u, c'.m_url = some u ∧ (0 : Int) ≤ u
          ∧ (Scenario.conn_after_line (bytes "GET / HTTP/1.1")).m_read_buf u = 47
          ∧ (∀ i, (i < 0 ∨ (Scenario.conn_after_line (bytes "GET / HTTP/1.1")).m_checked_idx ≤ i) →
              c'.m_read_buf i = (Scenario.conn_after_line (bytes "GET / HTTP/1.1")).m_read_buf i)
          ∧ (((Scenario.conn_after_line (bytes "GET / HTTP/1.1")).m_read_buf (u + 1) = 32
              ∨ (Scenario.conn_after_line (bytes "GET / HTTP/1.1")).m_read_buf (u + 1) = 9) →
            c'.url_str = some (bytes "/judge.html")
            ∧ u + 11 < (Scenario.conn_after_line (bytes "GET / HTTP/1.1")).m_checked_idx
            ∧ u + 11 < READ_BUFFER_SIZE
            ∧ ∃ a, (0 : Int) ≤ a ∧ a < u
              ∧ c'.m_read_buf
                = (((Scenario.conn_after_line (bytes "GET / HTTP/1.1")).m_read_buf.set a 0).set
                    (u + 1) 0).write (u + 1)
                    [106, 117, 100, 103, 101, 46, 104, 116, 109, 108, 0]) := by
  have h : HasStr (Scenario.conn_after_line (bytes "GET / HTTP/1.1")).m_read_buf 0
      (bytes "GET / HTTP/1.1") := ⟨by decide!, by decide!, by decide!, by decide!⟩
  exact ⟨h, by decide!, by decide!, by decide!, by decide!,
    parse_request_line_root_url _ 0 _ h (by decide!) (by decide!)⟩

end http_conn

theorem strrchr_aux_not_mem (ch : Nat) : ∀ (B : List Nat) (i : Nat) (last : Option Nat),
    ch ∉ B → strrchr_aux ch B i last = last := by
  intro B
  induction B with
  | nil => intro i last _; rfl
  | cons b t ih =>
    intro i last h
    simp only [List.mem_cons, not_or] at h
    unfold strrchr_aux
    rw [if_neg (fun hb => h.1 hb.symm)]
    exact ih _ _ h.2

theorem strrchr_aux_append (ch : Nat) (B : List Nat) (hB : ch ∉ B) :
    ∀ (A : List Nat) (i : Nat) (last : Option Nat),
      strrchr_aux ch (A ++ ch :: B) i last = some (i + A.length) := by
  intro A
  induction A with
  | nil =>
    intro i last
    simp only [List.nil_append, List.length_nil, Nat.add_zero]
    unfold strrchr_aux
    rw [if_pos rfl]
    exact strrchr_aux_not_mem ch B _ _ hB
  | cons a t ih =>
    intro i last
    simp only [List.cons_append, List.length_cons]
    unfold strrchr_aux
    rw [ih]
    congr 1; omega

theorem strrchr_append (ch : Nat) (A B : List Nat) (hB : ch ∉ B) :
    strrchr (A ++ ch :: B) ch = some A.length := by
  unfold strrchr
  rw [strrchr_aux_append ch B hB]
  simp

namespace http_conn

/-- The file name left by `strcpy(m_real_file, doc_root)` and `strncpy(m_real_file + len, src, n)`
in a cleared `m_real_file`. -/
theorem real_file_str_strncpy (c : http_conn) (root src : List Nat) (n : Nat)
    (hroot : ∀ b ∈ root, b ≠ 0) (hsrc : ∀ b ∈ src, b ≠ 0)
    (hfit : root.length + (src.take n).length < 200) :
    real_file_str ({ c with m_real_file := Mem.zero.write 0 (root ++ [0]) }.strncpy_real_file
      root.length src n) = root ++ src.take n := by
  unfold real_file_str cstr strncpy_real_file
  apply cstr_aux_eq
  · intro k hk
    simp only [List.length_append] at hk
    simp only [Mem.write, Mem.zero, List.length_append, List.length_replicate, List.length_cons,
      List.length_nil, zero_add]
    by_cases hkr : k < root.length
    · rw [if_neg (by omega), if_pos (by constructor <;> omega)]
      rw [List.getElem?_append_left hkr]
      simp only [Int.toNat_ofNat, sub_zero]
      rw [List.getD_eq_getElem?_getD, List.getElem?_append_left hkr,
        List.getElem?_eq_getElem hkr]
      rfl
    · rw [if_pos (by constructor <;> omega)]
      rw [List.getElem?_append_right (by omega)]
      have e : ((k : Int) - (root.length : Int)).toNat = k - root.length := by omega
      rw [e, List.getD_eq_getElem?_getD, List.getElem?_append_left (by omega)]
      have hlt : k - root.length < (src.take n).length := by omega
      rw [List.getElem?_eq_getElem hlt]
      rfl
  · intro b hb
    rcases List.mem_append.mp hb with h | h
    · exact hroot b h
    · exact hsrc b (List.mem_of_mem_take h)
  · simp only [Mem.write, Mem.zero, List.length_append, List.length_replicate, List.length_cons,
      List.length_nil, zero_add]
    by_cases hpad : (src.take n).length < (src.take n).length + (n - src.length)
    · rw [if_pos (by constructor <;> push_cast <;> omega)]
      have e : (((root.length + (src.take n).length : Nat) : Int) - (root.length : Int)).toNat
          = (src.take n).length := by omega
      rw [e, List.getD_eq_getElem?_getD, List.getElem?_append_right (by omega)]
      simp only [Nat.sub_self]
      rw [List.getElem?_replicate]
      split <;> rfl
    · rw [if_neg (by push_cast; omega)]
      by_cases h0 : (src.take n).length = 0
      · rw [if_pos (by constructor <;> push_cast <;> omega)]
        have e : (((root.length + (src.take n).length : Nat) : Int) - 0).toNat = root.length := by
          omega
        rw [e, List.getD_eq_getElem?_getD, List.getElem?_append_right (by omega)]
        simp
      · rw [if_neg (by push_cast; omega)]
  · simp only [List.length_append, FILENAME_LEN]
    omega

theorem do_request_stat_users (env : Env) (users : Users) (c : http_conn) :
    (do_request_stat env users c).2.2 = users := by
  unfold do_request_stat
  simp only
  repeat' split
  all_goals rfl

/-- The chain of tests on the character after the last `/`, for a name that fits. -/
theorem do_request_file_ok (c : http_conn) (len : Nat) (url p : Int) (U : List Nat)
    (hU : HasStr c.m_read_buf url U)
    (hfit : len + (resolved_name len U (c.m_read_buf (p + 1))).length < 200) :
    ∃ src n, c.do_request_file len url p = Except.ok (c.strncpy_real_file len src n)
      ∧ src.take n = resolved_name len U (c.m_read_buf (p + 1)) ∧ ∀ b ∈ src, b ≠ 0 := by
  unfold do_request_file do_request_page
  unfold resolved_name page_name at hfit ⊢
  rw [str_of_HasStr hU]
  generalize c.m_read_buf (p + 1) = ch at hfit ⊢
  by_cases h0 : ch = 48
  · simp only [if_pos h0] at hfit ⊢
    have hl : (bytes "/register.html").length = 14 := by decide
    rw [hl] at hfit
    refine ⟨bytes "/register.html", (bytes "/register.html").length, ?_, by simp, by decide⟩
    rw [if_neg (by rw [hl]; unfold FILENAME_LEN; omega)]
  by_cases h1 : ch = 49
  · simp only [if_neg h0, if_pos h1] at hfit ⊢
    have hl : (bytes "/log.html").length = 9 := by decide
    rw [hl] at hfit
    refine ⟨bytes "/log.html", (bytes "/log.html").length, ?_, by simp, by decide⟩
    rw [if_neg (by rw [hl]; unfold FILENAME_LEN; omega)]
  by_cases h5 : ch = 53
  · simp only [if_neg h0, if_neg h1, if_pos h5] at hfit ⊢
    have hl : (bytes "/picture.html").length = 13 := by decide
    rw [hl] at hfit
    refine ⟨bytes "/picture.html", (bytes "/picture.html").length, ?_, by simp, by decide⟩
    rw [if_neg (by rw [hl]; unfold FILENAME_LEN; omega)]
  by_cases h6 : ch = 54
  · simp only [if_neg h0, if_neg h1, if_neg h5, if_pos h6] at hfit ⊢
    have hl : (bytes "/video.html").length = 11 := by decide
    rw [hl] at hfit
    refine ⟨bytes "/video.html", (bytes "/video.html").length, ?_, by simp, by decide⟩
    rw [if_neg (by rw [hl]; unfold FILENAME_LEN; omega)]
  by_cases h7 : ch = 55
  · simp only [if_neg h0, if_neg h1, if_neg h5, if_neg h6, if_pos h7] at hfit ⊢
    have hl : (bytes "/fans.html").length = 10 := by decide
    rw [hl] at hfit
    refine ⟨bytes "/fans.html", (bytes "/fans.html").length, ?_, by simp, by decide⟩
    rw [if_neg (by rw [hl]; unfold FILENAME_LEN; omega)]
  simp only [if_neg h0, if_neg h1, if_neg h5, if_neg h6, if_neg h7] at hfit ⊢
  have hl : len < 200 := by
    by_contra hge
    have hz : 199 - len = 0 := by omega
    rw [hz] at hfit
    simp at hfit
    omega
  refine ⟨U, 199 - len, ?_, rfl, hU.nonzero⟩
  rw [if_neg (by unfold FILENAME_LEN; omega)]
  have e : (FILENAME_LEN - (len : Int) - 1).toNat = 199 - len := by unfold FILENAME_LEN; omega
  rw [e]

/-- The file name resolved when it fits the buffer: for a `GET` request (`cgi` is 0) whose URL
`U` is stored at `m_url`, with the file-name buffer cleared as `init` leaves it, and `B` the part
of `U` behind its last `/`: when
the document root followed by the name chosen is shorter than the 200-byte file-name buffer,
`do_request` returns a code, and the file name it resolves is the document root followed by that
name, which is the fixed page chosen by the first character of `B`, and for any other character
the URL itself cut to `199 - len` bytes. -/
theorem do_request_resolved_file (env : Env) (users : Users) (c : http_conn) (url : Int)
    (U A B : List Nat) (hcgi : c.cgi = 0) (hrf : c.m_real_file = Mem.zero)
    (hroot : ∀ b ∈ c.doc_root, b ≠ 0) (hurl : c.m_url = some url)
    (hU : HasStr c.m_read_buf url U) (hsl : U = A ++ 47 :: B) (hB : 47 ∉ B)
    (hfit : c.doc_root.length + (resolved_name c.doc_root.length U (B.headD 0)).length < 200) :
    ∃ code c', c.do_request env users = Except.ok (code, c', users)
      ∧ c'.real_file_str = c.doc_root ++ resolved_name c.doc_root.length U (B.headD 0) := by
  have hlen : c.doc_root.length < 200 := by omega
  have hr : strrchr U 47 = some A.length := by rw [hsl]; exact strrchr_append 47 A B hB
  have hb : c.m_read_buf (url + (A.length : Int) + 1) = B.headD 0 := by
    have := hU.byte_at (A.length + 1) (by rw [hsl]; simp)
    have e : url + ((A.length + 1 : Nat) : Int) = url + (A.length : Int) + 1 := by
      push_cast; ring
    rw [e] at this
    rw [this, hsl]
    have e2 : A ++ 47 :: B = (A ++ [47]) ++ B := by simp
    rw [e2, List.drop_left' (by simp)]
  have hU1 : HasStr ({ c with m_real_file := Mem.zero.write 0 (c.doc_root ++ [0]) } : http_conn
      ).m_read_buf url U := hU
  have hfit1 : c.doc_root.length + (resolved_name c.doc_root.length U
      (({ c with m_real_file := Mem.zero.write 0 (c.doc_root ++ [0]) } : http_conn).m_read_buf
        (url + (A.length : Int) + 1))).length < 200 := by
    show c.doc_root.length + (resolved_name c.doc_root.length U
      (c.m_read_buf (url + (A.length : Int) + 1))).length < 200
    rw [hb]; exact hfit
  obtain ⟨src, n, hfile, htake, hsrc⟩ := do_request_file_ok
    { c with m_real_file := Mem.zero.write 0 (c.doc_root ++ [0]) } c.doc_root.length url
    (url + (A.length : Int)) U hU1 hfit1
  have hname : src.take n = resolved_name c.doc_root.length U (B.headD 0) := by
    rw [htake]
    show resolved_name c.doc_root.length U (c.m_read_buf (url + (A.length : Int) + 1)) = _
    rw [hb]
  have hstr : ({ c with m_real_file := Mem.zero.write 0 (c.doc_root ++ [0]) } : http_conn).str url
      = U := str_of_HasStr hU1
  have hdo : c.do_request env users = Except.ok (do_request_stat env users
      ({ c with m_real_file := Mem.zero.write 0 (c.doc_root ++ [0]) }.strncpy_real_file
        c.doc_root.length src n)) := by
    unfold do_request
    rw [if_neg (by unfold FILENAME_LEN; omega), hrf]
    generalize hc1 : ({ c with m_real_file := Mem.zero.write 0 (c.doc_root ++ [0]) } : http_conn)
      = c1 at hfile hstr
    have u1 : c1.m_url = some url := by rw [← hc1]; exact hurl
    have g1 : c1.cgi = 0 := by rw [← hc1]; exact hcgi
    have d1 : c1.doc_root = c.doc_root := by rw [← hc1]
    simp only [u1, hstr, hr, g1, d1]
    rw [if_neg (fun h => absurd h.1 (by decide))]
    simp only [hfile]
  refine ⟨(do_request_stat env users
      ({ c with m_real_file := Mem.zero.write 0 (c.doc_root ++ [0]) }.strncpy_real_file
        c.doc_root.length src n)).1,
    (do_request_stat env users
      ({ c with m_real_file := Mem.zero.write 0 (c.doc_root ++ [0]) }.strncpy_real_file
        c.doc_root.length src n)).2.1, ?_, ?_⟩
  · rw [hdo]
    congr 1
    refine Prod.ext rfl (Prod.ext rfl ?_)
    exact do_request_stat_users _ _ _
  · unfold real_file_str
    rw [do_request_stat_real_file]
    have := real_file_str_strncpy c c.doc_root src n hroot hsrc (by rw [hname]; exact hfit)
    unfold real_file_str at this
    rw [this, hname]

/-- C18 (code_bug): with a document root of 190 bytes the request `GET /0 HTTP/1.1` does
not resolve to the root followed by `/register.html`: the 14 bytes of the name are stored
from offset 190 on, past the end of the 200-byte file-name buffer.  With a document root of 200
bytes the copy of the root itself ends past the buffer, for the request `GET /index.html
HTTP/1.1`. -/
theorem do_request_long_root :
    Scenario.doc_root_190.length = 190
    ∧ fault_of (((fresh 0 Scenario.doc_root_190).received
          (bytes "GET /0 HTTP/1.1\r\n\r\n")).process_read Scenario.env_ok Scenario.no_users)
      = some Fault.real_file_bounds
    ∧ Scenario.doc_root_200.length = 200
    ∧ fault_of (((fresh 0 Scenario.doc_root_200).received
          Scenario.request_index).process_read Scenario.env_ok Scenario.no_users)
      = some Fault.real_file_bounds := by
  decide!

theorem do_request_resolved_file_witness :
    (Scenario.conn_parsed (bytes "GET /5 HTTP/1.1")).cgi = 0
    ∧ (Scenario.conn_parsed (bytes "GET /5 HTTP/1.1")).m_real_file = Mem.zero
    ∧ (∀ b ∈ (Scenario.conn_parsed (bytes "GET /5 HTTP/1.1")).doc_root, b ≠ 0)
    ∧ (Scenario.conn_parsed (bytes "GET /5 HTTP/1.1")).m_url = some 4
    ∧ HasStr (Scenario.conn_parsed (bytes "GET /5 HTTP/1.1")).m_read_buf 4 (bytes "/5")
    ∧ bytes "/5" = [] ++ 47 :: [53]
    ∧ 47 ∉ [53]
    ∧ resolved_name (Scenario.conn_parsed (bytes "GET /5 HTTP/1.1")).doc_root.length (bytes "/5")
        ([53].headD 0) = bytes "/picture.html"
    ∧ ∃ code c', (Scenario.conn_parsed (bytes "GET /5 HTTP/1.1")).do_request Scenario.env_ok
          Scenario.no_users = Except.ok (code, c', Scenario.no_users)
        ∧ c'.real_file_str = (Scenario.conn_parsed (bytes "GET /5 HTTP/1.1")).doc_root
            ++ resolved_name (Scenario.conn_parsed (bytes "GET /5 HTTP/1.1")).doc_root.length
                (bytes "/5") ([53].headD 0) :=
  ⟨by decide!, rfl, by decide!, by decide!, ⟨by decide!, by decide!, by decide!, by decide!⟩,
    by decide, by decide, by decide!,
    do_request_resolved_file Scenario.env_ok Scenario.no_users _ 4 (bytes "/5") [] [53]
      (by decide!) rfl (by decide!) (by decide!)
      ⟨by decide!, by decide!, by decide!, by decide!⟩ (by decide) (by decide) (by decide!)⟩

end http_conn

namespace Config

/-! ## The options of the command line (C21) -/

/-- C21 (code_bug): for the command line `./server -a 1`, `getopt` returns `'a'` with `optarg`
the null pointer, because no colon follows `a` in the option string, and `parse_arg` passes the
null pointer to `atoi`; `actor_model` is not set to 1.  The flag `-p`, which has its colon, stores
its argument: `./server -p 8080 -t 4` leaves `PORT` = 8080 and `thread_num` = 4 and the other
fields at their defaults. -/
theorem parse_arg_actor_model_null :
    getopt_calls (bytes "p:l:m:o:s:t:c:a") 2 [bytes "-a", bytes "1"] = [(97, none)]
    ∧ fault_of (Config.construct.parse_arg [bytes "./server", bytes "-a", bytes "1"])
      = some Fault.null_pointer
    ∧ (Config.construct.parse_arg
        [bytes "./server", bytes "-p", bytes "8080", bytes "-t", bytes "4"]).toOption
      = some { Config.construct with PORT := 8080, thread_num := 4 } := by
  decide

end Config

namespace http_conn

/-! ## Partial writes (C22), the event mask of `init` (C27), and the scans of the body (C28, C29) -/

/-- C22 (code_bug): the 200 response for a file of 1000 bytes has a header of 82 bytes, so 1082
bytes to send.  After `writev` has sent 30 bytes and then 20 bytes, 32 header bytes are unsent, but
segment 0 has length 2 (and 2 + 1000 is not the 1032 bytes left).  After it has sent 30 bytes and
then 30 bytes, only 60 of the 82 header bytes are written, yet segment 0 is zeroed and segment 1
starts 22 bytes before the file address. -/
theorem write_partial_header_twice :
    (Scenario.conn_file_ready.m_write_idx, Scenario.conn_file_ready.bytes_to_send,
        Scenario.conn_file_ready.m_file_address) = (82, 1082, 4096)
    ∧ (fun r : Bool × http_conn =>
        (r.1, r.2.bytes_have_send, r.2.bytes_to_send, r.2.m_iv0.iov_base, r.2.m_iv0.iov_len,
          r.2.m_iv1.iov_len))
        (Scenario.conn_file_ready.write [WritevResult.sent 30, WritevResult.sent 20])
      = (true, 50, 1032, 50, 2, 1000)
    ∧ (fun r : Bool × http_conn =>
        (r.1, r.2.bytes_have_send, r.2.bytes_to_send, r.2.m_iv0.iov_len, r.2.m_iv1.iov_base,
          r.2.m_iv1.iov_len))
        (Scenario.conn_file_ready.write [WritevResult.sent 30, WritevResult.sent 30])
      = (true, 60, 1022, 0, 4074, 1022) := by
  decide!

/-- C27 (code_bug): on a connection object that has not been initialised before (`m_TRIGMode`
is 0), `init` with the `TRIGMode` argument 1 registers the socket without `EPOLLET`; and on the
object so initialised, `init` with the `TRIGMode` argument 0 registers the socket with
`EPOLLET`.  The mask follows the value that `m_TRIGMode` had before the call. -/
theorem init_conn_uses_old_trigger_mode :
    (blank.init_conn [] 7 Scenario.doc_root 1 0).1 = [(7, EPOLLIN ||| EPOLLRDHUP ||| EPOLLONESHOT)]
    ∧ (blank.init_conn [] 7 Scenario.doc_root 1 0).2.m_TRIGMode = 1
    ∧ ((blank.init_conn [] 7 Scenario.doc_root 1 0).2.init_conn [] 7 Scenario.doc_root 0 0).1
      = [(7, EPOLLIN ||| EPOLLRDHUP ||| EPOLLONESHOT ||| EPOLLET)]
    ∧ EPOLLIN ||| EPOLLRDHUP ||| EPOLLONESHOT ≠ EPOLLIN ||| EPOLLRDHUP ||| EPOLLONESHOT ||| EPOLLET := by
  decide

/-- C28 (code_bug): for the request `GET /index.html HTTP/1.1`, `Content-Length: -3000`, blank
line, `parse_content` finds the body complete and stores the NUL at the start of the body plus
-3000, an index below 0: `process_read` leaves the read buffer.  It does so too for a request
that fills the buffer, a head of 42 bytes with `Content-Length: 2006` and the 2006 bytes of the
body: the NUL goes to index 2048. -/
theorem process_read_negative_length_out_of_bounds :
    fault_of (((fresh 0 Scenario.doc_root).received Scenario.request_length_minus_3000).process_read
      Scenario.env_ok Scenario.no_users) = some Fault.read_buf_bounds
    ∧ Scenario.request_full_buffer.length = 2048
    ∧ fault_of (((fresh 0 Scenario.doc_root).received Scenario.request_full_buffer).process_read
      Scenario.env_ok Scenario.no_users) = some Fault.read_buf_bounds := by
  decide!

/-- C29 (code_bug): for the login request with the body `user=alice`, which has no `&`, the scan
for the user name does not stop at the NUL that ends the body; it goes on until it has stored more
than 100 bytes in `name`. -/
theorem do_request_scan_without_amp :
    fault_of (((fresh 0 Scenario.doc_root).received Scenario.request_login_no_amp).process_read
      Scenario.env_ok Scenario.no_users) = some Fault.stack_buffer := by
  decide!

/-! ## The three answers of `parse_line` (C23, C24, C25) and the bounded append (C26) -/

/-- C23: the first CR or LF at or after `m_checked_idx` is a CR at index `i`, with `i + 1` below
`m_read_idx` and a LF at `i + 1`.  Then `parse_line` returns `LINE_OK`, the bytes at `i` and
`i + 1` are NUL afterwards, no other byte is changed, and `m_checked_idx` is `i + 2`. -/
theorem parse_line_first_crlf (c : http_conn) (i : Int) (hi : c.m_checked_idx ≤ i)
    (hfirst : ∀ j, c.m_checked_idx ≤ j → j < i → c.m_read_buf j ≠ 13 ∧ c.m_read_buf j ≠ 10)
    (hcr : c.m_read_buf i = 13) (hlt : i + 1 < c.m_read_idx) (hlf : c.m_read_buf (i + 1) = 10) :
    c.parse_line = (LINE_STATUS.LINE_OK,
      { c with m_read_buf := (c.m_read_buf.set i 0).set (i + 1) 0, m_checked_idx := i + 2 })
    ∧ c.parse_line.2.m_read_buf i = 0 ∧ c.parse_line.2.m_read_buf (i + 1) = 0
    ∧ (∀ j, j ≠ i → j ≠ i + 1 → c.parse_line.2.m_read_buf j = c.m_read_buf j)
    ∧ c.parse_line.2.m_checked_idx = i + 2 := by
  have e : c.m_checked_idx + (((i - c.m_checked_idx).toNat : Nat) : Int) = i := by omega
  have key := parse_line_at_crlf c (i - c.m_checked_idx).toNat (by omega)
    (fun k hk => hfirst _ (by omega) (by omega)) (by rw [e]; exact hcr) (by rw [e]; exact hlf)
  rw [e] at key
  rw [key]
  refine ⟨rfl, ?_, ?_, ?_, rfl⟩
  · simp [Mem.set]
  · simp [Mem.set]
  · intro j h1 h2
    simp only [Mem.set]
    rw [if_neg h2, if_neg h1]

theorem parse_line_first_crlf_witness :
    ((fresh 0 Scenario.doc_root).received (bytes "ab\r\n")).m_checked_idx ≤ 2
    ∧ (∀ j, ((fresh 0 Scenario.doc_root).received (bytes "ab\r\n")).m_checked_idx ≤ j → j < 2 →
        ((fresh 0 Scenario.doc_root).received (bytes "ab\r\n")).m_read_buf j ≠ 13
        ∧ ((fresh 0 Scenario.doc_root).received (bytes "ab\r\n")).m_read_buf j ≠ 10)
    ∧ ((fresh 0 Scenario.doc_root).received (bytes "ab\r\n")).m_read_buf 2 = 13
    ∧ (2 : Int) + 1 < ((fresh 0 Scenario.doc_root).received (bytes "ab\r\n")).m_read_idx
    ∧ ((fresh 0 Scenario.doc_root).received (bytes "ab\r\n")).m_read_buf (2 + 1) = 10
    ∧ ((fresh 0 Scenario.doc_root).received (bytes "ab\r\n")).parse_line.1 = LINE_STATUS.LINE_OK
    ∧ ((fresh 0 Scenario.doc_root).received (bytes "ab\r\n")).parse_line.2.m_read_buf 2 = 0
    ∧ ((fresh 0 Scenario.doc_root).received (bytes "ab\r\n")).parse_line.2.m_read_buf (2 + 1) = 0
    ∧ ((fresh 0 Scenario.doc_root).received (bytes "ab\r\n")).parse_line.2.m_checked_idx
      = 2 + 2 := by
  have h0 : ((fresh 0 Scenario.doc_root).received (bytes "ab\r\n")).m_checked_idx = 0 := by
    decide!
  have hfirst : ∀ j, ((fresh 0 Scenario.doc_root).received (bytes "ab\r\n")).m_checked_idx ≤ j →
      j < 2 → ((fresh 0 Scenario.doc_root).received (bytes "ab\r\n")).m_read_buf j ≠ 13
        ∧ ((fresh 0 Scenario.doc_root).received (bytes "ab\r\n")).m_read_buf j ≠ 10 := by
    intro j h1 h2
    rw [h0] at h1
    have hj : j = 0 ∨ j = 1 := by omega
    rcases hj with rfl | rfl
    · decide!
    · decide!
  have key := parse_line_first_crlf ((fresh 0 Scenario.doc_root).received (bytes "ab\r\n")) 2
    (by decide!) hfirst (by decide!) (by decide!) (by decide!)
  exact ⟨by decide!, hfirst, by decide!, by decide!, by decide!, by rw [key.1], key.2.1,
    key.2.2.1, key.2.2.2.2⟩

/-- C24 (counterexample): the read buffer holds CR LF and `m_checked_idx` is 1, so the byte at
`m_checked_idx` is a LF and the byte before it a CR; `parse_line` returns `LINE_BAD` and leaves
`m_checked_idx` at 1. -/
theorem parse_line_lf_at_one_is_bad :
    (Scenario.conn_crlf_at_one.m_checked_idx, Scenario.conn_crlf_at_one.m_read_idx,
        Scenario.conn_crlf_at_one.m_read_buf 1, Scenario.conn_crlf_at_one.m_read_buf 0)
      = (1, 2, 10, 13)
    ∧ (Scenario.conn_crlf_at_one.parse_line.1, Scenario.conn_crlf_at_one.parse_line.2.m_checked_idx)
      = (LINE_STATUS.LINE_BAD, 1) := by
  decide!

/-- C24 (corrected): `m_checked_idx` is greater than 1 and below `m_read_idx`, the byte at
`m_checked_idx` is a LF and the byte just before it a CR.  Then `parse_line` returns `LINE_OK`,
sets both bytes to NUL and advances `m_checked_idx` past the LF. -/
theorem parse_line_lf_after_cr (c : http_conn) (h1 : 1 < c.m_checked_idx)
    (hlt : c.m_checked_idx < c.m_read_idx) (hlf : c.m_read_buf c.m_checked_idx = 10)
    (hcr : c.m_read_buf (c.m_checked_idx - 1) = 13) :
    c.parse_line = (LINE_STATUS.LINE_OK,
      { c with
        m_read_buf := (c.m_read_buf.set (c.m_checked_idx - 1) 0).set c.m_checked_idx 0
        m_checked_idx := c.m_checked_idx + 1 })
    ∧ c.parse_line.2.m_read_buf (c.m_checked_idx - 1) = 0
    ∧ c.parse_line.2.m_read_buf c.m_checked_idx = 0 := by
  have h13 : ¬ c.m_read_buf c.m_checked_idx = 13 := by rw [hlf]; decide
  have key : c.parse_line = (LINE_STATUS.LINE_OK,
      { c with
        m_read_buf := (c.m_read_buf.set (c.m_checked_idx - 1) 0).set c.m_checked_idx 0
        m_checked_idx := c.m_checked_idx + 1 }) := by
    rw [parse_line_unfold, if_pos hlt, if_neg h13, if_pos hlf, if_pos ⟨h1, hcr⟩]
  rw [key]
  refine ⟨rfl, ?_, ?_⟩
  · simp [Mem.set]
  · simp [Mem.set]

theorem parse_line_lf_after_cr_witness :
    1 < Scenario.conn_crlf_at_two.m_checked_idx
    ∧ Scenario.conn_crlf_at_two.m_checked_idx < Scenario.conn_crlf_at_two.m_read_idx
    ∧ Scenario.conn_crlf_at_two.m_read_buf Scenario.conn_crlf_at_two.m_checked_idx = 10
    ∧ Scenario.conn_crlf_at_two.m_read_buf (Scenario.conn_crlf_at_two.m_checked_idx - 1) = 13
    ∧ Scenario.conn_crlf_at_two.parse_line.1 = LINE_STATUS.LINE_OK
    ∧ Scenario.conn_crlf_at_two.parse_line.2.m_checked_idx = 3 :=
  ⟨by decide!, by decide!, by decide!, by decide!,
    by rw [(parse_line_lf_after_cr Scenario.conn_crlf_at_two (by decide!) (by decide!)
      (by decide!) (by decide!)).1],
    by decide!⟩

/-- C25: `m_checked_idx` is not above `m_read_idx`, and the bytes from `m_checked_idx` up to
`m_read_idx` contain no LF and no CR except possibly a CR as the last of them.  Then `parse_line`
returns `LINE_OPEN`, leaves the buffer as it is, and leaves `m_checked_idx` at the index of that
trailing CR when there is one and at `m_read_idx` otherwise. -/
theorem parse_line_open (c : http_conn) (hle : c.m_checked_idx ≤ c.m_read_idx)
    (hno : ∀ j, c.m_checked_idx ≤ j → j < c.m_read_idx →
      c.m_read_buf j ≠ 10 ∧ (c.m_read_buf j = 13 → j + 1 = c.m_read_idx)) :
    c.parse_line = (LINE_STATUS.LINE_OPEN,
      { c with m_checked_idx :=
          if c.m_checked_idx < c.m_read_idx ∧ c.m_read_buf (c.m_read_idx - 1) = 13 then
            c.m_read_idx - 1
          else c.m_read_idx })
    ∧ c.parse_line.2.m_read_buf = c.m_read_buf := by
  have key : c.parse_line = (LINE_STATUS.LINE_OPEN,
      { c with m_checked_idx :=
          if c.m_checked_idx < c.m_read_idx ∧ c.m_read_buf (c.m_read_idx - 1) = 13 then
            c.m_read_idx - 1
          else c.m_read_idx }) := by
    by_cases hA : c.m_checked_idx < c.m_read_idx ∧ c.m_read_buf (c.m_read_idx - 1) = 13
    · rw [if_pos hA]
      have e : c.m_checked_idx + (((c.m_read_idx - 1 - c.m_checked_idx).toNat : Nat) : Int)
          = c.m_read_idx - 1 := by omega
      rw [parse_line_skip (c.m_read_idx - 1 - c.m_checked_idx).toNat c (by omega)
        (fun k hk => by
          have h := hno (c.m_checked_idx + k) (by omega) (by omega)
          refine ⟨fun h13 => ?_, h.1⟩
          have := h.2 h13
          omega), e, parse_line_unfold]
      simp only
      rw [if_pos (by omega), if_pos hA.2, if_pos (by omega)]
    · rw [if_neg hA]
      have e : c.m_checked_idx + (((c.m_read_idx - c.m_checked_idx).toNat : Nat) : Int)
          = c.m_read_idx := by omega
      rw [parse_line_skip (c.m_read_idx - c.m_checked_idx).toNat c (by omega)
        (fun k hk => by
          have h := hno (c.m_checked_idx + k) (by omega) (by omega)
          refine ⟨fun h13 => ?_, h.1⟩
          have h2 := h.2 h13
          apply hA
          refine ⟨by omega, ?_⟩
          have e2 : c.m_read_idx - 1 = c.m_checked_idx + (k : Int) := by omega
          rw [e2]; exact h13), e]
      exact parse_line_at_end _ rfl
  rw [key]
  exact ⟨rfl, rfl⟩

theorem parse_line_open_witness :
    ((fresh 0 Scenario.doc_root).received (bytes "ab\r")).m_checked_idx
      ≤ ((fresh 0 Scenario.doc_root).received (bytes "ab\r")).m_read_idx
    ∧ (∀ j, ((fresh 0 Scenario.doc_root).received (bytes "ab\r")).m_checked_idx ≤ j →
        j < ((fresh 0 Scenario.doc_root).received (bytes "ab\r")).m_read_idx →
        ((fresh 0 Scenario.doc_root).received (bytes "ab\r")).m_read_buf j ≠ 10
        ∧ (((fresh 0 Scenario.doc_root).received (bytes "ab\r")).m_read_buf j = 13 →
          j + 1 = ((fresh 0 Scenario.doc_root).received (bytes "ab\r")).m_read_idx))
    ∧ ((fresh 0 Scenario.doc_root).received (bytes "ab\r")).parse_line.1 = LINE_STATUS.LINE_OPEN
    ∧ ((fresh 0 Scenario.doc_root).received (bytes "ab\r")).parse_line.2.m_checked_idx = 2
    ∧ ((fresh 0 Scenario.doc_root).received (bytes "ab\r")).parse_line.2.m_read_buf
      = ((fresh 0 Scenario.doc_root).received (bytes "ab\r")).m_read_buf := by
  have h0 : ((fresh 0 Scenario.doc_root).received (bytes "ab\r")).m_checked_idx = 0 := by
    decide!
  have h3 : ((fresh 0 Scenario.doc_root).received (bytes "ab\r")).m_read_idx = 3 := by
    decide!
  have hno : ∀ j, ((fresh 0 Scenario.doc_root).received (bytes "ab\r")).m_checked_idx ≤ j →
      j < ((fresh 0 Scenario.doc_root).received (bytes "ab\r")).m_read_idx →
      ((fresh 0 Scenario.doc_root).received (bytes "ab\r")).m_read_buf j ≠ 10
      ∧ (((fresh 0 Scenario.doc_root).received (bytes "ab\r")).m_read_buf j = 13 →
        j + 1 = ((fresh 0 Scenario.doc_root).received (bytes "ab\r")).m_read_idx) := by
    intro j h1 h2
    rw [h0] at h1
    rw [h3] at h2 ⊢
    have hj : j = 0 ∨ j = 1 ∨ j = 2 := by omega
    rcases hj with rfl | rfl | rfl
    · decide!
    · decide!
    · decide!
  have key := parse_line_open ((fresh 0 Scenario.doc_root).received (bytes "ab\r"))
    (by decide!) hno
  exact ⟨by decide!, hno, by rw [key.1], by decide!, key.2⟩

end http_conn

end WebServer
